import Mathlib

/-!
NEO-6M NMEA driver: registry, line framer, dispatcher and field parser.

A shallow embedding of `src/neo-6m.c` / `src/neo-6m.h`.

Conventions of the embedding

* a C array is a `List`; the declared length is a well-formedness hypothesis
  (`NEO6M_Handle_t.WF`), a `char` is a `Char`, `'\0'` is NUL;
* a function pointer is a value of an enumeration (`Callback_t`,
  `HandlerFunction_t`), `NULL` is `none`;
* machine integers are `Nat` with an explicit modulus where the C type wraps;
* undefined behaviour (out-of-bounds store, a `NULL` returned by `strchr` that is
  advanced and read, a call through a `NULL` pointer) is the result `none`;
* calls that leave the program (`HAL_UART_Receive_IT`, the user callbacks) are
  recorded in the result of the function that makes them.
-/

namespace Neo6m

/-! ## Constants and types of `neo-6m.h` -/

/-- Capacity of the receive buffer (`RX_BUFFER_SIZE`). -/
def RX_BUFFER_SIZE : Nat := 100

/-- Number of registry slots (`EXPECTED_MESSAGES_BUFF_SIZE`). -/
def EXPECTED_MESSAGES_BUFF_SIZE : Nat := 12

/-- Supported NMEA standard messages (`MessagesTypes_t`). -/
inductive MessagesTypes_t
  | EMPTY | GLL | GGA | GSA | GSV | RMC | VTG
  deriving DecidableEq, Repr

/-- Numeric value of an enumerator of `MessagesTypes_t`. -/
def MessagesTypes_t.toNat : MessagesTypes_t → Nat
  | .EMPTY => 0 | .GLL => 1 | .GGA => 2 | .GSA => 3 | .GSV => 4 | .RMC => 5 | .VTG => 6

/-- Receive status (`ReceiveStatus_t`). -/
inductive ReceiveStatus_t
  | NEO_FREE | NEO_WAITING
  deriving DecidableEq, Repr

/-- Result of `HAL_UART_Receive_IT`; only `HAL_OK` is distinguished by the driver. -/
inductive HAL_StatusTypeDef
  | HAL_OK | HAL_ERROR | HAL_BUSY | HAL_TIMEOUT
  deriving DecidableEq, Repr

/-- The six user callbacks, as values of the `callback` function pointer. -/
inductive Callback_t
  | NEO6M_GLLCallBack | NEO6M_GGACallBack | NEO6M_GSACallBack
  | NEO6M_GSVCallBack | NEO6M_RMCCallBack | NEO6M_VTGCallBack
  deriving DecidableEq, Repr

/-- A registry descriptor (`NMEA_StandardMessage_t`): kind, the seven bytes of
`formatter`, and the callback pointer (`none` is `NULL`). -/
structure NMEA_StandardMessage_t where
  type : MessagesTypes_t
  formatter : List Char
  callback : Option Callback_t
  deriving DecidableEq, Repr

/-- The driver handle (`NEO6M_Handle_t`). -/
structure NEO6M_Handle_t where
  expectedMessages : List NMEA_StandardMessage_t
  expectedMessagesCount : Nat
  receive_status : ReceiveStatus_t
  rcvdByte : Char
  rxBuff : List Char
  rxCounter : Nat
  deriving DecidableEq, Repr

/-- The array bounds and integer ranges that the C types give a handle:
12 slots, 100 buffer bytes, an 8-bit counter. -/
def NEO6M_Handle_t.WF (h : NEO6M_Handle_t) : Prop :=
  h.expectedMessages.length = EXPECTED_MESSAGES_BUFF_SIZE ∧
  h.rxBuff.length = RX_BUFFER_SIZE ∧
  h.expectedMessagesCount < 256

instance (h : NEO6M_Handle_t) : Decidable h.WF := by
  unfold NEO6M_Handle_t.WF; infer_instance

/-! ## The static catalogs of `neo-6m.c` -/

/-- The bytes of a `char[7]` initialised from a 6-character string literal. -/
def formatterOf (s : String) : List Char := s.toList ++ ['\x00']

/-- Entry `NMEA_STANDART_MESSAGGES[EMPTY]`: `{EMPTY, {0}, NULL}`. -/
def emptyMessage : NMEA_StandardMessage_t :=
  { type := .EMPTY, formatter := List.replicate 7 '\x00', callback := none }

/-- The catalog `NMEA_STANDART_MESSAGGES`, indexed by kind. -/
def NMEA_STANDART_MESSAGGES : MessagesTypes_t → NMEA_StandardMessage_t
  | .EMPTY => emptyMessage
  | .GLL => { type := .GLL, formatter := formatterOf "$GPGLL", callback := some .NEO6M_GLLCallBack }
  | .GGA => { type := .GGA, formatter := formatterOf "$GPGGA", callback := some .NEO6M_GGACallBack }
  | .GSA => { type := .GSA, formatter := formatterOf "$GPGSA", callback := some .NEO6M_GSACallBack }
  | .GSV => { type := .GSV, formatter := formatterOf "$GPGSV", callback := some .NEO6M_GSVCallBack }
  | .RMC => { type := .RMC, formatter := formatterOf "$GPRMC", callback := some .NEO6M_RMCCallBack }
  | .VTG => { type := .VTG, formatter := formatterOf "$GPVTG", callback := some .NEO6M_VTGCallBack }

/-- The six static handlers, as values of `HandlerFunction_t`. -/
inductive HandlerFunction_t
  | gll_handle | gga_handle | gsa_handle | gsv_handle | rmc_handle | vtg_handle
  deriving DecidableEq, Repr

/-- The table `NMEA_MESSAGGES_HANDLERS`. -/
def NMEA_MESSAGGES_HANDLERS : List HandlerFunction_t :=
  [.gll_handle, .gga_handle, .gsa_handle, .gsv_handle, .rmc_handle, .vtg_handle]

/-- A handle whose storage is all zero bytes. -/
def zeroHandle : NEO6M_Handle_t :=
  { expectedMessages := List.replicate EXPECTED_MESSAGES_BUFF_SIZE emptyMessage
    expectedMessagesCount := 0
    receive_status := .NEO_FREE
    rcvdByte := '\x00'
    rxBuff := List.replicate RX_BUFFER_SIZE '\x00'
    rxCounter := 0 }

/-! ## Registry operations -/

/-- Outcome of `NEO6M_AddExpectedMessage`: the handle afterwards, the returned
flag, and the number of `HAL_UART_Receive_IT` calls it made. -/
structure AddResult where
  handle : NEO6M_Handle_t
  ret : Nat
  uartRequests : Nat
  deriving DecidableEq, Repr

/-- The search loop of `NEO6M_AddExpectedMessage`, `n` iterations left, at index `i`;
returns the handle and `flag`. -/
def addLoop (message_type : MessagesTypes_t) (handle : NEO6M_Handle_t) :
    Nat → Nat → NEO6M_Handle_t × Nat
  | 0, _ => (handle, 1)
  | n + 1, i =>
    if (handle.expectedMessages.getD i emptyMessage).callback = none then
      ({ handle with
          expectedMessages := handle.expectedMessages.set i (NMEA_STANDART_MESSAGGES message_type)
          expectedMessagesCount := (handle.expectedMessagesCount + 1) % 256 }, 0)
    else addLoop message_type handle n (i + 1)

/-- Function `NEO6M_AddExpectedMessage`; `hal` is what `HAL_UART_Receive_IT` answers if it is called. -/
def NEO6M_AddExpectedMessage (handle : NEO6M_Handle_t) (message_type : MessagesTypes_t)
    (hal : HAL_StatusTypeDef) : AddResult :=
  let (h1, flag) := addLoop message_type handle EXPECTED_MESSAGES_BUFF_SIZE 0
  if flag = 0 then
    if h1.receive_status = .NEO_FREE then
      { handle := { h1 with receive_status := .NEO_WAITING }
        ret := if hal ≠ .HAL_OK then 1 else flag
        uartRequests := 1 }
    else { handle := h1, ret := flag, uartRequests := 0 }
  else { handle := h1, ret := flag, uartRequests := 0 }

/-- The loop of `NEO6M_RemoveExpectedMessage`, `n` iterations left, at index `i`;
returns the handle and the return value. -/
def removeLoop (message_type : MessagesTypes_t) (handle : NEO6M_Handle_t) :
    Nat → Nat → NEO6M_Handle_t × Nat
  | 0, _ => (handle, 1)
  | n + 1, i =>
    if (handle.expectedMessages.getD i emptyMessage).type = message_type then
      let cnt := (handle.expectedMessagesCount + 255) % 256
      ({ handle with
          expectedMessages := handle.expectedMessages.set i (NMEA_STANDART_MESSAGGES .EMPTY)
          expectedMessagesCount := cnt
          receive_status := if cnt < 1 then .NEO_FREE else handle.receive_status }, 0)
    else removeLoop message_type handle n (i + 1)

/-- Function `NEO6M_RemoveExpectedMessage`: the handle afterwards and the return value. -/
def NEO6M_RemoveExpectedMessage (handle : NEO6M_Handle_t) (message_type : MessagesTypes_t) :
    NEO6M_Handle_t × Nat :=
  removeLoop message_type handle EXPECTED_MESSAGES_BUFF_SIZE 0

/-! ## The C library functions the driver calls -/

/-- The part of the C library that is not modelled in detail: the value `strtod`
converts a text to (a `double`, idealised as an exact rational) and the conversion
of a `double` to `float` performed by an assignment. -/
structure LibC where
  strtod : List Char → ℚ
  toFloat : ℚ → ℚ

/-- Constant `LONG_MAX` of the target (32-bit `long`). -/
def LONG_MAX : Int := 2147483647

/-- Constant `LONG_MIN` of the target (32-bit `long`). -/
def LONG_MIN : Int := -2147483648

/-- Function `isspace` in the C locale. -/
def isspace (c : Char) : Bool :=
  c = ' ' || c = '\t' || c = '\n' || c = '\x0b' || c = '\x0c' || c = '\r'

/-- Value of `c` as a digit or letter of `strtol` (36 for any other character). -/
def digitCode (c : Char) : Nat :=
  if '0' ≤ c ∧ c ≤ '9' then c.toNat - 48
  else if 'a' ≤ c ∧ c ≤ 'z' then c.toNat - 87
  else if 'A' ≤ c ∧ c ≤ 'Z' then c.toNat - 55
  else 36

/-- Value of `c` as a digit of `strtol` in the given base, if it is one. -/
def digitVal (base : Nat) (c : Char) : Option Nat :=
  if digitCode c < base then some (digitCode c) else none

/-- The digit loop of `strtol`: consumes digits of the base, stops at the first other
character (the terminating NUL included). -/
def strtolDigits (base : Nat) : List Char → Nat → Nat
  | [], acc => acc
  | c :: cs, acc =>
    match digitVal base c with
    | some d => strtolDigits base cs (acc * base + d)
    | none => acc

/-- Function `strtol(nptr, NULL, base)` for base 10 or 16: white space, an optional sign, for
base 16 an optional `0x`, then digits; the result saturates at the range of `long`. -/
def strtol (nptr : List Char) (base : Nat) : Int :=
  let s1 := nptr.dropWhile isspace
  let neg := s1.head? = some '-'
  let s2 := if s1.head? = some '-' ∨ s1.head? = some '+' then s1.tail else s1
  let s3 :=
    if base = 16 ∧ s2.head? = some '0' ∧ (s2.tail.head? = some 'x' ∨ s2.tail.head? = some 'X')
    then s2.tail.tail else s2
  let n : Int := strtolDigits base s3 0
  if neg then max (-n) LONG_MIN else min n LONG_MAX

/-- Function `strchr(s, c)` on the characters of a string: the suffix that starts at the first
`c`, or `none` for `NULL`. -/
def strchr : List Char → Char → Option (List Char)
  | [], _ => none
  | x :: xs, c => if x = c then some (x :: xs) else strchr xs c

/-- Test `strncmp(a, b, n) == 0` on two character arrays. An array that ends before the
comparison does is outside the model (the driver compares a 100-byte and a 7-byte
array over 6 characters). -/
def strncmp_eq0 : List Char → List Char → Nat → Bool
  | _, _, 0 => true
  | a :: as, b :: bs, n + 1 =>
    if a ≠ b then false else if a = '\x00' then true else strncmp_eq0 as bs n
  | _, _, _ + 1 => false

/-- The string stored in a character array: the characters before the first NUL.
An array without NUL holds no string (`none`): the string functions would read past it. -/
def cstr? (buf : List Char) : Option (List Char) :=
  if '\x00' ∈ buf then some (buf.takeWhile (· ≠ '\x00')) else none

/-- Function `strtok_r(s, "\n", &saveptr)` on the characters of a string: the next token
(`none` for `NULL`) and the new `saveptr`. -/
def strtok_r (s : List Char) : Option (List Char) × List Char :=
  let s1 := s.dropWhile (· = '\n')
  if s1 = [] then (none, [])
  else (some (s1.takeWhile (· ≠ '\n')), (s1.dropWhile (· ≠ '\n')).drop 1)

/-! ## The field parser -/

/-- A value stored through one output pointer of `nmea_parser`, tagged with the C type
of the pointer. -/
inductive Value
  | f (x : ℚ) | d (x : ℚ) | c (x : Char) | u8 (n : Nat) | u16 (n : Nat) | u32 (n : Nat)
  deriving DecidableEq, Repr

/-- The `for` loop of `nmea_parser` over the format string: `ptr` is the current position
in the package, the result lists the stored values in argument order. A `NULL` from
`strchr` is advanced and read by the code, which is undefined: `none`. -/
def nmea_tags (L : LibC) : List Char → List Char → Option (List Value)
  | _, [] => some []
  | ptr, fmt :: formats =>
    if fmt = 'f' then
      match strchr ptr ',' with
      | none => none
      | some p => (nmea_tags L p.tail formats).map (Value.f (L.toFloat (L.strtod p.tail)) :: ·)
    else if fmt = 'c' then
      match strchr ptr ',' with
      | none => none
      | some p => (nmea_tags L p.tail formats).map (Value.c (p.tail.headD '\x00') :: ·)
    else if fmt = '8' then
      match strchr ptr ',' with
      | none => none
      | some p => (nmea_tags L p.tail formats).map (Value.u8 (strtol p.tail 10 % 256).toNat :: ·)
    else if fmt = 'd' then
      match strchr ptr ',' with
      | none => none
      | some p => (nmea_tags L p.tail formats).map (Value.d (L.strtod p.tail) :: ·)
    else if fmt = '1' then
      match strchr ptr ',' with
      | none => none
      | some p => (nmea_tags L p.tail formats).map (Value.u16 (strtol p.tail 10 % 65536).toNat :: ·)
    else if fmt = '3' then
      match strchr ptr ',' with
      | none => none
      | some p =>
        (nmea_tags L p.tail formats).map (Value.u32 (strtol p.tail 10 % 4294967296).toNat :: ·)
    else (nmea_tags L ptr formats).map (Value.u8 0 :: ·)

/-- Function `nmea_parser(package, formats, ...)`: the values stored for the tags, in order, and
the value stored through the last pointer (the checksum). -/
def nmeaParser (L : LibC) (package formats : List Char) : Option (List Value × Nat) :=
  match nmea_tags L package formats with
  | none => none
  | some outs =>
    match strchr package '*' with
    | none => none
    | some p => some (outs, (strtol p.tail 16 % 65536).toNat)

/-- Function `gsv_get_noMsg(buff)`: `strtol(&buff[7], NULL, 10)` stored in a `uint8_t`. -/
def gsv_get_noMsg (buff : List Char) : Option Nat :=
  match cstr? (buff.drop 7) with
  | none => none
  | some s => some (strtol s 10 % 256).toNat

/-- A decimal reading of `strtod` (sign, digits, optional fraction), used to evaluate the
model on concrete sentences. -/
def decimalStrtod (s : List Char) : ℚ :=
  let s1 := s.dropWhile isspace
  let neg := s1.head? = some '-'
  let s2 := if s1.head? = some '-' ∨ s1.head? = some '+' then s1.tail else s1
  let ip := s2.takeWhile Char.isDigit
  let r := s2.dropWhile Char.isDigit
  let fp := if r.head? = some '.' then r.tail.takeWhile Char.isDigit else []
  let v : ℚ := (strtolDigits 10 ip 0 : ℚ) + (strtolDigits 10 fp 0 : ℚ) / (10 ^ fp.length : ℚ)
  if neg then -v else v

/-- A concrete C library for evaluation: decimal `strtod`, exact `float`. -/
def refLibC : LibC := { strtod := decimalStrtod, toFloat := id }

/-! ## Records of `neo-6m.h` -/

/-- Record `GGA_Package_t`. -/
structure GGA_Package_t where
  time : Nat
  latitude : ℚ
  ns : Char
  longitude : ℚ
  ew : Char
  fs : Nat
  noSV : Nat
  hdop : ℚ
  msl : ℚ
  uMsl : Char
  altref : ℚ
  uSep : Char
  diffAge : Nat
  diffStation : Nat
  cs : Nat
  deriving DecidableEq, Repr

/-- Record `GLL_Package_t`. -/
structure GLL_Package_t where
  latitude : ℚ
  ns : Char
  longitude : ℚ
  ew : Char
  time : Nat
  valid : Char
  mode : Char
  cs : Nat
  deriving DecidableEq, Repr

/-- Record `GSA_Package_t`; `sv` is the array `sv[12]`. -/
structure GSA_Package_t where
  sMode : Char
  fs : Nat
  sv : List Nat
  pdop : ℚ
  hdop : ℚ
  vdop : ℚ
  cs : Nat
  deriving DecidableEq, Repr

/-- Record `SV_Info_t`. -/
structure SV_Info_t where
  sv : Nat
  elv : Nat
  az : Nat
  cno : Nat
  deriving DecidableEq, Repr

/-- Record `GSV_Package_t`; `repeated_block` is the array `repeated_block[4]`. -/
structure GSV_Package_t where
  noMsg : Nat
  msgNo : Nat
  noSV : Nat
  repeated_block : List SV_Info_t
  cs : Nat
  deriving DecidableEq, Repr

/-- Record `RMC_Package_t`. -/
structure RMC_Package_t where
  time : Nat
  status : Char
  latitude : ℚ
  ns : Char
  longitude : ℚ
  ew : Char
  spd : ℚ
  cog : ℚ
  date : Nat
  mv : ℚ
  mvE : Char
  mode : Char
  cs : Nat
  deriving DecidableEq, Repr

/-- Record `VTG_Package_t` (the field `true` of the source is `true_`). -/
structure VTG_Package_t where
  cogt : ℚ
  true_ : Char
  cogm : Nat
  magnetic : Char
  sog : ℚ
  knots : Char
  kph : ℚ
  kilometers : Char
  mode : Char
  cs : Nat
  deriving DecidableEq, Repr

/-- The record a callback receives through its `void *` argument. -/
inductive Package
  | gga (p : GGA_Package_t) | gll (p : GLL_Package_t) | gsa (p : GSA_Package_t)
  | gsv (p : GSV_Package_t) | rmc (p : RMC_Package_t) | vtg (p : VTG_Package_t)
  deriving DecidableEq, Repr

/-- One call of a user callback. -/
structure CallbackEvent where
  callback : Callback_t
  package : Package
  deriving DecidableEq, Repr

/-- The value stored through a `float *`. -/
def Value.f? : Value → Option ℚ
  | .f x => some x | _ => none

/-- The value stored through a `double *`. -/
def Value.d? : Value → Option ℚ
  | .d x => some x | _ => none

/-- The value stored through a `char *`. -/
def Value.c? : Value → Option Char
  | .c x => some x | _ => none

/-- The value stored through a `uint8_t *`. -/
def Value.u8? : Value → Option Nat
  | .u8 x => some x | _ => none

/-- The value stored through a `uint16_t *`. -/
def Value.u16? : Value → Option Nat
  | .u16 x => some x | _ => none

/-- The value stored through a `uint32_t *`. -/
def Value.u32? : Value → Option Nat
  | .u32 x => some x | _ => none

/-! ## Handlers -/

/-- Constant `INT_MAX` of the target. -/
def INT_MAX : Int := 2147483647

/-- Constant `INT_MIN` of the target. -/
def INT_MIN : Int := -2147483648

/-- Conversion `(int)x` of a `double`: truncation toward zero, undefined (`none`) when
the truncated value is not an `int`. -/
def doubleToInt (x : ℚ) : Option Int :=
  let t := Int.tdiv x.num x.den
  if INT_MIN ≤ t ∧ t ≤ INT_MAX then some t else none

/-- Function `nmea_to_dec(deg_coord, nsew)` over exact arithmetic; `none` when the conversion to
`int` or the `int` product `degree*100` overflows. -/
def nmea_to_dec (deg_coord : ℚ) (nsew : Char) : Option ℚ :=
  match doubleToInt (deg_coord / 100) with
  | none => none
  | some degree =>
    if INT_MIN ≤ degree * 100 ∧ degree * 100 ≤ INT_MAX then
      let minutes : ℚ := deg_coord - ((degree * 100 : Int) : ℚ)
      let dec_deg : ℚ := minutes / 60
      let decimal : ℚ := (degree : ℚ) + dec_deg
      some (if nsew = 'S' ∨ nsew = 'W' then decimal * (-1) else decimal)
    else none

/-- The call `handle->expectedMessages[message_num].callback(&package)`; calling through
`NULL` is undefined. -/
def callCallback (handle : NEO6M_Handle_t) (message_num : Nat) (package : Package) :
    Option (List CallbackEvent) :=
  match (handle.expectedMessages.getD message_num emptyMessage).callback with
  | none => none
  | some cb => some [{ callback := cb, package := package }]

/-- Function `gga_handle`. -/
def gga_handle (L : LibC) (handle : NEO6M_Handle_t) (message_num : Nat) :
    Option (List CallbackEvent) :=
  match cstr? handle.rxBuff with
  | none => none
  | some package =>
  match nmeaParser L package "3dcdc88ffcfc88".toList with
  | none => none
  | some (outs, cs) =>
  match
    (outs.get? 0).bind Value.u32?, (outs.get? 1).bind Value.d?, (outs.get? 2).bind Value.c?,
    (outs.get? 3).bind Value.d?, (outs.get? 4).bind Value.c?, (outs.get? 5).bind Value.u8?,
    (outs.get? 6).bind Value.u8?, (outs.get? 7).bind Value.f?, (outs.get? 8).bind Value.f?,
    (outs.get? 9).bind Value.c?, (outs.get? 10).bind Value.f?, (outs.get? 11).bind Value.c?,
    (outs.get? 12).bind Value.u8?, (outs.get? 13).bind Value.u8?
  with
  | some time, some latitude, some ns, some longitude, some ew, some fs, some noSV, some hdop,
    some msl, some uMsl, some altref, some uSep, some diffAge, some diffStation =>
    match nmea_to_dec latitude ns, nmea_to_dec longitude ew with
    | some latitude, some longitude =>
      callCallback handle message_num (.gga
        { time := time, latitude := latitude, ns := ns, longitude := longitude, ew := ew,
          fs := fs, noSV := noSV, hdop := hdop, msl := msl, uMsl := uMsl, altref := altref,
          uSep := uSep, diffAge := diffAge, diffStation := diffStation, cs := cs })
    | _, _ => none
  | _, _, _, _, _, _, _, _, _, _, _, _, _, _ => none

/-- Function `gll_handle`. -/
def gll_handle (L : LibC) (handle : NEO6M_Handle_t) (message_num : Nat) :
    Option (List CallbackEvent) :=
  match cstr? handle.rxBuff with
  | none => none
  | some package =>
  match nmeaParser L package "dcdc3cc".toList with
  | none => none
  | some (outs, cs) =>
  match
    (outs.get? 0).bind Value.d?, (outs.get? 1).bind Value.c?, (outs.get? 2).bind Value.d?,
    (outs.get? 3).bind Value.c?, (outs.get? 4).bind Value.u32?, (outs.get? 5).bind Value.c?,
    (outs.get? 6).bind Value.c?
  with
  | some latitude, some ns, some longitude, some ew, some time, some valid, some mode =>
    match nmea_to_dec latitude ns, nmea_to_dec longitude ew with
    | some latitude, some longitude =>
      callCallback handle message_num (.gll
        { latitude := latitude, ns := ns, longitude := longitude, ew := ew, time := time,
          valid := valid, mode := mode, cs := cs })
    | _, _ => none
  | _, _, _, _, _, _, _ => none

/-- Function `gsa_handle`. -/
def gsa_handle (L : LibC) (handle : NEO6M_Handle_t) (message_num : Nat) :
    Option (List CallbackEvent) :=
  match cstr? handle.rxBuff with
  | none => none
  | some package =>
  match nmeaParser L package "c8888888888888fff".toList with
  | none => none
  | some (outs, cs) =>
  match
    (outs.get? 0).bind Value.c?, (outs.get? 1).bind Value.u8?, (outs.get? 2).bind Value.u8?,
    (outs.get? 3).bind Value.u8?, (outs.get? 4).bind Value.u8?, (outs.get? 5).bind Value.u8?,
    (outs.get? 6).bind Value.u8?, (outs.get? 7).bind Value.u8?, (outs.get? 8).bind Value.u8?,
    (outs.get? 9).bind Value.u8?, (outs.get? 10).bind Value.u8?, (outs.get? 11).bind Value.u8?,
    (outs.get? 12).bind Value.u8?, (outs.get? 13).bind Value.u8?, (outs.get? 14).bind Value.f?,
    (outs.get? 15).bind Value.f?, (outs.get? 16).bind Value.f?
  with
  | some sMode, some fs, some sv0, some sv1, some sv2, some sv3, some sv4, some sv5, some sv6,
    some sv7, some sv8, some sv9, some sv10, some sv11, some pdop, some hdop, some vdop =>
    callCallback handle message_num (.gsa
      { sMode := sMode, fs := fs,
        sv := [sv0, sv1, sv2, sv3, sv4, sv5, sv6, sv7, sv8, sv9, sv10, sv11], pdop := pdop,
        hdop := hdop, vdop := vdop, cs := cs })
  | _, _, _, _, _, _, _, _, _, _, _, _, _, _, _, _, _ => none

/-- Function `rmc_handle`. -/
def rmc_handle (L : LibC) (handle : NEO6M_Handle_t) (message_num : Nat) :
    Option (List CallbackEvent) :=
  match cstr? handle.rxBuff with
  | none => none
  | some package =>
  match nmeaParser L package "3cdcdcff3fcc".toList with
  | none => none
  | some (outs, cs) =>
  match
    (outs.get? 0).bind Value.u32?, (outs.get? 1).bind Value.c?, (outs.get? 2).bind Value.d?,
    (outs.get? 3).bind Value.c?, (outs.get? 4).bind Value.d?, (outs.get? 5).bind Value.c?,
    (outs.get? 6).bind Value.f?, (outs.get? 7).bind Value.f?, (outs.get? 8).bind Value.u32?,
    (outs.get? 9).bind Value.f?, (outs.get? 10).bind Value.c?, (outs.get? 11).bind Value.c?
  with
  | some time, some status, some latitude, some ns, some longitude, some ew, some spd,
    some cog, some date, some mv, some mvE, some mode =>
    match nmea_to_dec latitude ns, nmea_to_dec longitude ew with
    | some latitude, some longitude =>
      callCallback handle message_num (.rmc
        { time := time, status := status, latitude := latitude, ns := ns,
          longitude := longitude, ew := ew, spd := spd, cog := cog, date := date, mv := mv,
          mvE := mvE, mode := mode, cs := cs })
    | _, _ => none
  | _, _, _, _, _, _, _, _, _, _, _, _ => none

/-- Function `vtg_handle`. -/
def vtg_handle (L : LibC) (handle : NEO6M_Handle_t) (message_num : Nat) :
    Option (List CallbackEvent) :=
  match cstr? handle.rxBuff with
  | none => none
  | some package =>
  match nmeaParser L package "fc8cfcfcc".toList with
  | none => none
  | some (outs, cs) =>
  match
    (outs.get? 0).bind Value.f?, (outs.get? 1).bind Value.c?, (outs.get? 2).bind Value.u8?,
    (outs.get? 3).bind Value.c?, (outs.get? 4).bind Value.f?, (outs.get? 5).bind Value.c?,
    (outs.get? 6).bind Value.f?, (outs.get? 7).bind Value.c?, (outs.get? 8).bind Value.c?
  with
  | some cogt, some true_, some cogm, some magnetic, some sog, some knots, some kph,
    some kilometers, some mode =>
    callCallback handle message_num (.vtg
      { cogt := cogt, true_ := true_, cogm := cogm, magnetic := magnetic, sog := sog,
        knots := knots, kph := kph, kilometers := kilometers, mode := mode, cs := cs })
  | _, _, _, _, _, _, _, _, _ => none

/-! ### The GSV handler and its static reassembly state -/

/-- The function-local statics of `gsv_handle`. -/
structure GsvState where
  gsv_buff : List Char
  gsv_count : Nat
  gsv_buff_len : Nat
  deriving DecidableEq, Repr

/-- The statics as initialised: `gsv_buff[300]={0}`, `gsv_count=0`, `gsv_buff_len=0`. -/
def gsvInit : GsvState :=
  { gsv_buff := List.replicate 300 '\x00', gsv_count := 0, gsv_buff_len := 0 }

/-- The record built from the values `nmea_parser` stores for `"8888818881888188818"`. -/
def gsvPackage (outs : List Value) (cs : Nat) : Option GSV_Package_t :=
  match
    (outs.get? 0).bind Value.u8?, (outs.get? 1).bind Value.u8?, (outs.get? 2).bind Value.u8?,
    (outs.get? 3).bind Value.u8?, (outs.get? 4).bind Value.u8?, (outs.get? 5).bind Value.u16?,
    (outs.get? 6).bind Value.u8?, (outs.get? 7).bind Value.u8?, (outs.get? 8).bind Value.u8?,
    (outs.get? 9).bind Value.u16?, (outs.get? 10).bind Value.u8?,
    (outs.get? 11).bind Value.u8?, (outs.get? 12).bind Value.u8?,
    (outs.get? 13).bind Value.u16?, (outs.get? 14).bind Value.u8?,
    (outs.get? 15).bind Value.u8?, (outs.get? 16).bind Value.u8?,
    (outs.get? 17).bind Value.u16?, (outs.get? 18).bind Value.u8?
  with
  | some noMsg, some msgNo, some noSV, some sv0, some elv0, some az0, some cno0, some sv1,
    some elv1, some az1, some cno1, some sv2, some elv2, some az2, some cno2, some sv3,
    some elv3, some az3, some cno3 =>
    some
      { noMsg := noMsg, msgNo := msgNo, noSV := noSV,
        repeated_block :=
          [{ sv := sv0, elv := elv0, az := az0, cno := cno0 },
           { sv := sv1, elv := elv1, az := az1, cno := cno1 },
           { sv := sv2, elv := elv2, az := az2, cno := cno2 },
           { sv := sv3, elv := elv3, az := az3, cno := cno3 }],
        cs := cs }
  | _, _, _, _, _, _, _, _, _, _, _, _, _, _, _, _, _, _, _ => none

/-- The flush loop of `gsv_handle`, `n` iterations left: `ptr` is the current token
(`none` is `NULL`), `saveptr` the rest of the buffer after it. -/
def gsvFlushLoop (L : LibC) (handle : NEO6M_Handle_t) (message_num : Nat) :
    Nat → Option (List Char) → List Char → Option (List CallbackEvent)
  | 0, _, _ => some []
  | _ + 1, none, _ => none
  | n + 1, some tok, saveptr =>
    match nmeaParser L tok "8888818881888188818".toList with
    | none => none
    | some (outs, cs) =>
      match gsvPackage outs cs with
      | none => none
      | some package =>
        match callCallback handle message_num (.gsv package) with
        | none => none
        | some ev =>
          match gsvFlushLoop L handle message_num n (strtok_r saveptr).1 (strtok_r saveptr).2 with
          | none => none
          | some rest => some (ev ++ rest)

/-- Function `gsv_handle`: the statics afterwards and the callback calls made. -/
def gsv_handle (L : LibC) (handle : NEO6M_Handle_t) (message_num : Nat) (g : GsvState) :
    Option (GsvState × List CallbackEvent) :=
  match gsv_get_noMsg handle.rxBuff with
  | none => none
  | some noMsg =>
    if g.gsv_count < noMsg then
      match cstr? handle.rxBuff with
      | none => none
      | some line =>
        if g.gsv_buff_len + line.length + 1 ≤ g.gsv_buff.length then
          some
            ({ gsv_buff := g.gsv_buff.take g.gsv_buff_len ++ line ++ ['\x00'] ++
                  g.gsv_buff.drop (g.gsv_buff_len + line.length + 1)
               gsv_count := (g.gsv_count + 1) % 4294967296
               gsv_buff_len := (g.gsv_buff_len + line.length) % 4294967296 }, [])
        else none
    else
      match cstr? g.gsv_buff with
      | none => none
      | some buff =>
        match gsvFlushLoop L handle message_num g.gsv_count (strtok_r buff).1 (strtok_r buff).2 with
        | none => none
        | some evs =>
          some ({ gsv_buff := List.replicate 300 '\x00', gsv_count := 0, gsv_buff_len := 0 }, evs)

/-- The body of the handler a `HandlerFunction_t` points to. -/
def HandlerFunction_t.run (L : LibC) (f : HandlerFunction_t) (handle : NEO6M_Handle_t)
    (message_num : Nat) (g : GsvState) : Option (GsvState × List CallbackEvent) :=
  match f with
  | .gll_handle => (Neo6m.gll_handle L handle message_num).map (g, ·)
  | .gga_handle => (Neo6m.gga_handle L handle message_num).map (g, ·)
  | .gsa_handle => (Neo6m.gsa_handle L handle message_num).map (g, ·)
  | .gsv_handle => Neo6m.gsv_handle L handle message_num g
  | .rmc_handle => (Neo6m.rmc_handle L handle message_num).map (g, ·)
  | .vtg_handle => (Neo6m.vtg_handle L handle message_num).map (g, ·)

/-! ## Line framer and dispatcher -/

/-- The dispatch loop of `NEO6M_MessageHandler`, `n` iterations left, at index `i`, with
`checked_types` so far: the handler calls it makes, each with its `message_num`. -/
def dispatchLoop (handler : NEO6M_Handle_t) : Nat → Nat → Nat → List (HandlerFunction_t × Nat)
  | 0, _, _ => []
  | n + 1, i, checked_types =>
    let slot := handler.expectedMessages.getD i emptyMessage
    if slot.type ≠ .EMPTY then
      if strncmp_eq0 handler.rxBuff slot.formatter 6 then
        match NMEA_MESSAGGES_HANDLERS.get? (slot.type.toNat - 1) with
        | some f => [(f, i)]
        | none => []
      else if checked_types + 1 ≥ handler.expectedMessagesCount then []
      else dispatchLoop handler n (i + 1) (checked_types + 1)
    else if checked_types ≥ handler.expectedMessagesCount then []
    else dispatchLoop handler n (i + 1) checked_types

/-- The store `handler->rxBuff[handler->rxCounter++] = handler->rcvdByte`; a store past
the array is undefined. -/
def storeByte (handler : NEO6M_Handle_t) : Option NEO6M_Handle_t :=
  if handler.rxCounter < RX_BUFFER_SIZE then
    some { handler with
      rxBuff := handler.rxBuff.set handler.rxCounter handler.rcvdByte
      rxCounter := (handler.rxCounter + 1) % 4294967296 }
  else none

/-- The handler calls one call of `NEO6M_MessageHandler` makes. -/
def handlerCalls (handler : NEO6M_Handle_t) : List (HandlerFunction_t × Nat) :=
  match storeByte handler with
  | none => []
  | some h1 =>
    if h1.rcvdByte = '\n' then dispatchLoop h1 EXPECTED_MESSAGES_BUFF_SIZE 0 0 else []

/-- Outcome of `NEO6M_MessageHandler`: handle and GSV statics afterwards, the callback
calls made, and the number of `HAL_UART_Receive_IT` calls. -/
structure MessageHandlerResult where
  handle : NEO6M_Handle_t
  gsv : GsvState
  callbacks : List CallbackEvent
  uartRequests : Nat
  deriving DecidableEq, Repr

/-- Runs the handler calls of the dispatch loop in order. -/
def runCalls (L : LibC) (handle : NEO6M_Handle_t) :
    List (HandlerFunction_t × Nat) → GsvState → Option (GsvState × List CallbackEvent)
  | [], g => some (g, [])
  | (f, i) :: rest, g =>
    match f.run L handle i g with
    | none => none
    | some (g1, ev1) =>
      match runCalls L handle rest g1 with
      | none => none
      | some (g2, ev2) => some (g2, ev1 ++ ev2)

/-- Function `NEO6M_MessageHandler`: processes the byte in `rcvdByte`. -/
def NEO6M_MessageHandler (L : LibC) (handler : NEO6M_Handle_t) (g : GsvState) :
    Option MessageHandlerResult :=
  match storeByte handler with
  | none => none
  | some h1 =>
    if h1.rcvdByte = '\n' then
      match runCalls L h1 (dispatchLoop h1 EXPECTED_MESSAGES_BUFF_SIZE 0 0) g with
      | none => none
      | some (g1, evs) =>
        some
          { handle := { h1 with rxBuff := List.replicate RX_BUFFER_SIZE '\x00', rxCounter := 0 }
            gsv := g1, callbacks := evs, uartRequests := 1 }
    else some { handle := h1, gsv := g, callbacks := [], uartRequests := 1 }

/-- The transport delivers `byte`: it is stored in `rcvdByte` and the receive-complete
callback runs `NEO6M_MessageHandler`. -/
def onByteReceived (L : LibC) (handle : NEO6M_Handle_t) (g : GsvState) (byte : Char) :
    Option MessageHandlerResult :=
  NEO6M_MessageHandler L { handle with rcvdByte := byte } g

/-- Feeds a byte sequence, one `onByteReceived` per byte, collecting the callback calls. -/
def feed (L : LibC) :
    List Char → NEO6M_Handle_t → GsvState → Option (NEO6M_Handle_t × GsvState × List CallbackEvent)
  | [], handle, g => some (handle, g, [])
  | b :: bs, handle, g =>
    match onByteReceived L handle g b with
    | none => none
    | some r =>
      match feed L bs r.handle r.gsv with
      | none => none
      | some (h2, g2, evs) => some (h2, g2, r.callbacks ++ evs)

/-! ## Reachable registry states -/

/-- Handles reachable from a zero-initialised handle by `NEO6M_AddExpectedMessage` and
`NEO6M_RemoveExpectedMessage` calls with kinds `GLL`..`VTG`. -/
inductive Reachable : NEO6M_Handle_t → Prop
  | zero : Reachable zeroHandle
  | add (h : NEO6M_Handle_t) (k : MessagesTypes_t) (hal : HAL_StatusTypeDef) :
      Reachable h → k ≠ .EMPTY → Reachable (NEO6M_AddExpectedMessage h k hal).handle
  | remove (h : NEO6M_Handle_t) (k : MessagesTypes_t) :
      Reachable h → k ≠ .EMPTY → Reachable (NEO6M_RemoveExpectedMessage h k).1

/-- Handles reachable as in `Reachable`, where moreover `NEO6M_AddExpectedMessage` is never
called for a kind that a slot already holds. -/
inductive ReachableDistinct : NEO6M_Handle_t → Prop
  | zero : ReachableDistinct zeroHandle
  | add (h : NEO6M_Handle_t) (k : MessagesTypes_t) (hal : HAL_StatusTypeDef) :
      ReachableDistinct h → k ≠ .EMPTY → (∀ s ∈ h.expectedMessages, s.type ≠ k) →
      ReachableDistinct (NEO6M_AddExpectedMessage h k hal).handle
  | remove (h : NEO6M_Handle_t) (k : MessagesTypes_t) :
      ReachableDistinct h → k ≠ .EMPTY →
      ReachableDistinct (NEO6M_RemoveExpectedMessage h k).1

/-- The test `expectedMessages[i].type == message_type` of the remove loop. -/
def holdsKind (k : MessagesTypes_t) (s : NMEA_StandardMessage_t) : Bool := decide (s.type = k)

/-- The test `expectedMessages[i].type != EMPTY` of the dispatch loop. -/
def isExpected (s : NMEA_StandardMessage_t) : Bool := decide (s.type ≠ .EMPTY)

/-- The invariant of reachable registries: 12 slots, each either empty or the catalog
descriptor of a kind `GLL`..`VTG`, and `expectedMessagesCount` counts the non-empty slots. -/
def RegistryInv (h : NEO6M_Handle_t) : Prop :=
  h.expectedMessages.length = EXPECTED_MESSAGES_BUFF_SIZE ∧
  (∀ s ∈ h.expectedMessages, s = emptyMessage ∨ ∃ k, k ≠ .EMPTY ∧ s = NMEA_STANDART_MESSAGGES k) ∧
  h.expectedMessagesCount = h.expectedMessages.countP isExpected


/-! ## Vocabulary for the field parser -/

/-- The tags of `nmea_parser` whose case looks up the next comma. -/
def commaTags : List Char := ['f', 'c', '8', 'd', '1', '3']

/-- Whether a tag looks up a comma (`true`) or falls to the `default` case (`false`). -/
def isCommaTag (t : Char) : Bool := decide (t ∈ commaTags)

/-- The value the case of tag `t` stores when the text after its comma is `text`. -/
def convTag (L : LibC) (t : Char) (text : List Char) : Value :=
  if t = 'f' then .f (L.toFloat (L.strtod text))
  else if t = 'c' then .c (text.headD '\x00')
  else if t = '8' then .u8 (strtol text 10 % 256).toNat
  else if t = 'd' then .d (L.strtod text)
  else if t = '1' then .u16 (strtol text 10 % 65536).toNat
  else if t = '3' then .u32 (strtol text 10 % 4294967296).toNat
  else .u8 0

/-- The zero of the C type a numeric tag stores. -/
def zeroOfTag (t : Char) : Value :=
  if t = 'f' then .f 0
  else if t = 'd' then .d 0
  else if t = '1' then .u16 0
  else if t = '3' then .u32 0
  else .u8 0

/-! ## Reference dispatcher -/

/-- The dispatcher as the specification words it, without the early stop: scans the slots in
index order (`n` left, at index `i`) and stops only at the first non-empty slot whose
formatter matches the line. -/
def scanAllLoop (handler : NEO6M_Handle_t) : Nat → Nat → List (HandlerFunction_t × Nat)
  | 0, _ => []
  | n + 1, i =>
    let slot := handler.expectedMessages.getD i emptyMessage
    if slot.type ≠ .EMPTY then
      if strncmp_eq0 handler.rxBuff slot.formatter 6 then
        match NMEA_MESSAGGES_HANDLERS.get? (slot.type.toNat - 1) with
        | some f => [(f, i)]
        | none => []
      else scanAllLoop handler n (i + 1)
    else scanAllLoop handler n (i + 1)

/-- The handler calls of one call of `NEO6M_MessageHandler` if its loop were `scanAllLoop`. -/
def handlerCallsScanAll (handler : NEO6M_Handle_t) : List (HandlerFunction_t × Nat) :=
  match storeByte handler with
  | none => []
  | some h1 =>
    if h1.rcvdByte = '\n' then scanAllLoop h1 EXPECTED_MESSAGES_BUFF_SIZE 0 else []

/-! ## Declared field types and the parser calls of the handlers -/

/-- The C types of the record fields and of the output pointers of `nmea_parser`. -/
inductive CType
  | float | double | char | uint8_t | uint16_t | uint32_t
  deriving DecidableEq, Repr

/-- The pointer type through which the case of a tag stores (`va_arg(args, T *)`); the
`default` case stores through `uint8_t *`. -/
def tagCType (t : Char) : CType :=
  if t = 'f' then .float
  else if t = 'c' then .char
  else if t = '8' then .uint8_t
  else if t = 'd' then .double
  else if t = '1' then .uint16_t
  else if t = '3' then .uint32_t
  else .uint8_t

/-- The C type of a stored value. -/
def Value.ctype : Value → CType
  | .f _ => .float | .d _ => .double | .c _ => .char
  | .u8 _ => .uint8_t | .u16 _ => .uint16_t | .u32 _ => .uint32_t

/-- The fields of the record of each handler with their declared types, in the order of the
declaration in `neo-6m.h` (arrays and the nested `SV_Info_t` expanded element by element). -/
def recordFields : HandlerFunction_t → List (String × CType)
  | .gga_handle =>
    [("time", .uint32_t), ("latitude", .double), ("ns", .char), ("longitude", .double),
     ("ew", .char), ("fs", .uint8_t), ("noSV", .uint8_t), ("hdop", .float), ("msl", .float),
     ("uMsl", .char), ("altref", .float), ("uSep", .char), ("diffAge", .uint8_t),
     ("diffStation", .uint8_t), ("cs", .uint16_t)]
  | .gll_handle =>
    [("latitude", .double), ("ns", .char), ("longitude", .double), ("ew", .char),
     ("time", .uint32_t), ("valid", .char), ("mode", .char), ("cs", .uint16_t)]
  | .gsa_handle =>
    [("sMode", .char), ("fs", .uint8_t), ("sv[0]", .uint8_t), ("sv[1]", .uint8_t),
     ("sv[2]", .uint8_t), ("sv[3]", .uint8_t), ("sv[4]", .uint8_t), ("sv[5]", .uint8_t),
     ("sv[6]", .uint8_t), ("sv[7]", .uint8_t), ("sv[8]", .uint8_t), ("sv[9]", .uint8_t),
     ("sv[10]", .uint8_t), ("sv[11]", .uint8_t), ("pdop", .float), ("hdop", .float),
     ("vdop", .float), ("cs", .uint16_t)]
  | .gsv_handle =>
    [("noMsg", .uint8_t), ("msgNo", .uint8_t), ("noSV", .uint8_t),
     ("repeated_block[0].sv", .uint8_t), ("repeated_block[0].elv", .uint8_t),
     ("repeated_block[0].az", .uint16_t), ("repeated_block[0].cno", .uint8_t),
     ("repeated_block[1].sv", .uint8_t), ("repeated_block[1].elv", .uint8_t),
     ("repeated_block[1].az", .uint16_t), ("repeated_block[1].cno", .uint8_t),
     ("repeated_block[2].sv", .uint8_t), ("repeated_block[2].elv", .uint8_t),
     ("repeated_block[2].az", .uint16_t), ("repeated_block[2].cno", .uint8_t),
     ("repeated_block[3].sv", .uint8_t), ("repeated_block[3].elv", .uint8_t),
     ("repeated_block[3].az", .uint16_t), ("repeated_block[3].cno", .uint8_t), ("cs", .uint16_t)]
  | .rmc_handle =>
    [("time", .uint32_t), ("status", .char), ("latitude", .double), ("ns", .char),
     ("longitude", .double), ("ew", .char), ("spd", .float), ("cog", .float),
     ("date", .uint32_t), ("mv", .float), ("mvE", .char), ("mode", .char), ("cs", .uint16_t)]
  | .vtg_handle =>
    [("cogt", .float), ("true", .char), ("cogm", .uint8_t), ("magnetic", .char), ("sog", .float),
     ("knots", .char), ("kph", .float), ("kilometers", .char), ("mode", .char), ("cs", .uint16_t)]

/-- The format string each handler passes to `nmea_parser`. -/
def handlerFormat : HandlerFunction_t → List Char
  | .gga_handle => "3dcdc88ffcfc88".toList
  | .gll_handle => "dcdc3cc".toList
  | .gsa_handle => "c8888888888888fff".toList
  | .gsv_handle => "8888818881888188818".toList
  | .rmc_handle => "3cdcdcff3fcc".toList
  | .vtg_handle => "fc8cfcfcc".toList

/-- The fields of `package` whose addresses each handler passes to `nmea_parser` after the
format string, in argument order. -/
def handlerArgs : HandlerFunction_t → List String
  | .gga_handle =>
    ["time", "latitude", "ns", "longitude", "ew", "fs", "noSV", "hdop", "msl", "uMsl", "altref",
     "uSep", "diffAge", "diffStation", "cs"]
  | .gll_handle =>
    ["latitude", "ns", "longitude", "ew", "time", "valid", "mode", "cs"]
  | .gsa_handle =>
    ["sMode", "fs", "sv[0]", "sv[1]", "sv[2]", "sv[3]", "sv[4]", "sv[5]", "sv[6]", "sv[7]",
     "sv[8]", "sv[9]", "sv[10]", "sv[11]", "pdop", "hdop", "vdop", "cs"]
  | .gsv_handle =>
    ["noMsg", "msgNo", "noSV", "repeated_block[0].sv", "repeated_block[0].elv",
     "repeated_block[0].az", "repeated_block[0].cno", "repeated_block[1].sv",
     "repeated_block[1].elv", "repeated_block[1].az", "repeated_block[1].cno",
     "repeated_block[2].sv", "repeated_block[2].elv", "repeated_block[2].az",
     "repeated_block[2].cno", "repeated_block[3].sv", "repeated_block[3].elv",
     "repeated_block[3].az", "repeated_block[3].cno", "cs"]
  | .rmc_handle =>
    ["time", "status", "latitude", "ns", "longitude", "ew", "spd", "cog", "date", "mv", "mvE",
     "mode", "cs"]
  | .vtg_handle =>
    ["cogt", "true", "cogm", "magnetic", "sog", "knots", "kph", "kilometers", "mode", "cs"]

/-! ## Vocabulary for the GSV reassembly -/

/-- The text `gsv_buff` holds after the given lines (each without its final line feed) were
stored in arrival order, each followed by its line feed. -/
def bufferOf : List (List Char) → List Char
  | [] => []
  | l :: ls => l ++ '\n' :: bufferOf ls

/-- The record `gsv_handle` builds from one token of `gsv_buff`: `nmea_parser` with the GSV
format, then the stores into the fields of `package`. -/
def gsvRecord (L : LibC) (tok : List Char) : Option GSV_Package_t :=
  match nmeaParser L tok "8888818881888188818".toList with
  | none => none
  | some (outs, cs) => gsvPackage outs cs

/-! ## Lines of a byte stream -/

/-- The pieces of a byte stream cut after every line feed: the maximal runs of bytes up to
and including their line feed, and the run after the last line feed when it is not empty. -/
def linesOf : List Char → List (List Char)
  | [] => []
  | b :: bs =>
    if b = '\n' then [b] :: linesOf bs
    else
      match linesOf bs with
      | [] => [[b]]
      | l :: ls => (b :: l) :: ls

/-- The lines of a byte stream in the words of the specification: the maximal runs of bytes
up to and including their line feed. -/
def terminatedLines (s : List Char) : List (List Char) :=
  (linesOf s).filter (fun l => decide (l.getLast? = some '\n'))

/-- The bytes of a stream after its last line feed (the whole stream when it has none). -/
def unterminatedRun (s : List Char) : List Char :=
  ((linesOf s).filter (fun l => decide (l.getLast? ≠ some '\n'))).flatten

/-! ## Records as the argument lists of `nmea_parser` -/

/-- The handler that builds a record of this type. -/
def Package.handler : Package → HandlerFunction_t
  | .gga _ => .gga_handle | .gll _ => .gll_handle | .gsa _ => .gsa_handle
  | .gsv _ => .gsv_handle | .rmc _ => .rmc_handle | .vtg _ => .vtg_handle

/-- The fields of a record in the order of their declaration in `neo-6m.h`, each value with
its declared C type (the arrays `sv[12]` and `repeated_block[4]` element by element, an
`SV_Info_t` field by field). -/
def Package.values : Package → List Value
  | .gga p =>
    [.u32 p.time, .d p.latitude, .c p.ns, .d p.longitude, .c p.ew, .u8 p.fs, .u8 p.noSV,
     .f p.hdop, .f p.msl, .c p.uMsl, .f p.altref, .c p.uSep, .u8 p.diffAge,
     .u8 p.diffStation, .u16 p.cs]
  | .gll p =>
    [.d p.latitude, .c p.ns, .d p.longitude, .c p.ew, .u32 p.time, .c p.valid, .c p.mode,
     .u16 p.cs]
  | .gsa p =>
    [.c p.sMode, .u8 p.fs] ++ p.sv.map .u8 ++ [.f p.pdop, .f p.hdop, .f p.vdop, .u16 p.cs]
  | .gsv p =>
    [.u8 p.noMsg, .u8 p.msgNo, .u8 p.noSV] ++
      (p.repeated_block.map (fun b => [.u8 b.sv, .u8 b.elv, .u16 b.az, .u8 b.cno])).flatten ++
      [.u16 p.cs]
  | .rmc p =>
    [.u32 p.time, .c p.status, .d p.latitude, .c p.ns, .d p.longitude, .c p.ew, .f p.spd,
     .f p.cog, .u32 p.date, .f p.mv, .c p.mvE, .c p.mode, .u16 p.cs]
  | .vtg p =>
    [.f p.cogt, .c p.true_, .u8 p.cogm, .c p.magnetic, .f p.sog, .c p.knots, .f p.kph,
     .c p.kilometers, .c p.mode, .u16 p.cs]

/-- The statements of a handler between its `nmea_parser` call and its callback call:
`package.latitude = nmea_to_dec(package.latitude, package.ns)` and
`package.longitude = nmea_to_dec(package.longitude, package.ew)` in `gga_handle`,
`gll_handle` and `rmc_handle`, none in the other handlers. -/
def convertCoords : Package → Option Package
  | .gga p =>
    match nmea_to_dec p.latitude p.ns, nmea_to_dec p.longitude p.ew with
    | some latitude, some longitude =>
      some (.gga { p with latitude := latitude, longitude := longitude })
    | _, _ => none
  | .gll p =>
    match nmea_to_dec p.latitude p.ns, nmea_to_dec p.longitude p.ew with
    | some latitude, some longitude =>
      some (.gll { p with latitude := latitude, longitude := longitude })
    | _, _ => none
  | .rmc p =>
    match nmea_to_dec p.latitude p.ns, nmea_to_dec p.longitude p.ew with
    | some latitude, some longitude =>
      some (.rmc { p with latitude := latitude, longitude := longitude })
    | _, _ => none
  | .gsa p => some (.gsa p)
  | .gsv p => some (.gsv p)
  | .vtg p => some (.vtg p)

/-! ## Concrete states used to instantiate the theorems -/

/-- A handle whose 12 slots all hold the GLL descriptor. -/
def fullHandle : NEO6M_Handle_t :=
  { zeroHandle with
    expectedMessages := List.replicate EXPECTED_MESSAGES_BUFF_SIZE (NMEA_STANDART_MESSAGGES .GLL)
    expectedMessagesCount := 12
    receive_status := .NEO_WAITING }

/-- The handle after enabling GLL on a zero-initialised handle. -/
def gllHandle : NEO6M_Handle_t := (NEO6M_AddExpectedMessage zeroHandle .GLL .HAL_OK).handle

/-- The handle `h` with `line` received so far and the byte `'\n'` just delivered. -/
def pendingLine (h : NEO6M_Handle_t) (line : List Char) : NEO6M_Handle_t :=
  { h with
    rxBuff := line ++ List.replicate (RX_BUFFER_SIZE - line.length) '\x00'
    rxCounter := line.length
    rcvdByte := '\n' }

/-- A GLL sentence without its final line feed. -/
def gllSentence : List Char := "$GPGLL,4916.45,N,12311.12,W,225444,A,A*1D\r".toList

/-- A GLL sentence whose checksum token is followed by a third hexadecimal digit. -/
def gllLongChecksum : List Char := "$GPGLL,4916.45,N,12311.12,W,225444,A,A*1D5\r\n".toList

/-- A GLL sentence whose time field (after the fifth comma) is empty. -/
def gllEmptyTime : List Char := "$GPGLL,4916.45,N,12311.12,W,,A,A*1D\r\n".toList

/-- The handle after enabling GSV on a zero-initialised handle. -/
def gsvHandle : NEO6M_Handle_t := (NEO6M_AddExpectedMessage zeroHandle .GSV .HAL_OK).handle

/-- Fragment 1 of a GSV group of two (four satellite blocks). -/
def gsvFragment1 : List Char :=
  "$GPGSV,2,1,08,01,40,083,46,02,17,308,41,12,07,344,39,14,22,228,45*75\r\n".toList

/-- Fragment 2 of a GSV group of two (four satellite blocks). -/
def gsvFragment2 : List Char :=
  "$GPGSV,2,2,08,15,30,100,40,16,20,200,38,17,10,300,35,18,05,050,30*7A\r\n".toList

/-- The handle after enabling GLL and then GGA on a zero-initialised handle. -/
def gllGgaHandle : NEO6M_Handle_t := (NEO6M_AddExpectedMessage gllHandle .GGA .HAL_OK).handle

/-- The handle after enabling GLL twice on a zero-initialised handle. -/
def gllTwiceHandle : NEO6M_Handle_t := (NEO6M_AddExpectedMessage gllHandle .GLL .HAL_OK).handle

/-- A GGA sentence without its final line feed. -/
def ggaSentence : List Char :=
  "$GPGGA,092725.00,4717.11399,N,00833.91590,E,1,08,1.01,499.6,M,48.0,M,,*5B\r".toList

/-- A GLL sentence with all its fields but no checksum token, without its final line feed. -/
def gllNoStar : List Char := "$GPGLL,4916.45,N,12311.12,W,225444,A,A\r".toList

/-- Fragment 1 of the GSV group without its final line feed. -/
def gsvLine1 : List Char :=
  "$GPGSV,2,1,08,01,40,083,46,02,17,308,41,12,07,344,39,14,22,228,45*75\r".toList

/-- Fragment 2 of the GSV group without its final line feed. -/
def gsvLine2 : List Char :=
  "$GPGSV,2,2,08,15,30,100,40,16,20,200,38,17,10,300,35,18,05,050,30*7A\r".toList

/-- The GSV statics once both fragments of the group are buffered. -/
def gsvTwoBuffered : GsvState :=
  { gsv_buff := gsvFragment1 ++ gsvFragment2 ++ List.replicate 160 '\x00'
    gsv_count := 2
    gsv_buff_len := 140 }

/-- The handle with GSV enabled once the line feed of fragment 1 is stored. -/
def gsvStored1 : NEO6M_Handle_t :=
  { pendingLine gsvHandle gsvLine1 with
    rxBuff := gsvFragment1 ++ List.replicate 30 '\x00'
    rxCounter := 70 }

/-- The last fragment of a GSV group of two with a single satellite block (7 commas). -/
def gsvShortFragment : List Char := "$GPGSV,2,2,05,25,12,300,30*4C\r\n".toList

/-- A stream of two complete lines followed by an unterminated run. -/
def threeRunStream : List Char := "$GPGLL,4916.45,N\r\n$GPTXT,01\r\n$GPG".toList

/-- A line of 101 bytes: 100 payload bytes and the line feed. -/
def line101 : List Char := List.replicate 100 'A' ++ ['\n']

/-- The handle after `NEO6M_RemoveExpectedMessage(EMPTY)` on a zero-initialised handle: every
slot is empty and the 8-bit count has wrapped to 255. -/
def wrappedHandle : NEO6M_Handle_t := (NEO6M_RemoveExpectedMessage zeroHandle .EMPTY).1

/-- The handle after enabling GLL and then `NEO6M_RemoveExpectedMessage(EMPTY)`: slot 0 holds
GLL and the count is 0. -/
def gllUncountedHandle : NEO6M_Handle_t := (NEO6M_RemoveExpectedMessage gllHandle .EMPTY).1

/-- A run of 101 bytes without a line feed. -/
def unterminatedStream : List Char := List.replicate 101 'A'

/-- The last fragment of the GSV group with a single satellite block, without its final line
feed. -/
def gsvShortLine : List Char := "$GPGSV,2,2,05,25,12,300,30*4C\r".toList

/-- The GSV statics once fragment 1 and the fragment with a single satellite block are
buffered. -/
def gsvShortBuffered : GsvState :=
  { gsv_buff := gsvFragment1 ++ gsvShortFragment ++ List.replicate 199 '\x00'
    gsv_count := 2
    gsv_buff_len := 101 }

/-! ## Registry: the search loops -/

theorem addLoop_full (k : MessagesTypes_t) (h : NEO6M_Handle_t) :
    ∀ n i, (∀ j, i ≤ j → j < i + n → (h.expectedMessages.getD j emptyMessage).callback ≠ none) →
      addLoop k h n i = (h, 1) := by
  intro n
  induction n with
  | zero => intro i _; rfl
  | succ n ih =>
    intro i hall
    have h0 := hall i (le_refl i) (by omega)
    rw [addLoop, if_neg h0]
    exact ih (i + 1) (fun j hj1 hj2 => hall j (by omega) (by omega))

theorem addLoop_found (k : MessagesTypes_t) (h : NEO6M_Handle_t) (j0 : Nat)
    (hj0 : (h.expectedMessages.getD j0 emptyMessage).callback = none) :
    ∀ n i, i ≤ j0 → j0 < i + n →
      (∀ j, i ≤ j → j < j0 → (h.expectedMessages.getD j emptyMessage).callback ≠ none) →
      addLoop k h n i =
        ({ h with
            expectedMessages := h.expectedMessages.set j0 (NMEA_STANDART_MESSAGGES k)
            expectedMessagesCount := (h.expectedMessagesCount + 1) % 256 }, 0) := by
  intro n
  induction n with
  | zero => intro i h1 h2; omega
  | succ n ih =>
    intro i h1 h2 hbefore
    by_cases hi : i = j0
    · subst hi
      rw [addLoop, if_pos hj0]
    · have h0 := hbefore i (le_refl i) (by omega)
      rw [addLoop, if_neg h0]
      exact ih (i + 1) (by omega) (by omega) (fun j hj1 hj2 => hbefore j (by omega) hj2)

theorem removeLoop_absent (k : MessagesTypes_t) (h : NEO6M_Handle_t) :
    ∀ n i, (∀ j, i ≤ j → j < i + n → (h.expectedMessages.getD j emptyMessage).type ≠ k) →
      removeLoop k h n i = (h, 1) := by
  intro n
  induction n with
  | zero => intro i _; rfl
  | succ n ih =>
    intro i hall
    have h0 := hall i (le_refl i) (by omega)
    rw [removeLoop, if_neg h0]
    exact ih (i + 1) (fun j hj1 hj2 => hall j (by omega) (by omega))

theorem removeLoop_found (k : MessagesTypes_t) (h : NEO6M_Handle_t) (j0 : Nat)
    (hj0 : (h.expectedMessages.getD j0 emptyMessage).type = k) :
    ∀ n i, i ≤ j0 → j0 < i + n →
      (∀ j, i ≤ j → j < j0 → (h.expectedMessages.getD j emptyMessage).type ≠ k) →
      removeLoop k h n i =
        ({ h with
            expectedMessages := h.expectedMessages.set j0 emptyMessage
            expectedMessagesCount := (h.expectedMessagesCount + 255) % 256
            receive_status :=
              if (h.expectedMessagesCount + 255) % 256 < 1 then .NEO_FREE else h.receive_status },
          0) := by
  intro n
  induction n with
  | zero => intro i h1 h2; omega
  | succ n ih =>
    intro i h1 h2 hbefore
    by_cases hi : i = j0
    · subst hi
      rw [removeLoop, if_pos hj0]
      rfl
    · have h0 := hbefore i (le_refl i) (by omega)
      rw [removeLoop, if_neg h0]
      exact ih (i + 1) (by omega) (by omega) (fun j hj1 hj2 => hbefore j (by omega) hj2)

/-- The least index of a slot that satisfies a decidable property, when some slot does. -/
theorem exists_first_slot (slots : List NMEA_StandardMessage_t) (P : NMEA_StandardMessage_t → Prop)
    [DecidablePred P] (hex : ∃ s ∈ slots, P s) :
    ∃ i, i < slots.length ∧ P (slots.getD i emptyMessage) ∧
      ∀ j, j < i → ¬ P (slots.getD j emptyMessage) := by
  have hex2 : ∃ i, i < slots.length ∧ P (slots.getD i emptyMessage) := by
    obtain ⟨s, hs, hp⟩ := hex
    obtain ⟨i, hi, rfl⟩ := List.getElem_of_mem hs
    exact ⟨i, hi, by simpa [List.getD_eq_getElem?_getD, List.getElem?_eq_getElem hi] using hp⟩
  refine ⟨Nat.find hex2, (Nat.find_spec hex2).1, (Nat.find_spec hex2).2, ?_⟩
  intro j hj hp
  exact Nat.find_min hex2 hj ⟨lt_trans hj (Nat.find_spec hex2).1, hp⟩

theorem getD_of_mem_all (slots : List NMEA_StandardMessage_t) (P : NMEA_StandardMessage_t → Prop)
    (hall : ∀ s ∈ slots, P s) (j : Nat) (hj : j < slots.length) :
    P (slots.getD j emptyMessage) := by
  have : slots.getD j emptyMessage = slots[j] := by
    simp [List.getD_eq_getElem?_getD, List.getElem?_eq_getElem hj]
  rw [this]
  exact hall _ (List.getElem_mem hj)

/-- What `NEO6M_AddExpectedMessage` returns once its loop has found a slot. -/
theorem add_of_loop_found (handle h1 : NEO6M_Handle_t) (k : MessagesTypes_t)
    (hal : HAL_StatusTypeDef)
    (hloop : addLoop k handle EXPECTED_MESSAGES_BUFF_SIZE 0 = (h1, 0)) :
    NEO6M_AddExpectedMessage handle k hal =
      { handle := { h1 with
          receive_status :=
            if h1.receive_status = .NEO_FREE then .NEO_WAITING else h1.receive_status }
        ret := if h1.receive_status = .NEO_FREE ∧ hal ≠ .HAL_OK then 1 else 0
        uartRequests := if h1.receive_status = .NEO_FREE then 1 else 0 } := by
  unfold NEO6M_AddExpectedMessage
  rw [hloop]
  by_cases hs : h1.receive_status = .NEO_FREE
  · by_cases hh : hal = .HAL_OK <;> simp [hs, hh]
  · simp [hs]

/-- What `NEO6M_AddExpectedMessage` returns when its loop finds no slot. -/
theorem add_of_loop_full (handle : NEO6M_Handle_t) (k : MessagesTypes_t)
    (hal : HAL_StatusTypeDef)
    (hloop : addLoop k handle EXPECTED_MESSAGES_BUFF_SIZE 0 = (handle, 1)) :
    NEO6M_AddExpectedMessage handle k hal = { handle := handle, ret := 1, uartRequests := 0 } := by
  unfold NEO6M_AddExpectedMessage
  rw [hloop]
  simp

/-! ## Registry: enable and disable -/

/-- C4 (amended): when some slot is empty (`callback == NULL`), `NEO6M_AddExpectedMessage`
writes the catalog descriptor of the kind (whose type is that kind) into the lowest-index
empty slot and leaves every other slot, `rxBuff` and `rxCounter` unchanged; the 8-bit
`expectedMessagesCount` becomes `(count + 1) mod 256`, which is an increment by exactly 1
when the count is below 255. -/
theorem add_fills_first_empty_slot (handle : NEO6M_Handle_t) (k : MessagesTypes_t)
    (hal : HAL_StatusTypeDef) (hwf : handle.WF)
    (hempty : ∃ s ∈ handle.expectedMessages, s.callback = none) :
    ∃ i, i < EXPECTED_MESSAGES_BUFF_SIZE ∧
      (handle.expectedMessages.getD i emptyMessage).callback = none ∧
      (∀ j, j < i → (handle.expectedMessages.getD j emptyMessage).callback ≠ none) ∧
      (NEO6M_AddExpectedMessage handle k hal).handle.expectedMessages =
        handle.expectedMessages.set i (NMEA_STANDART_MESSAGGES k) ∧
      (NEO6M_AddExpectedMessage handle k hal).handle.expectedMessages.getD i emptyMessage =
        NMEA_STANDART_MESSAGGES k ∧
      (NMEA_STANDART_MESSAGGES k).type = k ∧
      (∀ j, j ≠ i →
        (NEO6M_AddExpectedMessage handle k hal).handle.expectedMessages.getD j emptyMessage =
          handle.expectedMessages.getD j emptyMessage) ∧
      (NEO6M_AddExpectedMessage handle k hal).handle.expectedMessagesCount =
        (handle.expectedMessagesCount + 1) % 256 ∧
      (handle.expectedMessagesCount < 255 →
        (NEO6M_AddExpectedMessage handle k hal).handle.expectedMessagesCount =
          handle.expectedMessagesCount + 1) ∧
      (NEO6M_AddExpectedMessage handle k hal).handle.rxBuff = handle.rxBuff ∧
      (NEO6M_AddExpectedMessage handle k hal).handle.rxCounter = handle.rxCounter := by
  obtain ⟨i, hi, hnone, hmin⟩ :=
    exists_first_slot handle.expectedMessages (fun s => s.callback = none) hempty
  have hlen : handle.expectedMessages.length = EXPECTED_MESSAGES_BUFF_SIZE := hwf.1
  have hloop := addLoop_found k handle i hnone EXPECTED_MESSAGES_BUFF_SIZE 0 (Nat.zero_le i)
    (by omega) (fun j _ hj => hmin j hj)
  rw [add_of_loop_found handle _ k hal hloop]
  refine ⟨i, by omega, hnone, hmin, rfl, ?_, ?_, ?_, rfl, ?_, rfl, rfl⟩
  · simp [List.getD_eq_getElem?_getD, List.getElem?_set, hi]
  · cases k <;> rfl
  · intro j hj
    simp [List.getD_eq_getElem?_getD, List.getElem?_set, Ne.symm hj]
  · intro hc
    exact Nat.mod_eq_of_lt (by omega)

theorem add_fills_first_empty_slot_witness :
    zeroHandle.WF ∧ (∃ s ∈ zeroHandle.expectedMessages, s.callback = none) ∧
    ∃ i, i < EXPECTED_MESSAGES_BUFF_SIZE ∧
      (zeroHandle.expectedMessages.getD i emptyMessage).callback = none ∧
      (∀ j, j < i → (zeroHandle.expectedMessages.getD j emptyMessage).callback ≠ none) ∧
      (NEO6M_AddExpectedMessage zeroHandle .GLL .HAL_OK).handle.expectedMessages =
        zeroHandle.expectedMessages.set i (NMEA_STANDART_MESSAGGES .GLL) ∧
      (NEO6M_AddExpectedMessage zeroHandle .GLL .HAL_OK).handle.expectedMessages.getD i
          emptyMessage = NMEA_STANDART_MESSAGGES .GLL ∧
      (NMEA_STANDART_MESSAGGES .GLL).type = .GLL ∧
      (∀ j, j ≠ i →
        (NEO6M_AddExpectedMessage zeroHandle .GLL .HAL_OK).handle.expectedMessages.getD j
            emptyMessage = zeroHandle.expectedMessages.getD j emptyMessage) ∧
      (NEO6M_AddExpectedMessage zeroHandle .GLL .HAL_OK).handle.expectedMessagesCount =
        (zeroHandle.expectedMessagesCount + 1) % 256 ∧
      (zeroHandle.expectedMessagesCount < 255 →
        (NEO6M_AddExpectedMessage zeroHandle .GLL .HAL_OK).handle.expectedMessagesCount =
          zeroHandle.expectedMessagesCount + 1) ∧
      (NEO6M_AddExpectedMessage zeroHandle .GLL .HAL_OK).handle.rxBuff = zeroHandle.rxBuff ∧
      (NEO6M_AddExpectedMessage zeroHandle .GLL .HAL_OK).handle.rxCounter =
        zeroHandle.rxCounter :=
  ⟨by decide, ⟨emptyMessage, by decide, rfl⟩,
    add_fills_first_empty_slot zeroHandle .GLL .HAL_OK (by decide)
      ⟨emptyMessage, by decide, rfl⟩⟩

/-- C6: when all 12 slots are occupied (no `NULL` callback), `NEO6M_AddExpectedMessage`
returns 1 for every kind, leaves the handle unchanged (slots, count, receive status) and
makes no `HAL_UART_Receive_IT` call. -/
theorem add_full_registry_fails (handle : NEO6M_Handle_t) (k : MessagesTypes_t)
    (hal : HAL_StatusTypeDef) (hwf : handle.WF)
    (hfull : ∀ s ∈ handle.expectedMessages, s.callback ≠ none) :
    (NEO6M_AddExpectedMessage handle k hal).ret = 1 ∧
    (NEO6M_AddExpectedMessage handle k hal).handle = handle ∧
    (NEO6M_AddExpectedMessage handle k hal).uartRequests = 0 := by
  have hloop : addLoop k handle EXPECTED_MESSAGES_BUFF_SIZE 0 = (handle, 1) := by
    apply addLoop_full
    intro j _ hj
    exact getD_of_mem_all handle.expectedMessages (fun s => s.callback ≠ none) hfull j
      (by rw [hwf.1]; omega)
  rw [add_of_loop_full handle k hal hloop]
  exact ⟨rfl, rfl, rfl⟩

theorem add_full_registry_fails_witness :
    fullHandle.WF ∧ (∀ s ∈ fullHandle.expectedMessages, s.callback ≠ none) ∧
    (NEO6M_AddExpectedMessage fullHandle .GGA .HAL_OK).ret = 1 ∧
    (NEO6M_AddExpectedMessage fullHandle .GGA .HAL_OK).handle = fullHandle ∧
    (NEO6M_AddExpectedMessage fullHandle .GGA .HAL_OK).uartRequests = 0 :=
  ⟨by decide, by decide, add_full_registry_fails fullHandle .GGA .HAL_OK (by decide) (by decide)⟩

/-- C5 (amended): when some slot holds the kind, `NEO6M_RemoveExpectedMessage` returns 0,
resets the lowest-index slot holding it to the empty descriptor (type `EMPTY`, `NULL`
callback), leaves all other slots unchanged, and sets `receive_status` to `NEO_FREE` exactly
when the new count is 0; the 8-bit `expectedMessagesCount` becomes `(count + 255) mod 256`,
which is a decrement by exactly 1 when the count is above 0. -/
theorem remove_clears_first_holding_slot (handle : NEO6M_Handle_t) (k : MessagesTypes_t)
    (hwf : handle.WF) (hheld : ∃ s ∈ handle.expectedMessages, s.type = k) :
    ∃ i, i < EXPECTED_MESSAGES_BUFF_SIZE ∧
      (handle.expectedMessages.getD i emptyMessage).type = k ∧
      (∀ j, j < i → (handle.expectedMessages.getD j emptyMessage).type ≠ k) ∧
      (NEO6M_RemoveExpectedMessage handle k).2 = 0 ∧
      (NEO6M_RemoveExpectedMessage handle k).1.expectedMessages =
        handle.expectedMessages.set i emptyMessage ∧
      (NEO6M_RemoveExpectedMessage handle k).1.expectedMessages.getD i emptyMessage =
        emptyMessage ∧
      emptyMessage.type = .EMPTY ∧ emptyMessage.callback = none ∧
      (∀ j, j ≠ i →
        (NEO6M_RemoveExpectedMessage handle k).1.expectedMessages.getD j emptyMessage =
          handle.expectedMessages.getD j emptyMessage) ∧
      (NEO6M_RemoveExpectedMessage handle k).1.expectedMessagesCount =
        (handle.expectedMessagesCount + 255) % 256 ∧
      (0 < handle.expectedMessagesCount →
        (NEO6M_RemoveExpectedMessage handle k).1.expectedMessagesCount + 1 =
          handle.expectedMessagesCount) ∧
      (NEO6M_RemoveExpectedMessage handle k).1.receive_status =
        (if (NEO6M_RemoveExpectedMessage handle k).1.expectedMessagesCount = 0 then .NEO_FREE
         else handle.receive_status) ∧
      (NEO6M_RemoveExpectedMessage handle k).1.rxBuff = handle.rxBuff ∧
      (NEO6M_RemoveExpectedMessage handle k).1.rxCounter = handle.rxCounter := by
  obtain ⟨i, hi, htype, hmin⟩ :=
    exists_first_slot handle.expectedMessages (fun s => s.type = k) hheld
  have hlen : handle.expectedMessages.length = EXPECTED_MESSAGES_BUFF_SIZE := hwf.1
  have hcnt : handle.expectedMessagesCount < 256 := hwf.2.2
  have hloop := removeLoop_found k handle i htype EXPECTED_MESSAGES_BUFF_SIZE 0 (Nat.zero_le i)
    (by omega) (fun j _ hj => hmin j hj)
  unfold NEO6M_RemoveExpectedMessage
  rw [hloop]
  refine ⟨i, by omega, htype, hmin, rfl, rfl, ?_, rfl, rfl, ?_, rfl, ?_, ?_, rfl, rfl⟩
  · simp [List.getD_eq_getElem?_getD, List.getElem?_set, hi]
  · intro j hj
    simp [List.getD_eq_getElem?_getD, List.getElem?_set, Ne.symm hj]
  · intro hpos
    show (handle.expectedMessagesCount + 255) % 256 + 1 = handle.expectedMessagesCount
    omega
  · show (if (handle.expectedMessagesCount + 255) % 256 < 1 then ReceiveStatus_t.NEO_FREE
        else handle.receive_status) =
      (if (handle.expectedMessagesCount + 255) % 256 = 0 then ReceiveStatus_t.NEO_FREE
        else handle.receive_status)
    by_cases h0 : (handle.expectedMessagesCount + 255) % 256 = 0
    · rw [if_pos h0, if_pos (by omega)]
    · rw [if_neg h0, if_neg (by omega)]

theorem remove_clears_first_holding_slot_witness :
    gllHandle.WF ∧ (∃ s ∈ gllHandle.expectedMessages, s.type = .GLL) ∧
    ∃ i, i < EXPECTED_MESSAGES_BUFF_SIZE ∧
      (gllHandle.expectedMessages.getD i emptyMessage).type = .GLL ∧
      (∀ j, j < i → (gllHandle.expectedMessages.getD j emptyMessage).type ≠ .GLL) ∧
      (NEO6M_RemoveExpectedMessage gllHandle .GLL).2 = 0 ∧
      (NEO6M_RemoveExpectedMessage gllHandle .GLL).1.expectedMessages =
        gllHandle.expectedMessages.set i emptyMessage ∧
      (NEO6M_RemoveExpectedMessage gllHandle .GLL).1.expectedMessages.getD i emptyMessage =
        emptyMessage ∧
      emptyMessage.type = .EMPTY ∧ emptyMessage.callback = none ∧
      (∀ j, j ≠ i →
        (NEO6M_RemoveExpectedMessage gllHandle .GLL).1.expectedMessages.getD j emptyMessage =
          gllHandle.expectedMessages.getD j emptyMessage) ∧
      (NEO6M_RemoveExpectedMessage gllHandle .GLL).1.expectedMessagesCount =
        (gllHandle.expectedMessagesCount + 255) % 256 ∧
      (0 < gllHandle.expectedMessagesCount →
        (NEO6M_RemoveExpectedMessage gllHandle .GLL).1.expectedMessagesCount + 1 =
          gllHandle.expectedMessagesCount) ∧
      (NEO6M_RemoveExpectedMessage gllHandle .GLL).1.receive_status =
        (if (NEO6M_RemoveExpectedMessage gllHandle .GLL).1.expectedMessagesCount = 0 then
          .NEO_FREE
         else gllHandle.receive_status) ∧
      (NEO6M_RemoveExpectedMessage gllHandle .GLL).1.rxBuff = gllHandle.rxBuff ∧
      (NEO6M_RemoveExpectedMessage gllHandle .GLL).1.rxCounter = gllHandle.rxCounter :=
  ⟨by decide, ⟨NMEA_STANDART_MESSAGGES .GLL, by decide, rfl⟩,
    remove_clears_first_holding_slot gllHandle .GLL (by decide)
      ⟨NMEA_STANDART_MESSAGGES .GLL, by decide, rfl⟩⟩

/-- C7: when no slot holds the kind, `NEO6M_RemoveExpectedMessage` returns 1 and leaves the
handle unchanged (count, every slot, receive status). -/
theorem remove_absent_kind_fails (handle : NEO6M_Handle_t) (k : MessagesTypes_t)
    (hwf : handle.WF) (habsent : ∀ s ∈ handle.expectedMessages, s.type ≠ k) :
    (NEO6M_RemoveExpectedMessage handle k).2 = 1 ∧
    (NEO6M_RemoveExpectedMessage handle k).1 = handle := by
  have hloop : removeLoop k handle EXPECTED_MESSAGES_BUFF_SIZE 0 = (handle, 1) := by
    apply removeLoop_absent
    intro j _ hj
    exact getD_of_mem_all handle.expectedMessages (fun s => s.type ≠ k) habsent j
      (by rw [hwf.1]; omega)
  unfold NEO6M_RemoveExpectedMessage
  rw [hloop]
  exact ⟨rfl, rfl⟩

theorem remove_absent_kind_fails_witness :
    gllHandle.WF ∧ (∀ s ∈ gllHandle.expectedMessages, s.type ≠ .RMC) ∧
    (NEO6M_RemoveExpectedMessage gllHandle .RMC).2 = 1 ∧
    (NEO6M_RemoveExpectedMessage gllHandle .RMC).1 = gllHandle :=
  ⟨by decide, by decide, remove_absent_kind_fails gllHandle .RMC (by decide) (by decide)⟩

/-! ## Reachable registries -/

/-- Either every slot is occupied and the call fails without effect, or the loop fills the
first empty slot. -/
theorem addLoop_cases (handle : NEO6M_Handle_t) (k : MessagesTypes_t)
    (hlen : handle.expectedMessages.length = EXPECTED_MESSAGES_BUFF_SIZE) :
    ((∀ s ∈ handle.expectedMessages, s.callback ≠ none) ∧
      addLoop k handle EXPECTED_MESSAGES_BUFF_SIZE 0 = (handle, 1)) ∨
    (∃ i, i < EXPECTED_MESSAGES_BUFF_SIZE ∧
      (handle.expectedMessages.getD i emptyMessage).callback = none ∧
      (∀ j, j < i → (handle.expectedMessages.getD j emptyMessage).callback ≠ none) ∧
      addLoop k handle EXPECTED_MESSAGES_BUFF_SIZE 0 =
        ({ handle with
            expectedMessages := handle.expectedMessages.set i (NMEA_STANDART_MESSAGGES k)
            expectedMessagesCount := (handle.expectedMessagesCount + 1) % 256 }, 0)) := by
  by_cases hex : ∃ s ∈ handle.expectedMessages, s.callback = none
  · right
    obtain ⟨i, hi, hnone, hmin⟩ :=
      exists_first_slot handle.expectedMessages (fun s => s.callback = none) hex
    exact ⟨i, by omega, hnone, hmin,
      addLoop_found k handle i hnone EXPECTED_MESSAGES_BUFF_SIZE 0 (Nat.zero_le i) (by omega)
        (fun j _ hj => hmin j hj)⟩
  · left
    have hfull : ∀ s ∈ handle.expectedMessages, s.callback ≠ none :=
      fun s hs hc => hex ⟨s, hs, hc⟩
    refine ⟨hfull, addLoop_full k handle _ _ ?_⟩
    intro j _ hj
    exact getD_of_mem_all handle.expectedMessages (fun s => s.callback ≠ none) hfull j
      (by rw [hlen]; omega)

/-- Either no slot holds the kind and the call fails without effect, or the loop clears the
first slot that holds it. -/
theorem removeLoop_cases (handle : NEO6M_Handle_t) (k : MessagesTypes_t)
    (hlen : handle.expectedMessages.length = EXPECTED_MESSAGES_BUFF_SIZE) :
    ((∀ s ∈ handle.expectedMessages, s.type ≠ k) ∧
      removeLoop k handle EXPECTED_MESSAGES_BUFF_SIZE 0 = (handle, 1)) ∨
    (∃ i, i < EXPECTED_MESSAGES_BUFF_SIZE ∧
      (handle.expectedMessages.getD i emptyMessage).type = k ∧
      (∀ j, j < i → (handle.expectedMessages.getD j emptyMessage).type ≠ k) ∧
      removeLoop k handle EXPECTED_MESSAGES_BUFF_SIZE 0 =
        ({ handle with
            expectedMessages := handle.expectedMessages.set i emptyMessage
            expectedMessagesCount := (handle.expectedMessagesCount + 255) % 256
            receive_status :=
              if (handle.expectedMessagesCount + 255) % 256 < 1 then .NEO_FREE
              else handle.receive_status }, 0)) := by
  by_cases hex : ∃ s ∈ handle.expectedMessages, s.type = k
  · right
    obtain ⟨i, hi, htype, hmin⟩ :=
      exists_first_slot handle.expectedMessages (fun s => s.type = k) hex
    exact ⟨i, by omega, htype, hmin,
      removeLoop_found k handle i htype EXPECTED_MESSAGES_BUFF_SIZE 0 (Nat.zero_le i) (by omega)
        (fun j _ hj => hmin j hj)⟩
  · left
    have habs : ∀ s ∈ handle.expectedMessages, s.type ≠ k := fun s hs hc => hex ⟨s, hs, hc⟩
    refine ⟨habs, removeLoop_absent k handle _ _ ?_⟩
    intro j _ hj
    exact getD_of_mem_all handle.expectedMessages (fun s => s.type ≠ k) habs j
      (by rw [hlen]; omega)

theorem catalog_callback_ne_none (k : MessagesTypes_t) (hk : k ≠ .EMPTY) :
    (NMEA_STANDART_MESSAGGES k).callback ≠ none := by
  cases k <;> first | exact absurd rfl hk | exact Option.some_ne_none _

theorem catalog_type (k : MessagesTypes_t) : (NMEA_STANDART_MESSAGGES k).type = k := by
  cases k <;> rfl

theorem isExpected_catalog (k : MessagesTypes_t) (hk : k ≠ .EMPTY) :
    isExpected (NMEA_STANDART_MESSAGGES k) = true := by
  simp [isExpected, catalog_type, hk]

theorem getD_eq_getElem (slots : List NMEA_StandardMessage_t) (i : Nat) (hi : i < slots.length) :
    slots.getD i emptyMessage = slots[i] := by
  simp [List.getD_eq_getElem?_getD, List.getElem?_eq_getElem hi]

theorem mem_set_cases (slots : List NMEA_StandardMessage_t) (i : Nat)
    (a s : NMEA_StandardMessage_t) (hs : s ∈ slots.set i a) : s = a ∨ s ∈ slots := by
  rcases List.mem_or_eq_of_mem_set hs with h | h
  · exact Or.inr h
  · exact Or.inl h

theorem countP_le_length_slots (slots : List NMEA_StandardMessage_t) :
    slots.countP isExpected ≤ slots.length := List.countP_le_length _

theorem registryInv_add (h : NEO6M_Handle_t) (k : MessagesTypes_t) (hal : HAL_StatusTypeDef)
    (hk : k ≠ .EMPTY) (hinv : RegistryInv h) :
    RegistryInv (NEO6M_AddExpectedMessage h k hal).handle := by
  obtain ⟨hlen, hslots, hcnt⟩ := hinv
  rcases addLoop_cases h k hlen with ⟨_, hloop⟩ | ⟨i, hi, hnone, _, hloop⟩
  · rw [add_of_loop_full h k hal hloop]
    exact ⟨hlen, hslots, hcnt⟩
  · rw [add_of_loop_found h _ k hal hloop]
    have hil : i < h.expectedMessages.length := by omega
    have hslot : isExpected h.expectedMessages[i] = false := by
      have hmem := hslots _ (List.getElem_mem hil)
      rw [getD_eq_getElem _ _ hil] at hnone
      rcases hmem with he | ⟨k', hk', he⟩
      · rw [he]; rfl
      · rw [he] at hnone
        exact absurd hnone (catalog_callback_ne_none k' hk')
    have hcp := List.countP_set isExpected h.expectedMessages i (NMEA_STANDART_MESSAGGES k) hil
    rw [hslot, isExpected_catalog k hk] at hcp
    simp only [Bool.false_eq_true, if_false, if_true, Nat.sub_zero] at hcp
    have hle := countP_le_length_slots (h.expectedMessages.set i (NMEA_STANDART_MESSAGGES k))
    rw [List.length_set] at hle
    refine ⟨by simpa using hlen, ?_, ?_⟩
    · intro s hs
      rcases mem_set_cases _ _ _ _ hs with he | hm
      · exact Or.inr ⟨k, hk, he⟩
      · exact hslots s hm
    · show (h.expectedMessagesCount + 1) % 256 = _
      rw [hcp, hcnt]
      apply Nat.mod_eq_of_lt
      unfold EXPECTED_MESSAGES_BUFF_SIZE at hlen
      omega

theorem registryInv_remove (h : NEO6M_Handle_t) (k : MessagesTypes_t)
    (hk : k ≠ .EMPTY) (hinv : RegistryInv h) :
    RegistryInv (NEO6M_RemoveExpectedMessage h k).1 := by
  obtain ⟨hlen, hslots, hcnt⟩ := hinv
  unfold NEO6M_RemoveExpectedMessage
  rcases removeLoop_cases h k hlen with ⟨_, hloop⟩ | ⟨i, hi, htype, _, hloop⟩
  · rw [hloop]
    exact ⟨hlen, hslots, hcnt⟩
  · rw [hloop]
    have hil : i < h.expectedMessages.length := by omega
    have hslot : isExpected h.expectedMessages[i] = true := by
      rw [getD_eq_getElem _ _ hil] at htype
      simp [isExpected, htype, hk]
    have hcp := List.countP_set isExpected h.expectedMessages i emptyMessage hil
    rw [hslot] at hcp
    have hem : isExpected emptyMessage = false := rfl
    rw [hem] at hcp
    simp only [Bool.false_eq_true, if_false, if_true, Nat.add_zero] at hcp
    have hpos : 0 < h.expectedMessages.countP isExpected :=
      List.countP_pos_iff.mpr ⟨_, List.getElem_mem hil, hslot⟩
    have hle := countP_le_length_slots h.expectedMessages
    refine ⟨by simpa using hlen, ?_, ?_⟩
    · intro s hs
      rcases mem_set_cases _ _ _ _ hs with he | hm
      · exact Or.inl he
      · exact hslots s hm
    · show (h.expectedMessagesCount + 255) % 256 = _
      rw [hcp, hcnt]
      unfold EXPECTED_MESSAGES_BUFF_SIZE at hlen
      omega

theorem registryInv_zero : RegistryInv zeroHandle := by
  refine ⟨rfl, ?_, rfl⟩
  intro s hs
  exact Or.inl (List.eq_of_mem_replicate hs)

theorem reachable_registryInv (h : NEO6M_Handle_t) (hr : Reachable h) : RegistryInv h := by
  induction hr with
  | zero => exact registryInv_zero
  | add h k hal _ hk ih => exact registryInv_add h k hal hk ih
  | remove h k _ hk ih => exact registryInv_remove h k hk ih

/-! ## Dispatcher -/

theorem strncmp_eq0_take (n : Nat) : ∀ a b : List Char,
    strncmp_eq0 (a.take n) b n = strncmp_eq0 a b n := by
  induction n with
  | zero => intro a b; simp [strncmp_eq0]
  | succ n ih =>
    intro a b
    cases a with
    | nil => simp [strncmp_eq0]
    | cons x xs =>
      cases b with
      | nil => simp [strncmp_eq0]
      | cons y ys =>
        simp only [List.take_succ_cons, strncmp_eq0]
        rw [ih xs ys]

/-- A line that starts with the formatter of kind `k` matches exactly the catalog
descriptor of `k` among the descriptors of the kinds `GLL`..`VTG`. -/
theorem strncmp_catalog (buf : List Char) (k k' : MessagesTypes_t) (hk' : k' ≠ .EMPTY)
    (hline : buf.take 6 = (NMEA_STANDART_MESSAGGES k).formatter.take 6) (hk : k ≠ .EMPTY) :
    strncmp_eq0 buf (NMEA_STANDART_MESSAGGES k').formatter 6 = true ↔ k' = k := by
  rw [← strncmp_eq0_take, hline]
  cases k <;> cases k' <;> first | exact absurd rfl hk | exact absurd rfl hk' | decide

theorem handler_of_kind (k : MessagesTypes_t) (hk : k ≠ .EMPTY) :
    ∃ f, NMEA_MESSAGGES_HANDLERS.get? (k.toNat - 1) = some f := by
  cases k <;> first | exact absurd rfl hk | exact ⟨_, rfl⟩

theorem countP_take_succ (slots : List NMEA_StandardMessage_t) (i : Nat)
    (hi : i < slots.length) :
    (slots.take (i + 1)).countP isExpected =
      (slots.take i).countP isExpected + (if isExpected slots[i] then 1 else 0) := by
  rw [List.take_succ, List.countP_append, List.getElem?_eq_getElem hi]
  simp [List.countP_cons]

theorem countP_take_mono (slots : List NMEA_StandardMessage_t) (i j : Nat) (hij : i ≤ j) :
    (slots.take i).countP isExpected ≤ (slots.take j).countP isExpected := by
  have : slots.take i = (slots.take j).take i := by
    rw [List.take_take, Nat.min_eq_left hij]
  rw [this]
  exact List.Sublist.countP_le _ (List.take_sublist _ _)

theorem countP_take_le (slots : List NMEA_StandardMessage_t) (i : Nat) :
    (slots.take i).countP isExpected ≤ slots.countP isExpected :=
  List.Sublist.countP_le _ (List.take_sublist _ _)

/-- The dispatch loop reaches the first non-empty slot whose formatter matches the line,
provided `expectedMessagesCount` is the number of non-empty slots. -/
theorem dispatchLoop_found (h : NEO6M_Handle_t) (j0 : Nat) (f : HandlerFunction_t)
    (hj0 : j0 < h.expectedMessages.length)
    (hcnt : h.expectedMessagesCount = h.expectedMessages.countP isExpected)
    (hexp : (h.expectedMessages.getD j0 emptyMessage).type ≠ .EMPTY)
    (hmatch : strncmp_eq0 h.rxBuff (h.expectedMessages.getD j0 emptyMessage).formatter 6 = true)
    (hf : NMEA_MESSAGGES_HANDLERS.get? ((h.expectedMessages.getD j0 emptyMessage).type.toNat - 1)
      = some f)
    (hfirst : ∀ j, j < j0 → (h.expectedMessages.getD j emptyMessage).type ≠ .EMPTY →
      strncmp_eq0 h.rxBuff (h.expectedMessages.getD j emptyMessage).formatter 6 = false) :
    ∀ n i, i ≤ j0 → j0 < i + n →
      dispatchLoop h n i ((h.expectedMessages.take i).countP isExpected) = [(f, j0)] := by
  have hj0exp : isExpected h.expectedMessages[j0] = true := by
    rw [getD_eq_getElem _ _ hj0] at hexp
    simp [isExpected, hexp]
  have hlt : ∀ i, i ≤ j0 →
      (h.expectedMessages.take i).countP isExpected < h.expectedMessagesCount := by
    intro i hi
    have h1 := countP_take_mono h.expectedMessages i j0 hi
    have h2 := countP_take_succ h.expectedMessages j0 hj0
    have h3 := countP_take_le h.expectedMessages (j0 + 1)
    rw [hj0exp] at h2
    simp only [if_true] at h2
    omega
  intro n
  induction n with
  | zero => intro i h1 h2; omega
  | succ n ih =>
    intro i h1 h2
    by_cases hi : i = j0
    · subst hi
      rw [dispatchLoop]
      simp only [hexp, ne_eq, not_false_eq_true, if_true, hmatch, hf]
    · have hilt : i < j0 := by omega
      have hil : i < h.expectedMessages.length := by omega
      have hsucc := countP_take_succ h.expectedMessages i hil
      have hnext := hlt (i + 1) (by omega)
      rw [dispatchLoop]
      by_cases he : (h.expectedMessages.getD i emptyMessage).type = .EMPTY
      · have hie : isExpected h.expectedMessages[i] = false := by
          rw [getD_eq_getElem _ _ hil] at he
          simp [isExpected, he]
        rw [hie] at hsucc
        simp only [Bool.false_eq_true, if_false, Nat.add_zero] at hsucc
        simp only [he, ne_eq, not_true_eq_false, if_false]
        rw [if_neg (by have := hlt i (by omega); omega)]
        rw [← hsucc]
        exact ih (i + 1) (by omega) (by omega)
      · have hie : isExpected h.expectedMessages[i] = true := by
          rw [getD_eq_getElem _ _ hil] at he
          simp [isExpected, he]
        rw [hie] at hsucc
        simp only [if_true] at hsucc
        have hnm := hfirst i hilt he
        simp only [he, ne_eq, not_false_eq_true, if_true, hnm, Bool.false_eq_true, if_false]
        rw [if_neg (by omega)]
        rw [← hsucc]
        exact ih (i + 1) (by omega) (by omega)

theorem take_set_ge (l : List Char) (n i : Nat) (c : Char) (h : n ≤ i) :
    (l.set i c).take n = l.take n := by
  apply List.ext_getElem?
  intro m
  rw [List.getElem?_take, List.getElem?_take]
  by_cases hm : m < n
  · rw [if_pos hm, if_pos hm, List.getElem?_set]
    rw [if_neg (by omega)]
  · rw [if_neg hm, if_neg hm]

/-- C1: in a registry reachable from a zero-initialised handle by enable/disable calls with
kinds `GLL`..`VTG`, when the handler receives the `'\n'` completing a line whose first 6
characters are the formatter of a kind `k` held in some slot, it makes exactly one handler
call: `NMEA_MESSAGGES_HANDLERS[k-1]`, with the index of a slot that holds `k`. -/
theorem dispatch_routes_line_to_kind_handler (r handler : NEO6M_Handle_t) (k : MessagesTypes_t)
    (hreach : Reachable r)
    (hslots : handler.expectedMessages = r.expectedMessages)
    (hcount : handler.expectedMessagesCount = r.expectedMessagesCount)
    (hk : k ≠ .EMPTY)
    (hheld : ∃ s ∈ handler.expectedMessages, s.type = k)
    (hlo : 6 ≤ handler.rxCounter) (hhi : handler.rxCounter < RX_BUFFER_SIZE)
    (hline : handler.rxBuff.take 6 = (NMEA_STANDART_MESSAGGES k).formatter.take 6)
    (hbyte : handler.rcvdByte = '\n') :
    ∃ f i, NMEA_MESSAGGES_HANDLERS.get? (k.toNat - 1) = some f ∧
      i < EXPECTED_MESSAGES_BUFF_SIZE ∧
      (handler.expectedMessages.getD i emptyMessage).type = k ∧
      handlerCalls handler = [(f, i)] := by
  obtain ⟨hlen, hcat, hcnt⟩ := reachable_registryInv r hreach
  rw [← hslots] at hlen hcat hcnt
  rw [← hcount] at hcnt
  obtain ⟨i, hi, htype, hmin⟩ :=
    exists_first_slot handler.expectedMessages (fun s => s.type = k) hheld
  obtain ⟨f, hf⟩ := handler_of_kind k hk
  have hslot : ∀ j, j < handler.expectedMessages.length →
      (handler.expectedMessages.getD j emptyMessage).type ≠ .EMPTY →
      ∃ k', k' ≠ .EMPTY ∧ handler.expectedMessages.getD j emptyMessage =
        NMEA_STANDART_MESSAGGES k' := by
    intro j hj hne
    rw [getD_eq_getElem _ _ hj] at hne ⊢
    rcases hcat _ (List.getElem_mem hj) with he | ⟨k', hk', he⟩
    · rw [he] at hne; exact absurd rfl hne
    · exact ⟨k', hk', he⟩
  refine ⟨f, i, hf, by omega, htype, ?_⟩
  unfold handlerCalls storeByte
  rw [if_pos hhi]
  simp only [hbyte, if_true]
  have hline' : (handler.rxBuff.set handler.rxCounter '\n').take 6 =
      (NMEA_STANDART_MESSAGGES k).formatter.take 6 := by
    rw [take_set_ge _ _ _ _ hlo]; exact hline
  have key := dispatchLoop_found
    { handler with
      rxBuff := handler.rxBuff.set handler.rxCounter '\n'
      rxCounter := (handler.rxCounter + 1) % 4294967296 } i f hi hcnt
    (by show (handler.expectedMessages.getD i emptyMessage).type ≠ .EMPTY
        rw [htype]; exact hk)
    (by show strncmp_eq0 (handler.rxBuff.set handler.rxCounter '\n')
          (handler.expectedMessages.getD i emptyMessage).formatter 6 = true
        obtain ⟨k', hk', he⟩ := hslot i hi (by rw [htype]; exact hk)
        have hkk : k' = k := by rw [he, catalog_type] at htype; exact htype
        rw [he]
        exact (strncmp_catalog _ k k' hk' hline' hk).mpr hkk)
    (by show NMEA_MESSAGGES_HANDLERS.get?
          ((handler.expectedMessages.getD i emptyMessage).type.toNat - 1) = some f
        rw [htype]; exact hf)
    (by intro j hj hne
        show strncmp_eq0 (handler.rxBuff.set handler.rxCounter '\n')
          (handler.expectedMessages.getD j emptyMessage).formatter 6 = false
        obtain ⟨k', hk', he⟩ := hslot j (by omega) hne
        have hkk : k' ≠ k := by
          intro hc
          apply hmin j hj
          show (handler.expectedMessages.getD j emptyMessage).type = k
          rw [he, catalog_type]; exact hc
        rw [he]
        cases hb : strncmp_eq0 (handler.rxBuff.set handler.rxCounter '\n')
          (NMEA_STANDART_MESSAGGES k').formatter 6
        · rfl
        · exact absurd ((strncmp_catalog _ k k' hk' hline' hk).mp hb) hkk)
    EXPECTED_MESSAGES_BUFF_SIZE 0 (Nat.zero_le i) (by omega)
  simpa using key
theorem dispatch_routes_line_to_kind_handler_witness :
    Reachable gllHandle ∧
    (pendingLine gllHandle gllSentence).expectedMessages = gllHandle.expectedMessages ∧
    (pendingLine gllHandle gllSentence).expectedMessagesCount =
      gllHandle.expectedMessagesCount ∧
    MessagesTypes_t.GLL ≠ .EMPTY ∧
    (∃ s ∈ (pendingLine gllHandle gllSentence).expectedMessages, s.type = .GLL) ∧
    6 ≤ (pendingLine gllHandle gllSentence).rxCounter ∧
    (pendingLine gllHandle gllSentence).rxCounter < RX_BUFFER_SIZE ∧
    (pendingLine gllHandle gllSentence).rxBuff.take 6 =
      (NMEA_STANDART_MESSAGGES .GLL).formatter.take 6 ∧
    (pendingLine gllHandle gllSentence).rcvdByte = '\n' ∧
    ∃ f i, NMEA_MESSAGGES_HANDLERS.get? (MessagesTypes_t.GLL.toNat - 1) = some f ∧
      i < EXPECTED_MESSAGES_BUFF_SIZE ∧
      ((pendingLine gllHandle gllSentence).expectedMessages.getD i emptyMessage).type = .GLL ∧
      handlerCalls (pendingLine gllHandle gllSentence) = [(f, i)] :=
  ⟨Reachable.add zeroHandle .GLL .HAL_OK Reachable.zero (by decide), rfl, rfl, by decide,
    ⟨NMEA_STANDART_MESSAGGES .GLL, by decide, rfl⟩, by decide, by decide, by decide, rfl,
    dispatch_routes_line_to_kind_handler gllHandle (pendingLine gllHandle gllSentence) .GLL
      (Reachable.add zeroHandle .GLL .HAL_OK Reachable.zero (by decide)) rfl rfl (by decide)
      ⟨NMEA_STANDART_MESSAGGES .GLL, by decide, rfl⟩ (by decide) (by decide) (by decide) rfl⟩

/-! ## Field parser -/

theorem strchr_eq_none (c : Char) : ∀ s : List Char, s.count c = 0 → strchr s c = none := by
  intro s
  induction s with
  | nil => intro _; rfl
  | cons x xs ih =>
    intro hc
    by_cases hx : x = c
    · subst hx; simp at hc
    · rw [List.count_cons_of_ne (Ne.symm hx)] at hc
      rw [strchr, if_neg hx]
      exact ih hc

theorem strchr_split (c : Char) : ∀ s : List Char, 0 < s.count c →
    ∃ pre rest, s = pre ++ c :: rest ∧ pre.count c = 0 ∧ strchr s c = some (c :: rest) := by
  intro s
  induction s with
  | nil => intro hc; simp at hc
  | cons x xs ih =>
    intro hc
    by_cases hx : x = c
    · subst hx
      exact ⟨[], xs, rfl, rfl, by rw [strchr, if_pos rfl]⟩
    · rw [List.count_cons_of_ne (Ne.symm hx)] at hc
      obtain ⟨pre, rest, hs, hp, hstr⟩ := ih hc
      refine ⟨x :: pre, rest, by rw [hs]; rfl, ?_, ?_⟩
      · rw [List.count_cons_of_ne (Ne.symm hx)]; exact hp
      · rw [strchr, if_neg hx]; exact hstr

theorem nmea_tags_cons_comma (L : LibC) (ptr : List Char) (t : Char) (ts : List Char)
    (ht : isCommaTag t = true) :
    nmea_tags L ptr (t :: ts) =
      match strchr ptr ',' with
      | none => none
      | some p => (nmea_tags L p.tail ts).map (convTag L t p.tail :: ·) := by
  have ht' : t = 'f' ∨ t = 'c' ∨ t = '8' ∨ t = 'd' ∨ t = '1' ∨ t = '3' := by
    simpa [isCommaTag, commaTags] using ht
  rcases ht' with h | h | h | h | h | h <;> subst h <;> rfl

theorem nmea_tags_cons_other (L : LibC) (ptr : List Char) (t : Char) (ts : List Char)
    (ht : isCommaTag t = false) :
    nmea_tags L ptr (t :: ts) = (nmea_tags L ptr ts).map (Value.u8 0 :: ·) := by
  have ht' : ¬ (t = 'f' ∨ t = 'c' ∨ t = '8' ∨ t = 'd' ∨ t = '1' ∨ t = '3') := by
    simpa [isCommaTag, commaTags] using ht
  simp only [not_or] at ht'
  obtain ⟨h1, h2, h3, h4, h5, h6⟩ := ht'
  rw [nmea_tags]
  simp only [h1, h2, h3, h4, h5, h6, if_false]

/-- The tag loop succeeds when the text ahead holds a comma for every comma tag, and then
each comma tag's value is converted from the text right after its own comma. -/
theorem nmea_tags_spec (L : LibC) : ∀ (fmt a0 ptr : List Char),
    fmt.countP isCommaTag ≤ ptr.count ',' →
    ∃ outs, nmea_tags L ptr fmt = some outs ∧ outs.length = fmt.length ∧
      ∀ i (hi : i < fmt.length),
        (isCommaTag fmt[i] = true → ∃ a text, a0 ++ ptr = a ++ ',' :: text ∧
          a.count ',' = a0.count ',' + (fmt.take i).countP isCommaTag ∧
          outs[i]? = some (convTag L fmt[i] text)) ∧
        (isCommaTag fmt[i] = false → outs[i]? = some (Value.u8 0)) := by
  intro fmt
  induction fmt with
  | nil =>
    intro a0 ptr _
    exact ⟨[], rfl, rfl, fun i hi => absurd hi (Nat.not_lt_zero i)⟩
  | cons t ts ih =>
    intro a0 ptr hcount
    by_cases ht : isCommaTag t = true
    · rw [List.countP_cons_of_pos _ _ ht] at hcount
      obtain ⟨pre, rest, hptr, hpre, hstr⟩ := strchr_split ',' ptr (by omega)
      have hcr : ts.countP isCommaTag ≤ rest.count ',' := by
        rw [hptr, List.count_append, hpre, List.count_cons_self] at hcount
        omega
      obtain ⟨outs, hout, hlen, hspec⟩ := ih (a0 ++ pre ++ [',']) rest hcr
      refine ⟨convTag L t rest :: outs, ?_, by simp [hlen], ?_⟩
      · rw [nmea_tags_cons_comma L ptr t ts ht, hstr]
        simp [hout]
      · intro i hi
        cases i with
        | zero =>
          refine ⟨fun _ => ⟨a0 ++ pre, rest, by rw [hptr]; simp, ?_, by simp⟩,
            fun hf => ?_⟩
          · simp [List.count_append, hpre]
          · simp [ht] at hf
        | succ i =>
          have hi' : i < ts.length := by simpa using hi
          obtain ⟨hc, ho⟩ := hspec i hi'
          refine ⟨fun hti => ?_, fun hti => ?_⟩
          · obtain ⟨a, text, hdec, hac, hval⟩ := hc (by simpa using hti)
            refine ⟨a, text, ?_, ?_, by simpa using hval⟩
            · rw [← hdec, hptr]; simp
            · rw [hac]
              simp [List.count_append, hpre, List.countP_cons_of_pos _ _ ht]
              omega
          · simpa using ho (by simpa using hti)
    · have htf : isCommaTag t = false := by simpa using ht
      rw [List.countP_cons_of_neg _ _ ht] at hcount
      obtain ⟨outs, hout, hlen, hspec⟩ := ih a0 ptr hcount
      refine ⟨Value.u8 0 :: outs, ?_, by simp [hlen], ?_⟩
      · rw [nmea_tags_cons_other L ptr t ts htf, hout]; rfl
      · intro i hi
        cases i with
        | zero =>
          exact ⟨fun hf => by simp [htf] at hf, fun _ => by simp⟩
        | succ i =>
          have hi' : i < ts.length := by simpa using hi
          obtain ⟨hc, ho⟩ := hspec i hi'
          refine ⟨fun hti => ?_, fun hti => ?_⟩
          · obtain ⟨a, text, hdec, hac, hval⟩ := hc (by simpa using hti)
            refine ⟨a, text, hdec, ?_, by simpa using hval⟩
            rw [hac]
            simp [List.countP_cons_of_neg _ _ ht]
          · simpa using ho (by simpa using hti)

/-- The tag loop fails when the text ahead holds fewer commas than there are comma tags. -/
theorem nmea_tags_fail (L : LibC) : ∀ (fmt ptr : List Char),
    ptr.count ',' < fmt.countP isCommaTag → nmea_tags L ptr fmt = none := by
  intro fmt
  induction fmt with
  | nil => intro ptr h; simp at h
  | cons t ts ih =>
    intro ptr hcount
    by_cases ht : isCommaTag t = true
    · rw [List.countP_cons_of_pos _ _ ht] at hcount
      rw [nmea_tags_cons_comma L ptr t ts ht]
      by_cases hz : ptr.count ',' = 0
      · rw [strchr_eq_none ',' ptr hz]
      · obtain ⟨pre, rest, hptr, hpre, hstr⟩ := strchr_split ',' ptr (by omega)
        rw [hstr]
        have : rest.count ',' < ts.countP isCommaTag := by
          rw [hptr, List.count_append, hpre, List.count_cons_self] at hcount
          omega
        simp [ih rest this]
    · have htf : isCommaTag t = false := by simpa using ht
      rw [List.countP_cons_of_neg _ _ ht] at hcount
      rw [nmea_tags_cons_other L ptr t ts htf, ih ptr hcount]
      rfl

/-- The split of a text at the `n`-th occurrence of a character is unique. -/
theorem char_split_unique (c : Char) : ∀ (a a' t t' : List Char),
    a ++ c :: t = a' ++ c :: t' → a.count c = a'.count c → a = a' ∧ t = t' := by
  intro a
  induction a with
  | nil =>
    intro a' t t' h hc
    cases a' with
    | nil => simpa using h
    | cons x xs =>
      simp only [List.nil_append, List.cons_append, List.cons.injEq] at h
      rw [← h.1] at hc
      simp at hc
  | cons y ys ih =>
    intro a' t t' h hc
    cases a' with
    | nil =>
      simp only [List.nil_append, List.cons_append, List.cons.injEq] at h
      rw [h.1] at hc
      simp at hc
    | cons x xs =>
      simp only [List.cons_append, List.cons.injEq] at h
      obtain ⟨hxy, hrest⟩ := h
      subst hxy
      have hc' : ys.count c = xs.count c := by
        by_cases hy : y = c
        · subst hy; simpa using hc
        · rw [List.count_cons_of_ne (Ne.symm hy), List.count_cons_of_ne (Ne.symm hy)] at hc
          exact hc
      obtain ⟨h1, h2⟩ := ih xs t t' hrest hc'
      exact ⟨by rw [h1], h2⟩

/-- The split of a text at its `n`-th comma is unique. -/
theorem comma_split_unique (a a' t t' : List Char)
    (h : a ++ ',' :: t = a' ++ ',' :: t') (hc : a.count ',' = a'.count ',') :
    a = a' ∧ t = t' := char_split_unique ',' a a' t t' h hc

/-! ## `strtol` on the tokens the parser meets -/

theorem digitVal_lt (base : Nat) (c : Char) (d : Nat) (h : digitVal base c = some d) :
    d < base := by
  unfold digitVal at h
  by_cases hlt : digitCode c < base
  · rw [if_pos hlt] at h
    cases h
    exact hlt
  · rw [if_neg hlt] at h
    cases h

theorem special_not_hexDigit :
    ∀ c ∈ [' ', '\t', '\n', '\x0b', '\x0c', '\r', '-', '+', 'x', 'X'], digitVal 16 c = none := by
  decide

theorem hexDigit_not_special (c : Char) (d : Nat) (h : digitVal 16 c = some d) :
    isspace c = false ∧ c ≠ '-' ∧ c ≠ '+' ∧ c ≠ 'x' ∧ c ≠ 'X' := by
  have key : c ∉ [' ', '\t', '\n', '\x0b', '\x0c', '\r', '-', '+', 'x', 'X'] := by
    intro hmem
    rw [special_not_hexDigit c hmem] at h
    cases h
  simp only [List.mem_cons, List.mem_singleton, not_or, List.not_mem_nil, not_false_eq_true,
    and_true] at key
  obtain ⟨k1, k2, k3, k4, k5, k6, k7, k8, k9, k10⟩ := key
  refine ⟨?_, k7, k8, k9, k10⟩
  simp [isspace, k1, k2, k3, k4, k5, k6]

theorem strtolDigits_stop (base : Nat) (s : List Char) (acc : Nat)
    (h : ∀ c, s.head? = some c → digitVal base c = none) : strtolDigits base s acc = acc := by
  cases s with
  | nil => rfl
  | cons c cs => rw [strtolDigits, h c rfl]

/-- In base 16, `strtol` on exactly two hexadecimal digits returns `16*d1 + d2`. -/
theorem strtol_two_hex (h1 h2 : Char) (rest : List Char) (d1 d2 : Nat)
    (hd1 : digitVal 16 h1 = some d1) (hd2 : digitVal 16 h2 = some d2)
    (hrest : ∀ c, rest.head? = some c → digitVal 16 c = none) :
    strtol (h1 :: h2 :: rest) 16 = ((16 * d1 + d2 : Nat) : Int) := by
  obtain ⟨hsp, hm, hp, _, _⟩ := hexDigit_not_special h1 d1 hd1
  obtain ⟨_, _, _, hx, hX⟩ := hexDigit_not_special h2 d2 hd2
  have hl1 := digitVal_lt 16 h1 d1 hd1
  have hl2 := digitVal_lt 16 h2 d2 hd2
  have hdrop : List.dropWhile isspace (h1 :: h2 :: rest) = h1 :: h2 :: rest := by
    rw [List.dropWhile_cons_of_neg (by simp [hsp])]
  have hdig : strtolDigits 16 (h1 :: h2 :: rest) 0 = 16 * d1 + d2 := by
    rw [strtolDigits, hd1]
    simp only
    rw [strtolDigits, hd2]
    simp only
    rw [strtolDigits_stop 16 rest _ hrest]
    omega
  unfold strtol
  simp only [hdrop, List.head?_cons, Option.some.injEq, hm, hp, or_self, if_false,
    List.tail_cons, hx, hX, and_false, hdig]
  apply min_eq_left
  unfold LONG_MAX
  omega

/-- In base 10, `strtol` converts nothing from a text that starts with a separator. -/
theorem strtol_separator (s : List Char)
    (h : s.head? = some ',' ∨ s.head? = some '*') : strtol s 10 = 0 := by
  cases s with
  | nil => simp at h
  | cons c cs =>
    simp only [List.head?_cons, Option.some.injEq] at h
    rcases h with hc | hc
    · subst hc
      unfold strtol
      have hd : List.dropWhile isspace (',' :: cs) = ',' :: cs :=
        List.dropWhile_cons_of_neg (by decide)
      have hv : digitVal 10 ',' = none := by decide
      rw [hd]
      simp [strtolDigits, hv, LONG_MAX]
    · subst hc
      unfold strtol
      have hd : List.dropWhile isspace ('*' :: cs) = '*' :: cs :=
        List.dropWhile_cons_of_neg (by decide)
      have hv : digitVal 10 '*' = none := by decide
      rw [hd]
      simp [strtolDigits, hv, LONG_MAX]

/-! ## Field parser: the claims -/

theorem countP_commaTags_all (fmt : List Char) (hfmt : ∀ t ∈ fmt, t ∈ commaTags) :
    fmt.countP isCommaTag = fmt.length := by
  rw [List.countP_eq_length]
  intro t ht
  simp [isCommaTag, hfmt t ht]

theorem countP_commaTags_take (fmt : List Char) (hfmt : ∀ t ∈ fmt, t ∈ commaTags) (i : Nat)
    (hi : i ≤ fmt.length) : (fmt.take i).countP isCommaTag = i := by
  rw [countP_commaTags_all _ (fun t ht => hfmt t (List.mem_of_mem_take ht))]
  simp [hi]

theorem nmeaParser_eq (L : LibC) (package formats pre rest : List Char)
    (outs : List Value) (htags : nmea_tags L package formats = some outs)
    (hpkg : package = pre ++ '*' :: rest) (hpre : pre.count '*' = 0) :
    nmeaParser L package formats = some (outs, (strtol rest 16 % 65536).toNat) := by
  have hpos : 0 < package.count '*' := by
    rw [hpkg, List.count_append, List.count_cons_self]; omega
  obtain ⟨pre', rest', hs, hp, hstr⟩ := strchr_split '*' package hpos
  have hsame : pre' ++ '*' :: rest' = pre ++ '*' :: rest := by rw [← hs, hpkg]
  obtain ⟨_, hrest⟩ := char_split_unique '*' pre' pre rest' rest hsame (by rw [hp, hpre])
  subst hrest
  unfold nmeaParser
  rw [htags, hstr]
  rfl

/-- C2: for a format made only of comma tags and a line with at least as many commas and a
`'*'`, `nmea_parser` stores one value per tag, in tag order, and the `i`-th value is the
conversion, by the `i`-th tag, of the text right after the `i`-th comma of the line; for tag
`c` it is the single character at that position. -/
theorem nmeaParser_values_follow_commas (L : LibC) (package formats : List Char)
    (hfmt : ∀ t ∈ formats, t ∈ commaTags)
    (hcommas : formats.length ≤ package.count ',')
    (hstar : '*' ∈ package) :
    ∃ outs cs, nmeaParser L package formats = some (outs, cs) ∧
      outs.length = formats.length ∧
      ∀ i (hi : i < formats.length), ∃ a text, package = a ++ ',' :: text ∧
        a.count ',' = i ∧ outs[i]? = some (convTag L formats[i] text) ∧
        (formats[i] = 'c' → outs[i]? = some (Value.c (text.headD '\x00'))) := by
  have hc : formats.countP isCommaTag ≤ package.count ',' := by
    rw [countP_commaTags_all formats hfmt]; exact hcommas
  obtain ⟨outs, htags, hlen, hspec⟩ := nmea_tags_spec L formats [] package hc
  obtain ⟨pre, rest, hpkg, hpre, _⟩ :=
    strchr_split '*' package (List.count_pos_iff.mpr hstar)
  refine ⟨outs, _, nmeaParser_eq L package formats pre rest outs htags hpkg hpre, hlen, ?_⟩
  intro i hi
  have hti : isCommaTag formats[i] = true := by
    simp [isCommaTag, hfmt _ (List.getElem_mem hi)]
  obtain ⟨a, text, hdec, hac, hval⟩ := (hspec i hi).1 hti
  rw [countP_commaTags_take formats hfmt i (le_of_lt hi)] at hac
  refine ⟨a, text, by simpa using hdec, by simpa using hac, hval, ?_⟩
  intro hcc
  rw [hval, hcc]
  rfl

theorem nmeaParser_values_follow_commas_witness :
    (∀ t ∈ "dcdc3cc".toList, t ∈ commaTags) ∧
    "dcdc3cc".toList.length ≤ (gllSentence ++ ['\n']).count ',' ∧
    '*' ∈ gllSentence ++ ['\n'] ∧
    ∃ outs cs, nmeaParser refLibC (gllSentence ++ ['\n']) "dcdc3cc".toList = some (outs, cs) ∧
      outs.length = "dcdc3cc".toList.length ∧
      ∀ i (hi : i < "dcdc3cc".toList.length), ∃ a text,
        gllSentence ++ ['\n'] = a ++ ',' :: text ∧
        a.count ',' = i ∧ outs[i]? = some (convTag refLibC "dcdc3cc".toList[i] text) ∧
        ("dcdc3cc".toList[i] = 'c' → outs[i]? = some (Value.c (text.headD '\x00'))) :=
  ⟨by decide, by decide, by decide,
    nmeaParser_values_follow_commas refLibC (gllSentence ++ ['\n']) "dcdc3cc".toList
      (by decide) (by decide) (by decide)⟩

/-- C9 (as stated) fails: in a line whose first `'*'` is followed by the hex digits `1`, `D`
and then `5`, the stored checksum is `0x1D5 = 469`, not `16*1 + 13 = 29`. -/
theorem checksum_third_hex_digit_counterexample :
    gllLongChecksum =
      "$GPGLL,4916.45,N,12311.12,W,225444,A,A".toList ++ '*' :: '1' :: 'D' :: "5\r\n".toList ∧
    '*' ∉ "$GPGLL,4916.45,N,12311.12,W,225444,A,A".toList ∧
    digitVal 16 '1' = some 1 ∧ digitVal 16 'D' = some 13 ∧
    "dcdc3cc".toList.countP isCommaTag ≤ gllLongChecksum.count ',' ∧
    (nmeaParser refLibC gllLongChecksum "dcdc3cc".toList).map Prod.snd = some 469 ∧
    (469 : Nat) ≠ 16 * 1 + 13 := by
  decide

/-- C9 (amended): when the line has a comma for every comma tag and its first `'*'` is
followed by exactly two hexadecimal digits `h1 h2` (the next character is not a hexadecimal
digit), `nmea_parser` stores `16*h1 + h2` through the last pointer, whatever the tag
sequence. -/
theorem nmeaParser_checksum (L : LibC) (package formats pre rest : List Char)
    (h1 h2 : Char) (d1 d2 : Nat)
    (hcommas : formats.countP isCommaTag ≤ package.count ',')
    (hpkg : package = pre ++ '*' :: h1 :: h2 :: rest) (hpre : '*' ∉ pre)
    (hd1 : digitVal 16 h1 = some d1) (hd2 : digitVal 16 h2 = some d2)
    (hrest : ∀ c, rest.head? = some c → digitVal 16 c = none) :
    ∃ outs, nmeaParser L package formats = some (outs, 16 * d1 + d2) := by
  obtain ⟨outs, htags, _, _⟩ := nmea_tags_spec L formats [] package hcommas
  have hl1 := digitVal_lt 16 h1 d1 hd1
  have hl2 := digitVal_lt 16 h2 d2 hd2
  refine ⟨outs, ?_⟩
  rw [nmeaParser_eq L package formats pre (h1 :: h2 :: rest) outs htags hpkg
    (List.count_eq_zero.mpr hpre), strtol_two_hex h1 h2 rest d1 d2 hd1 hd2 hrest]
  congr 2
  omega

theorem nmeaParser_checksum_witness :
    "dcdc3cc".toList.countP isCommaTag ≤ (gllSentence ++ ['\n']).count ',' ∧
    gllSentence ++ ['\n'] =
      "$GPGLL,4916.45,N,12311.12,W,225444,A,A".toList ++ '*' :: '1' :: 'D' :: "\r\n".toList ∧
    '*' ∉ "$GPGLL,4916.45,N,12311.12,W,225444,A,A".toList ∧
    digitVal 16 '1' = some 1 ∧ digitVal 16 'D' = some 13 ∧
    (∀ c, "\r\n".toList.head? = some c → digitVal 16 c = none) ∧
    ∃ outs, nmeaParser refLibC (gllSentence ++ ['\n']) "dcdc3cc".toList =
      some (outs, 16 * 1 + 13) :=
  ⟨by decide, by decide, by decide, by decide, by decide,
    by intro c hc; cases hc; decide,
    nmeaParser_checksum refLibC (gllSentence ++ ['\n']) "dcdc3cc".toList
      "$GPGLL,4916.45,N,12311.12,W,225444,A,A".toList "\r\n".toList '1' 'D' 1 13
      (by decide) (by decide) (by decide) (by decide) (by decide)
      (by intro c hc; cases hc; decide)⟩

theorem convTag_separator (L : LibC)
    (hstrtod : ∀ s : List Char, (s.head? = some ',' ∨ s.head? = some '*') → L.strtod s = 0)
    (hfloat : L.toFloat 0 = 0) (t : Char) (text : List Char)
    (ht : t ∈ ['f', 'd', '8', '1', '3'])
    (hsep : text.head? = some ',' ∨ text.head? = some '*') :
    convTag L t text = zeroOfTag t := by
  have hl := strtol_separator text hsep
  have hd := hstrtod text hsep
  simp only [List.mem_cons, List.mem_singleton, List.not_mem_nil, or_false] at ht
  rcases ht with h | h | h | h | h <;> subst h <;>
    simp [convTag, zeroOfTag, hl, hd, hfloat]

/-- The decimal reading of `strtod` converts nothing from a text that starts with a
separator. -/
theorem decimalStrtod_separator (s : List Char)
    (h : s.head? = some ',' ∨ s.head? = some '*') : decimalStrtod s = 0 := by
  cases s with
  | nil => simp at h
  | cons c cs =>
    simp only [List.head?_cons, Option.some.injEq] at h
    rcases h with hc | hc
    · subst hc
      have hd : List.dropWhile isspace (',' :: cs) = ',' :: cs :=
        List.dropWhile_cons_of_neg (by decide)
      have hdig : Char.isDigit ',' = false := by decide
      unfold decimalStrtod
      rw [hd]
      simp [hdig, strtolDigits]
    · subst hc
      have hd : List.dropWhile isspace ('*' :: cs) = '*' :: cs :=
        List.dropWhile_cons_of_neg (by decide)
      have hdig : Char.isDigit '*' = false := by decide
      unfold decimalStrtod
      rw [hd]
      simp [hdig, strtolDigits]

/-- C10: for a numeric tag (`f`, `d`, `8`, `1`, `3`) whose token is empty (the character right
after its comma is `','` or `'*'`), the stored value is the zero of the tag's type, and the
following tags are parsed as usual, the next one from the very next comma. The C library is
assumed to return zero from `strtod` when no conversion is performed. -/
theorem nmeaParser_empty_numeric_token (L : LibC)
    (hstrtod : ∀ s : List Char, (s.head? = some ',' ∨ s.head? = some '*') → L.strtod s = 0)
    (hfloat : L.toFloat 0 = 0)
    (package formats : List Char)
    (hfmt : ∀ t ∈ formats, t ∈ commaTags)
    (hcommas : formats.length ≤ package.count ',')
    (hstar : '*' ∈ package)
    (i : Nat) (hi : i < formats.length) (hnum : formats[i] ∈ ['f', 'd', '8', '1', '3'])
    (a text : List Char) (hsplit : package = a ++ ',' :: text) (ha : a.count ',' = i)
    (hempty : text.head? = some ',' ∨ text.head? = some '*') :
    ∃ outs cs, nmeaParser L package formats = some (outs, cs) ∧
      outs[i]? = some (zeroOfTag formats[i]) ∧
      (∀ j (hj : j < formats.length), i < j → ∃ a' text', package = a' ++ ',' :: text' ∧
        a'.count ',' = j ∧ outs[j]? = some (convTag L formats[j] text')) ∧
      (∀ (hn : i + 1 < formats.length), text.head? = some ',' →
        outs[i + 1]? = some (convTag L formats[i + 1] text.tail)) := by
  have hc : formats.countP isCommaTag ≤ package.count ',' := by
    rw [countP_commaTags_all formats hfmt]; exact hcommas
  obtain ⟨outs, htags, hlen, hspec⟩ := nmea_tags_spec L formats [] package hc
  obtain ⟨pre, rest, hpkg, hpre, _⟩ :=
    strchr_split '*' package (List.count_pos_iff.mpr hstar)
  have hval : ∀ j (hj : j < formats.length), ∃ a' text', package = a' ++ ',' :: text' ∧
      a'.count ',' = j ∧ outs[j]? = some (convTag L formats[j] text') := by
    intro j hj
    have htj : isCommaTag formats[j] = true := by
      simp [isCommaTag, hfmt _ (List.getElem_mem hj)]
    obtain ⟨a', text', hdec, hac, hv⟩ := (hspec j hj).1 htj
    rw [countP_commaTags_take formats hfmt j (le_of_lt hj)] at hac
    exact ⟨a', text', by simpa using hdec, by simpa using hac, hv⟩
  refine ⟨outs, _, nmeaParser_eq L package formats pre rest outs htags hpkg hpre, ?_,
    fun j hj _ => hval j hj, ?_⟩
  · obtain ⟨a', text', hdec, hac, hv⟩ := hval i hi
    obtain ⟨_, htext⟩ := comma_split_unique a a' text text' (by rw [← hsplit, ← hdec])
      (by rw [ha, hac])
    rw [hv, ← htext, convTag_separator L hstrtod hfloat _ text hnum hempty]
  · intro hn hcomma
    obtain ⟨a', text', hdec, hac, hv⟩ := hval (i + 1) hn
    cases text with
    | nil => simp at hcomma
    | cons c cs =>
      simp only [List.head?_cons, Option.some.injEq] at hcomma
      subst hcomma
      obtain ⟨_, htext⟩ := comma_split_unique (a ++ [',']) a' cs text'
        (by rw [← hdec, hsplit]; simp) (by rw [hac, List.count_append, ha]; simp)
      rw [hv, ← htext]
      rfl

theorem nmeaParser_empty_numeric_token_witness :
    (∀ s : List Char, (s.head? = some ',' ∨ s.head? = some '*') → refLibC.strtod s = 0) ∧
    refLibC.toFloat 0 = 0 ∧
    (∀ t ∈ "dcdc3cc".toList, t ∈ commaTags) ∧
    "dcdc3cc".toList.length ≤ gllEmptyTime.count ',' ∧
    '*' ∈ gllEmptyTime ∧
    "dcdc3cc".toList[4] ∈ ['f', 'd', '8', '1', '3'] ∧
    gllEmptyTime = "$GPGLL,4916.45,N,12311.12,W".toList ++ ',' :: ",A,A*1D\r\n".toList ∧
    "$GPGLL,4916.45,N,12311.12,W".toList.count ',' = 4 ∧
    (",A,A*1D\r\n".toList.head? = some ',' ∨ ",A,A*1D\r\n".toList.head? = some '*') ∧
    ∃ outs cs, nmeaParser refLibC gllEmptyTime "dcdc3cc".toList = some (outs, cs) ∧
      outs[4]? = some (zeroOfTag "dcdc3cc".toList[4]) ∧
      (∀ j (hj : j < "dcdc3cc".toList.length), 4 < j → ∃ a' text',
        gllEmptyTime = a' ++ ',' :: text' ∧
        a'.count ',' = j ∧ outs[j]? = some (convTag refLibC "dcdc3cc".toList[j] text')) ∧
      (∀ (hn : 4 + 1 < "dcdc3cc".toList.length), ",A,A*1D\r\n".toList.head? = some ',' →
        outs[4 + 1]? = some (convTag refLibC "dcdc3cc".toList[4 + 1] ",A,A*1D\r\n".toList.tail)) :=
  ⟨decimalStrtod_separator, rfl, by decide, by decide, by decide, by decide, by decide,
    by decide, by decide,
    nmeaParser_empty_numeric_token refLibC decimalStrtod_separator rfl gllEmptyTime
      "dcdc3cc".toList (by decide) (by decide) (by decide) 4 (by decide) (by decide)
      "$GPGLL,4916.45,N,12311.12,W".toList ",A,A*1D\r\n".toList (by decide) (by decide)
      (by decide)⟩

/-! ## Line framer -/

/-- The dispatch loop calls at most one handler. -/
theorem dispatchLoop_length_le_one (h : NEO6M_Handle_t) :
    ∀ n i checked, (dispatchLoop h n i checked).length ≤ 1 := by
  intro n
  induction n with
  | zero => intro i checked; simp [dispatchLoop]
  | succ n ih =>
    intro i checked
    rw [dispatchLoop]
    by_cases he : (h.expectedMessages.getD i emptyMessage).type = .EMPTY
    · simp only [he, ne_eq, not_true_eq_false, if_false]
      by_cases hc : checked ≥ h.expectedMessagesCount
      · rw [if_pos hc]; simp
      · rw [if_neg hc]; exact ih _ _
    · cases hm : strncmp_eq0 h.rxBuff (h.expectedMessages.getD i emptyMessage).formatter 6
      · simp only [he, ne_eq, not_false_eq_true, if_true, Bool.false_eq_true, if_false]
        by_cases hc : checked + 1 ≥ h.expectedMessagesCount
        · rw [if_pos hc]; simp
        · rw [if_neg hc]; exact ih _ _
      · simp only [he, ne_eq, not_false_eq_true, if_true]
        cases NMEA_MESSAGGES_HANDLERS.get?
          ((h.expectedMessages.getD i emptyMessage).type.toNat - 1) <;> simp

theorem handlerCalls_length_le_one (h : NEO6M_Handle_t) : (handlerCalls h).length ≤ 1 := by
  unfold handlerCalls
  split
  · simp
  · split
    · exact dispatchLoop_length_le_one _ _ _ _
    · simp

/-- C8: with `rxCounter < RX_BUFFER_SIZE` and the received byte `'\n'`, the byte is stored and,
whenever `NEO6M_MessageHandler` returns, `rxCounter = 0` and `rxBuff` is 100 zero bytes; at
most one handler is called, and the call returns when no slot matched and when the matched
slot's handler ran to completion. -/
theorem message_handler_resets_line_buffer (L : LibC) (handler : NEO6M_Handle_t) (g : GsvState)
    (hctr : handler.rxCounter < RX_BUFFER_SIZE) (hbyte : handler.rcvdByte = '\n') :
    ∃ h1, storeByte handler = some h1 ∧
      (∀ r, NEO6M_MessageHandler L handler g = some r →
        r.handle.rxCounter = 0 ∧ r.handle.rxBuff = List.replicate 100 '\x00') ∧
      (handlerCalls handler).length ≤ 1 ∧
      (handlerCalls handler = [] →
        ∃ r, NEO6M_MessageHandler L handler g = some r ∧ r.callbacks = []) ∧
      (∀ f i out, handlerCalls handler = [(f, i)] → f.run L h1 i g = some out →
        ∃ r, NEO6M_MessageHandler L handler g = some r ∧ r.callbacks = out.2) := by
  have hstore : storeByte handler = some
      { handler with
        rxBuff := handler.rxBuff.set handler.rxCounter handler.rcvdByte
        rxCounter := (handler.rxCounter + 1) % 4294967296 } := by
    unfold storeByte
    rw [if_pos hctr]
  refine ⟨_, hstore, ?_, handlerCalls_length_le_one handler, ?_, ?_⟩
  · intro r hr
    unfold NEO6M_MessageHandler at hr
    rw [hstore] at hr
    simp only [hbyte, if_true] at hr
    split at hr
    · cases hr
    · cases hr
      exact ⟨rfl, rfl⟩
  · intro hcalls
    unfold handlerCalls at hcalls
    rw [hstore] at hcalls
    simp only [hbyte, if_true] at hcalls
    unfold NEO6M_MessageHandler
    rw [hstore]
    simp only [hbyte, if_true]
    rw [hcalls]
    exact ⟨_, rfl, rfl⟩
  · intro f i out hcalls hrun
    unfold handlerCalls at hcalls
    rw [hstore] at hcalls
    simp only [hbyte, if_true] at hcalls
    unfold NEO6M_MessageHandler
    rw [hstore]
    simp only [hbyte, if_true]
    rw [hcalls]
    simp only [hbyte] at hrun
    simp only [runCalls, hrun, List.append_nil]
    exact ⟨_, rfl, rfl⟩

theorem message_handler_resets_line_buffer_witness :
    (pendingLine gllHandle gllSentence).rxCounter < RX_BUFFER_SIZE ∧
    (pendingLine gllHandle gllSentence).rcvdByte = '\n' ∧
    ∃ h1, storeByte (pendingLine gllHandle gllSentence) = some h1 ∧
      (∀ r, NEO6M_MessageHandler refLibC (pendingLine gllHandle gllSentence) gsvInit = some r →
        r.handle.rxCounter = 0 ∧ r.handle.rxBuff = List.replicate 100 '\x00') ∧
      (handlerCalls (pendingLine gllHandle gllSentence)).length ≤ 1 ∧
      (handlerCalls (pendingLine gllHandle gllSentence) = [] →
        ∃ r, NEO6M_MessageHandler refLibC (pendingLine gllHandle gllSentence) gsvInit = some r ∧
          r.callbacks = []) ∧
      (∀ f i out, handlerCalls (pendingLine gllHandle gllSentence) = [(f, i)] →
        f.run refLibC h1 i gsvInit = some out →
        ∃ r, NEO6M_MessageHandler refLibC (pendingLine gllHandle gllSentence) gsvInit = some r ∧
          r.callbacks = out.2) :=
  ⟨by decide, rfl,
    message_handler_resets_line_buffer refLibC (pendingLine gllHandle gllSentence) gsvInit
      (by decide) rfl⟩

/-! ## GSV reassembly -/

set_option maxRecDepth 100000

/-- C3 on the code: from the empty reassembly state with GSV enabled, fragment 1 of a group of
two is buffered without a callback call, and fragment 2 is buffered as well, again without a
callback call (`gsv_count` becomes 2); the two records are only delivered when a further GSV
line arrives. -/
theorem gsv_second_fragment_makes_no_callback :
    (feed refLibC gsvFragment1 gsvHandle gsvInit).map (fun r => (r.2.1.gsv_count, r.2.2)) =
      some (1, []) ∧
    (feed refLibC gsvFragment1 gsvHandle gsvInit).map
      (fun r => r.2.1.gsv_buff.take r.2.1.gsv_buff_len) = some gsvFragment1 ∧
    (feed refLibC (gsvFragment1 ++ gsvFragment2) gsvHandle gsvInit).map
      (fun r => (r.2.1.gsv_count, r.2.2)) = some (2, []) ∧
    (feed refLibC (gsvFragment1 ++ gsvFragment2 ++ gsvFragment1) gsvHandle gsvInit).map
      (fun r => (r.2.1.gsv_count, r.2.2.map (fun e => e.callback))) =
      some (0, [.NEO6M_GSVCallBack, .NEO6M_GSVCallBack]) := by
  decide
/-! ## Coordinate conversion -/

theorem doubleToInt_floor (q : ℚ) (h0 : 0 ≤ q) (hlt : q < 2147483648) :
    doubleToInt q = some ⌊q⌋ := by
  have ht : Int.tdiv q.num q.den = ⌊q⌋ := by
    rw [Int.tdiv_eq_ediv (Rat.num_nonneg.mpr h0) (Int.ofNat_nonneg _), Rat.floor_def]
  have hnn : 0 ≤ ⌊q⌋ := Int.floor_nonneg.mpr h0
  have hub : ⌊q⌋ < 2147483648 := Int.floor_lt.mpr (by exact_mod_cast hlt)
  unfold doubleToInt
  simp only [ht]
  rw [if_pos]
  unfold INT_MIN INT_MAX
  constructor <;> omega

/-- C11 (as stated) fails: for `v = 2147483700` the `int` product `degree*100` overflows, so
`nmea_to_dec` has no defined result, while the formula gives a value. -/
theorem nmea_to_dec_overflow_counterexample :
    (0 : ℚ) ≤ 2147483700 ∧ doubleToInt ((2147483700 : ℚ) / 100) = some 21474837 ∧
    INT_MAX < (21474837 : Int) * 100 ∧
    nmea_to_dec 2147483700 'N' = none := by
  have hd : doubleToInt ((2147483700 : ℚ) / 100) = some 21474837 := by
    rw [doubleToInt_floor _ (by norm_num) (by norm_num)]
    congr 1
    rw [Int.floor_eq_iff]
    norm_num
  refine ⟨by norm_num, hd, by decide, ?_⟩
  unfold nmea_to_dec
  rw [hd]
  simp only
  rw [if_neg]
  unfold INT_MAX
  omega

/-- C11 (amended): over exact arithmetic, for every coordinate value `0 ≤ v < 2147483700`
(so that `degree*100` is an `int`) and hemisphere character `h`,
`nmea_to_dec(v, h) = s * (floor(v/100) + (v - 100*floor(v/100))/60)` with `s = -1` for `'S'`
or `'W'` and `s = 1` otherwise; in particular `4807.038` gives `48.1173` for `'N'` and
`-48.1173` for `'S'`. -/
theorem nmea_to_dec_formula (v : ℚ) (h : Char) (hv : 0 ≤ v) (hb : v < 2147483700) :
    nmea_to_dec v h =
      some ((if h = 'S' ∨ h = 'W' then -1 else 1) *
        ((⌊v / 100⌋ : ℚ) + (v - 100 * (⌊v / 100⌋ : ℚ)) / 60)) ∧
    nmea_to_dec (4807038 / 1000) 'N' = some (481173 / 10000) ∧
    nmea_to_dec (4807038 / 1000) 'S' = some (-481173 / 10000) := by
  have general : ∀ (v : ℚ) (h : Char), 0 ≤ v → v < 2147483700 →
      nmea_to_dec v h =
        some ((if h = 'S' ∨ h = 'W' then -1 else 1) *
          ((⌊v / 100⌋ : ℚ) + (v - 100 * (⌊v / 100⌋ : ℚ)) / 60)) := by
    intro v h hv hb
    have hq0 : (0 : ℚ) ≤ v / 100 := by positivity
    have hqlt : v / 100 < 21474837 := by
      rw [div_lt_iff₀ (by norm_num : (0 : ℚ) < 100)]
      linarith
    have hnn : 0 ≤ ⌊v / 100⌋ := Int.floor_nonneg.mpr hq0
    have hub : ⌊v / 100⌋ < 21474837 := Int.floor_lt.mpr (by exact_mod_cast hqlt)
    unfold nmea_to_dec
    rw [doubleToInt_floor _ hq0 (by linarith)]
    simp only
    rw [if_pos (by unfold INT_MIN INT_MAX; constructor <;> omega)]
    congr 1
    by_cases hs : h = 'S' ∨ h = 'W'
    · rw [if_pos hs, if_pos hs]
      push_cast
      ring
    · rw [if_neg hs, if_neg hs]
      push_cast
      ring
  have hfl : ⌊(4807038 / 1000 : ℚ) / 100⌋ = 48 := by
    rw [Int.floor_eq_iff]
    norm_num
  refine ⟨general v h hv hb, ?_, ?_⟩
  · rw [general _ _ (by norm_num) (by norm_num), hfl, if_neg (by decide)]
    norm_num
  · rw [general _ _ (by norm_num) (by norm_num), hfl, if_pos (Or.inl rfl)]
    norm_num

theorem nmea_to_dec_formula_witness :
    (0 : ℚ) ≤ 4807038 / 1000 ∧ (4807038 / 1000 : ℚ) < 2147483700 ∧
    (nmea_to_dec (4807038 / 1000) 'W' =
      some ((if 'W' = 'S' ∨ 'W' = 'W' then -1 else 1) *
        ((⌊(4807038 / 1000 : ℚ) / 100⌋ : ℚ) +
          ((4807038 / 1000 : ℚ) - 100 * (⌊(4807038 / 1000 : ℚ) / 100⌋ : ℚ)) / 60)) ∧
    nmea_to_dec (4807038 / 1000) 'N' = some (481173 / 10000) ∧
    nmea_to_dec (4807038 / 1000) 'S' = some (-481173 / 10000)) :=
  ⟨by norm_num, by norm_num,
    nmea_to_dec_formula (4807038 / 1000) 'W' (by norm_num) (by norm_num)⟩

/-! ## Receive session -/

theorem status_cases (s : ReceiveStatus_t) : s = .NEO_FREE ∨ s = .NEO_WAITING := by
  cases s
  · exact Or.inl rfl
  · exact Or.inr rfl

/-- In reachable registries an empty slot exists exactly when the count is below 12. -/
theorem registryInv_empty_slot_count (h : NEO6M_Handle_t) (hinv : RegistryInv h) (i : Nat)
    (hi : i < EXPECTED_MESSAGES_BUFF_SIZE)
    (hnone : (h.expectedMessages.getD i emptyMessage).callback = none) :
    h.expectedMessagesCount + 1 ≤ 12 := by
  obtain ⟨hlen, hslots, hcnt⟩ := hinv
  have hil : i < h.expectedMessages.length := by omega
  have hslot : isExpected h.expectedMessages[i] = false := by
    have hmem := hslots _ (List.getElem_mem hil)
    rw [getD_eq_getElem _ _ hil] at hnone
    rcases hmem with he | ⟨k', hk', he⟩
    · rw [he]; rfl
    · rw [he] at hnone
      exact absurd hnone (catalog_callback_ne_none k' hk')
  have hcp := List.countP_set isExpected h.expectedMessages i (NMEA_STANDART_MESSAGGES .GLL) hil
  rw [hslot, isExpected_catalog .GLL (by decide)] at hcp
  simp only [Bool.false_eq_true, if_false, if_true, Nat.sub_zero] at hcp
  have hle := countP_le_length_slots (h.expectedMessages.set i (NMEA_STANDART_MESSAGGES .GLL))
  rw [List.length_set] at hle
  unfold EXPECTED_MESSAGES_BUFF_SIZE at hlen
  omega

/-- In reachable registries a slot holding a kind `GLL`..`VTG` makes the count positive. -/
theorem registryInv_held_count (h : NEO6M_Handle_t) (hinv : RegistryInv h) (i : Nat)
    (hi : i < EXPECTED_MESSAGES_BUFF_SIZE) (k : MessagesTypes_t) (hk : k ≠ .EMPTY)
    (htype : (h.expectedMessages.getD i emptyMessage).type = k) :
    0 < h.expectedMessagesCount ∧ h.expectedMessagesCount ≤ 12 := by
  obtain ⟨hlen, _, hcnt⟩ := hinv
  have hil : i < h.expectedMessages.length := by omega
  have hslot : isExpected h.expectedMessages[i] = true := by
    rw [getD_eq_getElem _ _ hil] at htype
    simp [isExpected, htype, hk]
  have hpos : 0 < h.expectedMessages.countP isExpected :=
    List.countP_pos_iff.mpr ⟨_, List.getElem_mem hil, hslot⟩
  have hle := countP_le_length_slots h.expectedMessages
  unfold EXPECTED_MESSAGES_BUFF_SIZE at hlen
  omega

/-- Reachable handles are receiving exactly while something is enabled. -/
theorem reachable_status (h : NEO6M_Handle_t) (hr : Reachable h) :
    h.receive_status = .NEO_FREE ↔ h.expectedMessagesCount = 0 := by
  induction hr with
  | zero => exact ⟨fun _ => rfl, fun _ => rfl⟩
  | add h k hal hr hk ih =>
    have hinv := reachable_registryInv h hr
    rcases addLoop_cases h k hinv.1 with ⟨_, hloop⟩ | ⟨i, hi, hnone, _, hloop⟩
    · rw [add_of_loop_full h k hal hloop]
      exact ih
    · rw [add_of_loop_found h _ k hal hloop]
      have hc := registryInv_empty_slot_count h hinv i hi hnone
      have hmod : (h.expectedMessagesCount + 1) % 256 = h.expectedMessagesCount + 1 :=
        Nat.mod_eq_of_lt (by omega)
      show (if h.receive_status = ReceiveStatus_t.NEO_FREE then ReceiveStatus_t.NEO_WAITING
          else h.receive_status) = .NEO_FREE ↔ (h.expectedMessagesCount + 1) % 256 = 0
      rw [hmod]
      constructor
      · intro hs
        rcases status_cases h.receive_status with hf | hw
        · rw [if_pos hf] at hs; cases hs
        · rw [hw] at hs; simp at hs
      · intro hz; omega
  | remove h k hr hk ih =>
    have hinv := reachable_registryInv h hr
    unfold NEO6M_RemoveExpectedMessage
    rcases removeLoop_cases h k hinv.1 with ⟨_, hloop⟩ | ⟨i, hi, htype, _, hloop⟩
    · rw [hloop]
      exact ih
    · rw [hloop]
      have hc := registryInv_held_count h hinv i hi k hk htype
      show (if (h.expectedMessagesCount + 255) % 256 < 1 then ReceiveStatus_t.NEO_FREE
          else h.receive_status) = .NEO_FREE ↔ (h.expectedMessagesCount + 255) % 256 = 0
      by_cases hz : (h.expectedMessagesCount + 255) % 256 = 0
      · rw [if_pos (by omega)]
        exact ⟨fun _ => hz, fun _ => rfl⟩
      · rw [if_neg (by omega)]
        constructor
        · intro hs
          have := ih.mp hs
          omega
        · intro h0; exact absurd h0 hz

/-- C12: over every sequence of enable/disable calls with kinds `GLL`..`VTG` from a
zero-initialised handle, an add call makes a `HAL_UART_Receive_IT` call exactly when it finds
an empty slot and `expectedMessagesCount` was 0, and then makes one; a remove call turns
`receive_status` to `NEO_FREE` exactly when it brings the count to 0; no other call changes
`receive_status`. -/
theorem session_start_and_stop (h : NEO6M_Handle_t) (k : MessagesTypes_t)
    (hal : HAL_StatusTypeDef) (hr : Reachable h) (hk : k ≠ .EMPTY) :
    ((NEO6M_AddExpectedMessage h k hal).uartRequests = 1 ↔
      ((∃ s ∈ h.expectedMessages, s.callback = none) ∧ h.expectedMessagesCount = 0)) ∧
    (NEO6M_AddExpectedMessage h k hal).uartRequests ≤ 1 ∧
    ((NEO6M_AddExpectedMessage h k hal).handle.receive_status ≠ h.receive_status ↔
      ((∃ s ∈ h.expectedMessages, s.callback = none) ∧ h.expectedMessagesCount = 0)) ∧
    (((NEO6M_RemoveExpectedMessage h k).1.receive_status = .NEO_FREE ∧
        h.receive_status ≠ .NEO_FREE) ↔
      ((NEO6M_RemoveExpectedMessage h k).1.expectedMessagesCount = 0 ∧
        h.expectedMessagesCount ≠ 0)) ∧
    ((NEO6M_RemoveExpectedMessage h k).1.receive_status ≠ h.receive_status ↔
      ((NEO6M_RemoveExpectedMessage h k).1.expectedMessagesCount = 0 ∧
        h.expectedMessagesCount ≠ 0)) := by
  have hinv := reachable_registryInv h hr
  have hst := reachable_status h hr
  have hadd : ((NEO6M_AddExpectedMessage h k hal).uartRequests = 1 ↔
      ((∃ s ∈ h.expectedMessages, s.callback = none) ∧ h.expectedMessagesCount = 0)) ∧
      (NEO6M_AddExpectedMessage h k hal).uartRequests ≤ 1 ∧
      ((NEO6M_AddExpectedMessage h k hal).handle.receive_status ≠ h.receive_status ↔
        ((∃ s ∈ h.expectedMessages, s.callback = none) ∧ h.expectedMessagesCount = 0)) := by
    rcases addLoop_cases h k hinv.1 with ⟨hfull, hloop⟩ | ⟨i, hi, hnone, _, hloop⟩
    · rw [add_of_loop_full h k hal hloop]
      have hno : ¬ ∃ s ∈ h.expectedMessages, s.callback = none :=
        fun ⟨s, hs, hc⟩ => hfull s hs hc
      refine ⟨⟨fun h1 => by simp at h1, fun h1 => absurd h1.1 hno⟩, by simp,
        ⟨fun h1 => absurd rfl h1, fun h1 => absurd h1.1 hno⟩⟩
    · rw [add_of_loop_found h _ k hal hloop]
      have hil : i < h.expectedMessages.length := by rw [hinv.1]; exact hi
      have hex : ∃ s ∈ h.expectedMessages, s.callback = none :=
        ⟨h.expectedMessages[i], List.getElem_mem hil, by
          rw [getD_eq_getElem _ _ hil] at hnone; exact hnone⟩
      by_cases hf : h.receive_status = .NEO_FREE
      · have hz := hst.mp hf
        refine ⟨⟨fun _ => ⟨hex, hz⟩, fun _ => by simp [hf]⟩, by simp [hf],
          ⟨fun _ => ⟨hex, hz⟩, fun _ => by simp [hf]⟩⟩
      · have hz : h.expectedMessagesCount ≠ 0 := fun h0 => hf (hst.mpr h0)
        refine ⟨⟨fun h1 => by simp [hf] at h1, fun h1 => absurd h1.2 hz⟩, by simp [hf],
          ⟨fun h1 => by simp [hf] at h1, fun h1 => absurd h1.2 hz⟩⟩
  have hrem : (((NEO6M_RemoveExpectedMessage h k).1.receive_status = .NEO_FREE ∧
        h.receive_status ≠ .NEO_FREE) ↔
      ((NEO6M_RemoveExpectedMessage h k).1.expectedMessagesCount = 0 ∧
        h.expectedMessagesCount ≠ 0)) ∧
      ((NEO6M_RemoveExpectedMessage h k).1.receive_status ≠ h.receive_status ↔
        ((NEO6M_RemoveExpectedMessage h k).1.expectedMessagesCount = 0 ∧
          h.expectedMessagesCount ≠ 0)) := by
    have hst' := reachable_status _ (Reachable.remove h k hr hk)
    have hiff : (h.receive_status ≠ .NEO_FREE) ↔ h.expectedMessagesCount ≠ 0 :=
      not_congr hst
    constructor
    · rw [hst', hiff]
    · constructor
      · intro hne
        rcases status_cases (NEO6M_RemoveExpectedMessage h k).1.receive_status with hf | hw
        · refine ⟨hst'.mp hf, hiff.mp ?_⟩
          intro hc; exact hne (by rw [hf, hc])
        · exfalso
          rcases status_cases h.receive_status with hf2 | hw2
          · -- a handle that is not receiving has nothing enabled: remove fails
            have hz := hst.mp hf2
            unfold NEO6M_RemoveExpectedMessage at hw hne
            rcases removeLoop_cases h k hinv.1 with ⟨_, hloop⟩ | ⟨i, hi, htype, _, hloop⟩
            · rw [hloop] at hne; exact hne rfl
            · have := (registryInv_held_count h hinv i hi k hk htype).1
              omega
          · exact hne (by rw [hw, hw2])
      · rintro ⟨h0, hn0⟩ hc
        have hf := hst'.mpr h0
        rw [hc] at hf
        exact hn0 (hst.mp hf)
  exact ⟨hadd.1, hadd.2.1, hadd.2.2, hrem.1, hrem.2⟩

theorem session_start_and_stop_witness :
    Reachable gllHandle ∧ MessagesTypes_t.GGA ≠ .EMPTY ∧
    (((NEO6M_AddExpectedMessage gllHandle .GGA .HAL_OK).uartRequests = 1 ↔
      ((∃ s ∈ gllHandle.expectedMessages, s.callback = none) ∧
        gllHandle.expectedMessagesCount = 0)) ∧
    (NEO6M_AddExpectedMessage gllHandle .GGA .HAL_OK).uartRequests ≤ 1 ∧
    ((NEO6M_AddExpectedMessage gllHandle .GGA .HAL_OK).handle.receive_status ≠
        gllHandle.receive_status ↔
      ((∃ s ∈ gllHandle.expectedMessages, s.callback = none) ∧
        gllHandle.expectedMessagesCount = 0)) ∧
    (((NEO6M_RemoveExpectedMessage gllHandle .GGA).1.receive_status = .NEO_FREE ∧
        gllHandle.receive_status ≠ .NEO_FREE) ↔
      ((NEO6M_RemoveExpectedMessage gllHandle .GGA).1.expectedMessagesCount = 0 ∧
        gllHandle.expectedMessagesCount ≠ 0)) ∧
    ((NEO6M_RemoveExpectedMessage gllHandle .GGA).1.receive_status ≠ gllHandle.receive_status ↔
      ((NEO6M_RemoveExpectedMessage gllHandle .GGA).1.expectedMessagesCount = 0 ∧
        gllHandle.expectedMessagesCount ≠ 0))) :=
  ⟨Reachable.add zeroHandle .GLL .HAL_OK Reachable.zero (by decide), by decide,
    session_start_and_stop gllHandle .GGA .HAL_OK
      (Reachable.add zeroHandle .GLL .HAL_OK Reachable.zero (by decide)) (by decide)⟩

/-- C14 (amended): with `receive_status = NEO_FREE`, an empty slot and a failing
`HAL_UART_Receive_IT` (any value other than `HAL_OK`), `NEO6M_AddExpectedMessage` returns 1
although the first empty slot now holds the kind's descriptor; the one request was made and
`receive_status` is `NEO_WAITING`; the 8-bit `expectedMessagesCount` has become
`(count + 1) mod 256`, which is an increment by exactly 1 when the count is below 255. -/
theorem add_reports_source_start_failure (handle : NEO6M_Handle_t) (k : MessagesTypes_t)
    (hal : HAL_StatusTypeDef) (hwf : handle.WF)
    (hfree : handle.receive_status = .NEO_FREE)
    (hempty : ∃ s ∈ handle.expectedMessages, s.callback = none)
    (hfail : hal ≠ .HAL_OK) :
    (NEO6M_AddExpectedMessage handle k hal).ret = 1 ∧
    (NEO6M_AddExpectedMessage handle k hal).uartRequests = 1 ∧
    (NEO6M_AddExpectedMessage handle k hal).handle.receive_status = .NEO_WAITING ∧
    (NEO6M_AddExpectedMessage handle k hal).handle.expectedMessagesCount =
      (handle.expectedMessagesCount + 1) % 256 ∧
    (handle.expectedMessagesCount < 255 →
      (NEO6M_AddExpectedMessage handle k hal).handle.expectedMessagesCount =
        handle.expectedMessagesCount + 1) ∧
    ∃ i, i < EXPECTED_MESSAGES_BUFF_SIZE ∧
      (handle.expectedMessages.getD i emptyMessage).callback = none ∧
      (∀ j, j < i → (handle.expectedMessages.getD j emptyMessage).callback ≠ none) ∧
      (NEO6M_AddExpectedMessage handle k hal).handle.expectedMessages =
        handle.expectedMessages.set i (NMEA_STANDART_MESSAGGES k) ∧
      (NEO6M_AddExpectedMessage handle k hal).handle.expectedMessages.getD i emptyMessage =
        NMEA_STANDART_MESSAGGES k := by
  rcases addLoop_cases handle k hwf.1 with ⟨hfull, _⟩ | ⟨i, hi, hnone, hmin, hloop⟩
  · obtain ⟨s, hs, hc⟩ := hempty
    exact absurd hc (hfull s hs)
  · rw [add_of_loop_found handle _ k hal hloop]
    have hil : i < handle.expectedMessages.length := by rw [hwf.1]; exact hi
    refine ⟨by simp [hfree, hfail], by simp [hfree], by simp [hfree], rfl,
      fun hc => Nat.mod_eq_of_lt (by omega), i, hi, hnone, hmin, rfl, ?_⟩
    simp [List.getD_eq_getElem?_getD, List.getElem?_set, hil]

theorem add_reports_source_start_failure_witness :
    zeroHandle.WF ∧ zeroHandle.receive_status = .NEO_FREE ∧
    (∃ s ∈ zeroHandle.expectedMessages, s.callback = none) ∧
    HAL_StatusTypeDef.HAL_BUSY ≠ .HAL_OK ∧
    ((NEO6M_AddExpectedMessage zeroHandle .RMC .HAL_BUSY).ret = 1 ∧
    (NEO6M_AddExpectedMessage zeroHandle .RMC .HAL_BUSY).uartRequests = 1 ∧
    (NEO6M_AddExpectedMessage zeroHandle .RMC .HAL_BUSY).handle.receive_status = .NEO_WAITING ∧
    (NEO6M_AddExpectedMessage zeroHandle .RMC .HAL_BUSY).handle.expectedMessagesCount =
      (zeroHandle.expectedMessagesCount + 1) % 256 ∧
    (zeroHandle.expectedMessagesCount < 255 →
      (NEO6M_AddExpectedMessage zeroHandle .RMC .HAL_BUSY).handle.expectedMessagesCount =
        zeroHandle.expectedMessagesCount + 1) ∧
    ∃ i, i < EXPECTED_MESSAGES_BUFF_SIZE ∧
      (zeroHandle.expectedMessages.getD i emptyMessage).callback = none ∧
      (∀ j, j < i → (zeroHandle.expectedMessages.getD j emptyMessage).callback ≠ none) ∧
      (NEO6M_AddExpectedMessage zeroHandle .RMC .HAL_BUSY).handle.expectedMessages =
        zeroHandle.expectedMessages.set i (NMEA_STANDART_MESSAGGES .RMC) ∧
      (NEO6M_AddExpectedMessage zeroHandle .RMC .HAL_BUSY).handle.expectedMessages.getD i
          emptyMessage = NMEA_STANDART_MESSAGGES .RMC) :=
  ⟨by decide, rfl, ⟨emptyMessage, by decide, rfl⟩, by decide,
    add_reports_source_start_failure zeroHandle .RMC .HAL_BUSY (by decide) rfl
      ⟨emptyMessage, by decide, rfl⟩ (by decide)⟩

/-! ## Registry invariants: the sentinel kind and duplicates -/

/-- C13 on the code: `NEO6M_RemoveExpectedMessage(EMPTY)` on a zero-initialised handle finds
slot 0 (its type is `EMPTY`), returns 0 and wraps `expectedMessagesCount` from 0 to 255 while
no slot is non-empty; `NEO6M_AddExpectedMessage(EMPTY)` makes the count 1 with no non-empty
slot; and after enabling GLL and GGA, removing `EMPTY` returns 0 and leaves the count at 1
with two non-empty slots, after which a GGA line is no longer dispatched. -/
theorem empty_kind_breaks_count :
    NEO6M_RemoveExpectedMessage zeroHandle .EMPTY =
      ({ zeroHandle with expectedMessagesCount := 255 }, 0) ∧
    (NEO6M_RemoveExpectedMessage zeroHandle .EMPTY).1.expectedMessages.countP isExpected = 0 ∧
    (NEO6M_AddExpectedMessage zeroHandle .EMPTY .HAL_OK).handle.expectedMessagesCount = 1 ∧
    (NEO6M_AddExpectedMessage zeroHandle .EMPTY .HAL_OK).handle.expectedMessages.countP
      isExpected = 0 ∧
    (NEO6M_RemoveExpectedMessage gllGgaHandle .EMPTY).2 = 0 ∧
    (NEO6M_RemoveExpectedMessage gllGgaHandle .EMPTY).1.expectedMessagesCount = 1 ∧
    (NEO6M_RemoveExpectedMessage gllGgaHandle .EMPTY).1.expectedMessages.countP isExpected = 2 ∧
    handlerCalls (pendingLine gllGgaHandle ggaSentence) = [(.gga_handle, 1)] ∧
    handlerCalls (pendingLine (NEO6M_RemoveExpectedMessage gllGgaHandle .EMPTY).1 ggaSentence)
      = [] := by
  decide

theorem reachableDistinct_reachable (h : NEO6M_Handle_t) (hr : ReachableDistinct h) :
    Reachable h := by
  induction hr with
  | zero => exact Reachable.zero
  | add h k hal _ hk _ ih => exact Reachable.add h k hal ih hk
  | remove h k _ hk ih => exact Reachable.remove h k ih hk

/-- C16 (as stated) fails: enabling GLL twice from a zero-initialised handle is a reachable
state in which slots 0 and 1 both hold GLL. -/
theorem duplicate_kind_counterexample :
    Reachable gllTwiceHandle ∧
    gllTwiceHandle.expectedMessages.countP (holdsKind .GLL) = 2 ∧
    (gllTwiceHandle.expectedMessages.getD 0 emptyMessage).type = .GLL ∧
    (gllTwiceHandle.expectedMessages.getD 1 emptyMessage).type = .GLL :=
  ⟨Reachable.add gllHandle .GLL .HAL_OK
      (Reachable.add zeroHandle .GLL .HAL_OK Reachable.zero (by decide)) (by decide),
    by decide, by decide, by decide⟩

/-- C16 (amended): in every state reachable from a zero-initialised handle by enable/disable
calls with kinds `GLL`..`VTG` in which no add call is made for a kind that a slot already
holds, each kind occupies at most one slot of `expectedMessages`. -/
theorem kind_occupies_at_most_one_slot (h : NEO6M_Handle_t) (k : MessagesTypes_t)
    (hr : ReachableDistinct h) (hk : k ≠ .EMPTY) :
    h.expectedMessages.countP (holdsKind k) ≤ 1 := by
  induction hr with
  | zero =>
    have : zeroHandle.expectedMessages.countP (holdsKind k) = 0 := by
      rw [List.countP_eq_zero]
      intro s hs
      rw [List.eq_of_mem_replicate hs]
      simp [holdsKind, emptyMessage, Ne.symm hk]
    omega
  | add h k' hal hr' hk' hnot ih =>
    have hinv := reachable_registryInv h (reachableDistinct_reachable h hr')
    rcases addLoop_cases h k' hinv.1 with ⟨_, hloop⟩ | ⟨i, hi, hnone, _, hloop⟩
    · rw [add_of_loop_full h k' hal hloop]
      exact ih
    · rw [add_of_loop_found h _ k' hal hloop]
      have hil : i < h.expectedMessages.length := by rw [hinv.1]; exact hi
      have hslot : holdsKind k h.expectedMessages[i] = false := by
        have hmem := hinv.2.1 _ (List.getElem_mem hil)
        rw [getD_eq_getElem _ _ hil] at hnone
        rcases hmem with he | ⟨k2, hk2, he⟩
        · rw [he]; simp [holdsKind, emptyMessage, Ne.symm hk]
        · rw [he] at hnone
          exact absurd hnone (catalog_callback_ne_none k2 hk2)
      have hcp := List.countP_set (holdsKind k) h.expectedMessages i
        (NMEA_STANDART_MESSAGGES k') hil
      rw [hslot] at hcp
      simp only [Bool.false_eq_true, if_false, Nat.sub_zero] at hcp
      show (h.expectedMessages.set i (NMEA_STANDART_MESSAGGES k')).countP (holdsKind k) ≤ 1
      rw [hcp]
      by_cases hkk : k' = k
      · subst hkk
        have hz : h.expectedMessages.countP (holdsKind k') = 0 := by
          rw [List.countP_eq_zero]
          intro s hs
          simp [holdsKind, hnot s hs]
        rw [hz]
        split <;> omega
      · have : holdsKind k (NMEA_STANDART_MESSAGGES k') = false := by
          simp [holdsKind, catalog_type, hkk]
        rw [this]
        simpa using ih
  | remove h k' hr' hk' ih =>
    have hinv := reachable_registryInv h (reachableDistinct_reachable h hr')
    unfold NEO6M_RemoveExpectedMessage
    rcases removeLoop_cases h k' hinv.1 with ⟨_, hloop⟩ | ⟨i, hi, _, _, hloop⟩
    · rw [hloop]
      exact ih
    · rw [hloop]
      have hil : i < h.expectedMessages.length := by rw [hinv.1]; exact hi
      have hcp := List.countP_set (holdsKind k) h.expectedMessages i emptyMessage hil
      have hem : holdsKind k emptyMessage = false := by
        simp [holdsKind, emptyMessage, Ne.symm hk]
      rw [hem] at hcp
      simp only [Bool.false_eq_true, if_false, Nat.add_zero] at hcp
      show (h.expectedMessages.set i emptyMessage).countP (holdsKind k) ≤ 1
      rw [hcp]
      omega

theorem kind_occupies_at_most_one_slot_witness :
    ReachableDistinct gllHandle ∧ MessagesTypes_t.GLL ≠ .EMPTY ∧
    gllHandle.expectedMessages.countP (holdsKind .GLL) ≤ 1 :=
  ⟨ReachableDistinct.add zeroHandle .GLL .HAL_OK ReachableDistinct.zero (by decide) (by decide),
    by decide,
    kind_occupies_at_most_one_slot gllHandle .GLL
      (ReachableDistinct.add zeroHandle .GLL .HAL_OK ReachableDistinct.zero (by decide)
        (by decide)) (by decide)⟩

/-! ## Lines without a checksum token -/

/-- C15 on the code: with GLL enabled, the completed line `$GPGLL,4916.45,N,12311.12,W,225444,A,A`
(no `'*'`) is dispatched to `gll_handle`; the seven tags are parsed, then
`strchr(package, '*')` returns `NULL`, which `nmea_parser` advances and reads: the call has
no defined result (it does not complete with the line discarded and the buffer reset). -/
theorem line_without_star_is_undefined :
    '*' ∉ gllNoStar ∧
    handlerCalls (pendingLine gllHandle gllNoStar) = [(.gll_handle, 0)] ∧
    (nmea_tags refLibC (gllNoStar ++ ['\n']) "dcdc3cc".toList).isSome = true ∧
    strchr (gllNoStar ++ ['\n']) '*' = none ∧
    nmeaParser refLibC (gllNoStar ++ ['\n']) "dcdc3cc".toList = none ∧
    NEO6M_MessageHandler refLibC (pendingLine gllHandle gllNoStar) gsvInit = none := by
  decide

/-! ## The early stop of the dispatch loop -/

theorem isExpected_of_empty (s : NMEA_StandardMessage_t) (h : s.type = .EMPTY) :
    isExpected s = false := by
  simp [isExpected, h]

theorem isExpected_of_not_empty (s : NMEA_StandardMessage_t) (h : s.type ≠ .EMPTY) :
    isExpected s = true := by
  simp [isExpected, h]

theorem countP_take_succ_getD (slots : List NMEA_StandardMessage_t) (i : Nat) :
    (slots.take (i + 1)).countP isExpected =
      (slots.take i).countP isExpected +
        (if isExpected (slots.getD i emptyMessage) then 1 else 0) := by
  by_cases hi : i < slots.length
  · rw [countP_take_succ slots i hi, getD_eq_getElem slots i hi]
  · have h1 : slots.take (i + 1) = slots := List.take_of_length_le (by omega)
    have h2 : slots.take i = slots := List.take_of_length_le (by omega)
    have h3 : slots.getD i emptyMessage = emptyMessage := by
      simp [List.getD_eq_getElem?_getD, List.getElem?_eq_none (by omega : slots.length ≤ i)]
    rw [h1, h2, h3]
    rfl

/-- Once the slots before `i` account for every non-empty slot, the slots from `i` on are
empty. -/
theorem slots_empty_from (slots : List NMEA_StandardMessage_t) (i : Nat)
    (h : slots.countP isExpected ≤ (slots.take i).countP isExpected) :
    ∀ j, i ≤ j → (slots.getD j emptyMessage).type = .EMPTY := by
  intro j hj
  by_contra hne
  have hexp : isExpected (slots.getD j emptyMessage) = true :=
    isExpected_of_not_empty _ hne
  have h1 := countP_take_succ_getD slots j
  rw [hexp] at h1
  simp only [if_true] at h1
  have h2 := countP_take_mono slots i j hj
  have h3 := countP_take_le slots (j + 1)
  omega

theorem scanAllLoop_empty (h : NEO6M_Handle_t) :
    ∀ n i, (∀ j, i ≤ j → (h.expectedMessages.getD j emptyMessage).type = .EMPTY) →
      scanAllLoop h n i = [] := by
  intro n
  induction n with
  | zero => intro i _; rfl
  | succ n ih =>
    intro i hall
    rw [scanAllLoop]
    simp only [hall i (le_refl i), ne_eq, not_true_eq_false, if_false]
    exact ih (i + 1) (fun j hj => hall j (by omega))

/-- With `expectedMessagesCount` equal to the number of non-empty slots, the dispatch loop
and the full scan make the same handler calls from every index on. -/
theorem dispatchLoop_eq_scanAllLoop (h : NEO6M_Handle_t)
    (hcnt : h.expectedMessagesCount = h.expectedMessages.countP isExpected) :
    ∀ n i, dispatchLoop h n i ((h.expectedMessages.take i).countP isExpected) =
      scanAllLoop h n i := by
  intro n
  induction n with
  | zero => intro i; rfl
  | succ n ih =>
    intro i
    have hsucc := countP_take_succ_getD h.expectedMessages i
    rw [dispatchLoop, scanAllLoop]
    by_cases he : (h.expectedMessages.getD i emptyMessage).type = .EMPTY
    · have hie : isExpected (h.expectedMessages.getD i emptyMessage) = false :=
        isExpected_of_empty _ he
      rw [hie] at hsucc
      simp only [Bool.false_eq_true, if_false, Nat.add_zero] at hsucc
      simp only [he, ne_eq, not_true_eq_false, if_false]
      by_cases hc : (h.expectedMessages.take i).countP isExpected ≥ h.expectedMessagesCount
      · rw [if_pos hc]
        symm
        apply scanAllLoop_empty
        intro j hj
        exact slots_empty_from h.expectedMessages i (by omega) j (by omega)
      · rw [if_neg hc, ← hsucc]
        exact ih (i + 1)
    · have hie : isExpected (h.expectedMessages.getD i emptyMessage) = true :=
        isExpected_of_not_empty _ he
      rw [hie] at hsucc
      simp only [if_true] at hsucc
      cases hm : strncmp_eq0 h.rxBuff (h.expectedMessages.getD i emptyMessage).formatter 6
      · simp only [he, ne_eq, not_false_eq_true, if_true, Bool.false_eq_true, if_false]
        by_cases hc :
            (h.expectedMessages.take i).countP isExpected + 1 ≥ h.expectedMessagesCount
        · rw [if_pos hc]
          symm
          apply scanAllLoop_empty
          intro j hj
          exact slots_empty_from h.expectedMessages (i + 1) (by omega) j hj
        · rw [if_neg hc, ← hsucc]
          exact ih (i + 1)
      · simp only [he, ne_eq, not_false_eq_true, if_true]

/-- C19: when `expectedMessagesCount` equals the number of non-empty slots, the dispatch loop
of `NEO6M_MessageHandler` with its early stop makes the same handler call with the same slot
index (or none) as a loop scanning all 12 slots in index order and stopping only at the first
matching non-empty slot. -/
theorem early_stop_is_pure_optimisation (handler : NEO6M_Handle_t)
    (hcnt : handler.expectedMessagesCount = handler.expectedMessages.countP isExpected) :
    dispatchLoop handler EXPECTED_MESSAGES_BUFF_SIZE 0 0 =
      scanAllLoop handler EXPECTED_MESSAGES_BUFF_SIZE 0 ∧
    handlerCalls handler = handlerCallsScanAll handler := by
  constructor
  · exact dispatchLoop_eq_scanAllLoop handler hcnt EXPECTED_MESSAGES_BUFF_SIZE 0
  · unfold handlerCalls handlerCallsScanAll storeByte
    by_cases hc : handler.rxCounter < RX_BUFFER_SIZE
    · rw [if_pos hc]
      simp only
      by_cases hb : handler.rcvdByte = '\n'
      · rw [if_pos hb, if_pos hb]
        exact dispatchLoop_eq_scanAllLoop
          { handler with
            rxBuff := handler.rxBuff.set handler.rxCounter handler.rcvdByte
            rxCounter := (handler.rxCounter + 1) % 4294967296 } hcnt
          EXPECTED_MESSAGES_BUFF_SIZE 0
      · rw [if_neg hb, if_neg hb]
    · rw [if_neg hc]

theorem early_stop_is_pure_optimisation_witness :
    (pendingLine gllGgaHandle ggaSentence).expectedMessagesCount =
      (pendingLine gllGgaHandle ggaSentence).expectedMessages.countP isExpected ∧
    (dispatchLoop (pendingLine gllGgaHandle ggaSentence) EXPECTED_MESSAGES_BUFF_SIZE 0 0 =
      scanAllLoop (pendingLine gllGgaHandle ggaSentence) EXPECTED_MESSAGES_BUFF_SIZE 0 ∧
    handlerCalls (pendingLine gllGgaHandle ggaSentence) =
      handlerCallsScanAll (pendingLine gllGgaHandle ggaSentence)) :=
  ⟨by decide, early_stop_is_pure_optimisation (pendingLine gllGgaHandle ggaSentence) (by decide)⟩

/-! ## Tags and declared field types -/

theorem convTag_ctype (L : LibC) (t : Char) (text : List Char) :
    (convTag L t text).ctype = tagCType t := by
  unfold convTag tagCType
  split
  · rfl
  · split
    · rfl
    · split
      · rfl
      · split
        · rfl
        · split
          · rfl
          · split <;> rfl

theorem tagCType_other (t : Char) (ht : isCommaTag t = false) : tagCType t = .uint8_t := by
  have ht' : ¬ (t = 'f' ∨ t = 'c' ∨ t = '8' ∨ t = 'd' ∨ t = '1' ∨ t = '3') := by
    simpa [isCommaTag, commaTags] using ht
  simp only [not_or] at ht'
  obtain ⟨h1, h2, h3, h4, h5, h6⟩ := ht'
  simp [tagCType, h1, h2, h3, h4, h5, h6]

/-- The values the tag loop stores have, in order, the pointer types of the tags. -/
theorem nmea_tags_ctypes (L : LibC) : ∀ (fmt ptr : List Char) (outs : List Value),
    nmea_tags L ptr fmt = some outs → outs.map Value.ctype = fmt.map tagCType := by
  intro fmt
  induction fmt with
  | nil =>
    intro ptr outs h
    rw [nmea_tags] at h
    cases h
    rfl
  | cons t ts ih =>
    intro ptr outs h
    by_cases ht : isCommaTag t = true
    · rw [nmea_tags_cons_comma L ptr t ts ht] at h
      cases hs : strchr ptr ',' with
      | none => rw [hs] at h; cases h
      | some p =>
        rw [hs] at h
        simp only at h
        cases hr : nmea_tags L p.tail ts with
        | none => rw [hr] at h; cases h
        | some outs' =>
          rw [hr] at h
          simp only [Option.map_some', Option.some.injEq] at h
          rw [← h]
          simp only [List.map_cons, convTag_ctype, ih p.tail outs' hr]
    · have htf : isCommaTag t = false := by simpa using ht
      rw [nmea_tags_cons_other L ptr t ts htf] at h
      cases hr : nmea_tags L ptr ts with
      | none => rw [hr] at h; cases h
      | some outs' =>
        rw [hr] at h
        simp only [Option.map_some', Option.some.injEq] at h
        rw [← h]
        simp only [List.map_cons, ih ptr outs' hr, tagCType_other t htf]
        rfl

theorem nmeaParser_ctypes (L : LibC) (package fmt : List Char) (outs : List Value) (cs : Nat)
    (h : nmeaParser L package fmt = some (outs, cs)) :
    outs.map Value.ctype = fmt.map tagCType := by
  unfold nmeaParser at h
  cases ht : nmea_tags L package fmt with
  | none => rw [ht] at h; cases h
  | some outs' =>
    rw [ht] at h
    simp only at h
    cases hs : strchr package '*' with
    | none => rw [hs] at h; cases h
    | some p =>
      rw [hs] at h
      simp only [Option.some.injEq, Prod.mk.injEq] at h
      rw [← h.1]
      exact nmea_tags_ctypes L fmt package outs' ht

/-! ## GSV reassembly: the flush branch -/

theorem takeWhile_ne_append (c : Char) : ∀ (l rest : List Char), c ∉ l →
    (l ++ c :: rest).takeWhile (· ≠ c) = l := by
  intro l
  induction l with
  | nil => intro rest _; simp
  | cons x xs ih =>
    intro rest hx
    have hxc : x ≠ c := fun h => hx (by rw [h]; exact List.mem_cons_self _ _)
    have hxs : c ∉ xs := fun h => hx (List.mem_cons_of_mem _ h)
    simp only [List.cons_append]
    rw [List.takeWhile_cons_of_pos (by simpa using hxc), ih rest hxs]

theorem dropWhile_ne_append (c : Char) : ∀ (l rest : List Char), c ∉ l →
    (l ++ c :: rest).dropWhile (· ≠ c) = c :: rest := by
  intro l
  induction l with
  | nil => intro rest _; simp
  | cons x xs ih =>
    intro rest hx
    have hxc : x ≠ c := fun h => hx (by rw [h]; exact List.mem_cons_self _ _)
    have hxs : c ∉ xs := fun h => hx (List.mem_cons_of_mem _ h)
    simp only [List.cons_append]
    rw [List.dropWhile_cons_of_pos (by simpa using hxc), ih rest hxs]

/-- The string of an array that holds a NUL-free text followed by a NUL. -/
theorem cstr_of_terminated (s tail : List Char) (hs : '\x00' ∉ s) :
    cstr? (s ++ '\x00' :: tail) = some s := by
  unfold cstr?
  rw [if_pos (by simp), takeWhile_ne_append '\x00' s tail hs]

/-- The first token of a text that starts with a non-empty line and its line feed. -/
theorem strtok_r_line (l rest : List Char) (hne : l ≠ []) (hnl : '\n' ∉ l) :
    strtok_r (l ++ '\n' :: rest) = (some l, rest) := by
  cases l with
  | nil => exact absurd rfl hne
  | cons x xs =>
    have hxc : x ≠ '\n' := fun h => hnl (by rw [h]; exact List.mem_cons_self _ _)
    have hdrop : List.dropWhile (fun c => decide (c = '\n')) (x :: xs ++ '\n' :: rest) =
        x :: xs ++ '\n' :: rest := by
      simp only [List.cons_append]
      rw [List.dropWhile_cons_of_neg (by simpa using hxc)]
    unfold strtok_r
    simp only [hdrop]
    rw [if_neg (by simp)]
    rw [takeWhile_ne_append '\n' (x :: xs) rest hnl, dropWhile_ne_append '\n' (x :: xs) rest hnl]
    rfl

theorem bufferOf_no_nul : ∀ lines : List (List Char), (∀ l ∈ lines, '\x00' ∉ l) →
    '\x00' ∉ bufferOf lines := by
  intro lines
  induction lines with
  | nil => intro _; simp [bufferOf]
  | cons l ls ih =>
    intro h
    rw [bufferOf]
    simp only [List.mem_append, List.mem_cons, not_or]
    exact ⟨h l (List.mem_cons_self _ _), by decide,
      ih (fun l' hl' => h l' (List.mem_cons_of_mem _ hl'))⟩

theorem ctype_uint8 (o : Option Value) (h : o.map Value.ctype = some .uint8_t) :
    ∃ n, o.bind Value.u8? = some n := by
  cases o with
  | none => cases h
  | some v => cases v <;> first | exact ⟨_, rfl⟩ | (simp [Value.ctype] at h)

theorem ctype_uint16 (o : Option Value) (h : o.map Value.ctype = some .uint16_t) :
    ∃ n, o.bind Value.u16? = some n := by
  cases o with
  | none => cases h
  | some v => cases v <;> first | exact ⟨_, rfl⟩ | (simp [Value.ctype] at h)

theorem get?_map_ctype (outs : List Value) (tys : List CType)
    (h : outs.map Value.ctype = tys) (i : Nat) :
    (outs.get? i).map Value.ctype = tys.get? i := by
  rw [← h]
  simp [List.get?_eq_getElem?]

/-- Values stored for the GSV format always fit the fields of `GSV_Package_t`. -/
theorem gsvPackage_of_ctypes (outs : List Value) (cs : Nat)
    (h : outs.map Value.ctype = "8888818881888188818".toList.map tagCType) :
    ∃ p, gsvPackage outs cs = some p := by
  have g := get?_map_ctype outs _ h
  obtain ⟨n0, h0⟩ := ctype_uint8 _ (by rw [g 0]; decide)
  obtain ⟨n1, h1⟩ := ctype_uint8 _ (by rw [g 1]; decide)
  obtain ⟨n2, h2⟩ := ctype_uint8 _ (by rw [g 2]; decide)
  obtain ⟨n3, h3⟩ := ctype_uint8 _ (by rw [g 3]; decide)
  obtain ⟨n4, h4⟩ := ctype_uint8 _ (by rw [g 4]; decide)
  obtain ⟨n5, h5⟩ := ctype_uint16 _ (by rw [g 5]; decide)
  obtain ⟨n6, h6⟩ := ctype_uint8 _ (by rw [g 6]; decide)
  obtain ⟨n7, h7⟩ := ctype_uint8 _ (by rw [g 7]; decide)
  obtain ⟨n8, h8⟩ := ctype_uint8 _ (by rw [g 8]; decide)
  obtain ⟨n9, h9⟩ := ctype_uint16 _ (by rw [g 9]; decide)
  obtain ⟨n10, h10⟩ := ctype_uint8 _ (by rw [g 10]; decide)
  obtain ⟨n11, h11⟩ := ctype_uint8 _ (by rw [g 11]; decide)
  obtain ⟨n12, h12⟩ := ctype_uint8 _ (by rw [g 12]; decide)
  obtain ⟨n13, h13⟩ := ctype_uint16 _ (by rw [g 13]; decide)
  obtain ⟨n14, h14⟩ := ctype_uint8 _ (by rw [g 14]; decide)
  obtain ⟨n15, h15⟩ := ctype_uint8 _ (by rw [g 15]; decide)
  obtain ⟨n16, h16⟩ := ctype_uint8 _ (by rw [g 16]; decide)
  obtain ⟨n17, h17⟩ := ctype_uint16 _ (by rw [g 17]; decide)
  obtain ⟨n18, h18⟩ := ctype_uint8 _ (by rw [g 18]; decide)
  unfold gsvPackage
  rw [h0, h1, h2, h3, h4, h5, h6, h7, h8, h9, h10, h11, h12, h13, h14, h15, h16, h17, h18]
  exact ⟨_, rfl⟩

/-- A line with 19 commas and a `'*'` yields a GSV record. -/
theorem gsvRecord_of_wellformed (L : LibC) (l : List Char)
    (hc : 19 ≤ l.count ',') (hs : '*' ∈ l) : ∃ p, gsvRecord L l = some p := by
  have hcc : "8888818881888188818".toList.countP isCommaTag ≤ l.count ',' := by
    have : "8888818881888188818".toList.countP isCommaTag = 19 := by decide
    omega
  obtain ⟨outs, htags, _, _⟩ := nmea_tags_spec L "8888818881888188818".toList [] l hcc
  obtain ⟨pre, rest, hpkg, hpre, _⟩ := strchr_split '*' l (List.count_pos_iff.mpr hs)
  have hp := nmeaParser_eq L l _ pre rest outs htags hpkg hpre
  obtain ⟨p, hpk⟩ := gsvPackage_of_ctypes outs (strtol rest 16 % 65536).toNat
    (nmea_tags_ctypes L _ l outs htags)
  refine ⟨p, ?_⟩
  unfold gsvRecord
  rw [hp]
  exact hpk

/-- One iteration of the flush loop on a token. -/
theorem gsvFlushLoop_step (L : LibC) (h : NEO6M_Handle_t) (i n : Nat) (tok saveptr : List Char)
    (p : GSV_Package_t) (cb : Callback_t) (hrec : gsvRecord L tok = some p)
    (hcb : (h.expectedMessages.getD i emptyMessage).callback = some cb) :
    gsvFlushLoop L h i (n + 1) (some tok) saveptr =
      (gsvFlushLoop L h i n (strtok_r saveptr).1 (strtok_r saveptr).2).map
        (fun rest => { callback := cb, package := Package.gsv p } :: rest) := by
  unfold gsvRecord at hrec
  rw [gsvFlushLoop]
  cases hp : nmeaParser L tok "8888818881888188818".toList with
  | none => rw [hp] at hrec; cases hrec
  | some r =>
    obtain ⟨outs, cs⟩ := r
    rw [hp] at hrec
    simp only at hrec
    simp only [hrec, callCallback, hcb]
    cases gsvFlushLoop L h i n (strtok_r saveptr).1 (strtok_r saveptr).2 <;> rfl

/-- The flush loop over a buffer of well-formed lines calls the callback once per line, in
order, with the record of that line. -/
theorem gsvFlushLoop_lines (L : LibC) (h : NEO6M_Handle_t) (i : Nat) (cb : Callback_t)
    (hcb : (h.expectedMessages.getD i emptyMessage).callback = some cb) :
    ∀ lines : List (List Char),
      (∀ l ∈ lines, '\n' ∉ l ∧ '\x00' ∉ l ∧ 19 ≤ l.count ',' ∧ '*' ∈ l) →
      ∃ recs : List GSV_Package_t, lines.map (gsvRecord L) = recs.map some ∧
        gsvFlushLoop L h i lines.length (strtok_r (bufferOf lines)).1
            (strtok_r (bufferOf lines)).2 =
          some (recs.map (fun p => { callback := cb, package := Package.gsv p })) := by
  intro lines
  induction lines with
  | nil =>
    intro _
    exact ⟨[], rfl, rfl⟩
  | cons l ls ih =>
    intro hw
    obtain ⟨hnl, _, hc, hs⟩ := hw l (List.mem_cons_self _ _)
    have hne : l ≠ [] := by
      intro he; rw [he] at hc; simp at hc
    obtain ⟨recs, hmap, hloop⟩ := ih (fun l' hl' => hw l' (List.mem_cons_of_mem _ hl'))
    obtain ⟨p, hp⟩ := gsvRecord_of_wellformed L l hc hs
    refine ⟨p :: recs, by simp [hp, hmap], ?_⟩
    rw [bufferOf, strtok_r_line l (bufferOf ls) hne hnl]
    simp only [List.length_cons]
    rw [gsvFlushLoop_step L h i ls.length l (bufferOf ls) p cb hp hcb, hloop]
    rfl

/-- In the flush branch `gsv_handle` is the flush of the statics; the line in `rxBuff` only
decides the branch. -/
theorem gsv_handle_flush (L : LibC) (h : NEO6M_Handle_t) (i : Nat) (g : GsvState) (n : Nat)
    (hn : gsv_get_noMsg h.rxBuff = some n) (hflush : n ≤ g.gsv_count) :
    gsv_handle L h i g =
      match cstr? g.gsv_buff with
      | none => none
      | some buff =>
        match gsvFlushLoop L h i g.gsv_count (strtok_r buff).1 (strtok_r buff).2 with
        | none => none
        | some evs => some (gsvInit, evs) := by
  unfold gsv_handle
  rw [hn]
  simp only
  rw [if_neg (by omega)]
  rfl

/-- Flush of lines with four satellite blocks: when `gsv_handle` is entered with
`gsv_count = m` lines buffered (each with 19 commas and a `'*'`) and `m` is at least the
total declared by the current line, it
calls the slot's callback exactly `m` times, the `j`-th call with the record parsed from the
`j`-th buffered line alone, and afterwards `gsv_count = 0`, `gsv_buff_len = 0` and `gsv_buff`
is all zero. -/
theorem gsv_flush_delivers_buffered_lines (L : LibC) (handle : NEO6M_Handle_t)
    (message_num : Nat) (g : GsvState) (lines : List (List Char)) (tail : List Char)
    (cb : Callback_t) (noMsg : Nat)
    (hbuf : g.gsv_buff = bufferOf lines ++ '\x00' :: tail)
    (hcount : g.gsv_count = lines.length)
    (hwell : ∀ l ∈ lines, '\n' ∉ l ∧ '\x00' ∉ l ∧ 19 ≤ l.count ',' ∧ '*' ∈ l)
    (hnoMsg : gsv_get_noMsg handle.rxBuff = some noMsg) (hflush : noMsg ≤ g.gsv_count)
    (hcb : (handle.expectedMessages.getD message_num emptyMessage).callback = some cb) :
    ∃ recs : List GSV_Package_t, recs.length = g.gsv_count ∧
      lines.map (gsvRecord L) = recs.map some ∧
      gsv_handle L handle message_num g =
        some ({ gsv_buff := List.replicate 300 '\x00', gsv_count := 0, gsv_buff_len := 0 },
          recs.map (fun p => { callback := cb, package := Package.gsv p })) := by
  obtain ⟨recs, hmap, hloop⟩ := gsvFlushLoop_lines L handle message_num cb hcb lines hwell
  have hlen : recs.length = lines.length := by
    have := congrArg List.length hmap
    simpa using this.symm
  refine ⟨recs, by rw [hlen, hcount], hmap, ?_⟩
  rw [gsv_handle_flush L handle message_num g noMsg hnoMsg hflush, hbuf,
    cstr_of_terminated _ tail (bufferOf_no_nul lines (fun l hl => (hwell l hl).2.1))]
  simp only [hcount, hloop]
  rfl

theorem gsv_flush_delivers_buffered_lines_witness :
    gsvTwoBuffered.gsv_buff = bufferOf [gsvLine1, gsvLine2] ++ '\x00' :: List.replicate 159 '\x00' ∧
    gsvTwoBuffered.gsv_count = [gsvLine1, gsvLine2].length ∧
    (∀ l ∈ [gsvLine1, gsvLine2], '\n' ∉ l ∧ '\x00' ∉ l ∧ 19 ≤ l.count ',' ∧ '*' ∈ l) ∧
    gsv_get_noMsg (pendingLine gsvHandle gsvLine1).rxBuff = some 2 ∧
    2 ≤ gsvTwoBuffered.gsv_count ∧
    ((pendingLine gsvHandle gsvLine1).expectedMessages.getD 0 emptyMessage).callback =
      some .NEO6M_GSVCallBack ∧
    ∃ recs : List GSV_Package_t, recs.length = gsvTwoBuffered.gsv_count ∧
      [gsvLine1, gsvLine2].map (gsvRecord refLibC) = recs.map some ∧
      gsv_handle refLibC (pendingLine gsvHandle gsvLine1) 0 gsvTwoBuffered =
        some ({ gsv_buff := List.replicate 300 '\x00', gsv_count := 0, gsv_buff_len := 0 },
          recs.map (fun p => { callback := .NEO6M_GSVCallBack, package := Package.gsv p })) :=
  ⟨by decide, by decide, by decide, by decide, by decide, by decide,
    gsv_flush_delivers_buffered_lines refLibC (pendingLine gsvHandle gsvLine1) 0 gsvTwoBuffered
      [gsvLine1, gsvLine2] (List.replicate 159 '\x00') .NEO6M_GSVCallBack 2
      (by decide) (by decide) (by decide) (by decide) (by decide) (by decide)⟩

theorem storeByte_eq (h h1 : NEO6M_Handle_t) (hs : storeByte h = some h1) :
    h.rxCounter < RX_BUFFER_SIZE ∧
    h1 = { h with
      rxBuff := h.rxBuff.set h.rxCounter h.rcvdByte
      rxCounter := (h.rxCounter + 1) % 4294967296 } := by
  unfold storeByte at hs
  by_cases hc : h.rxCounter < RX_BUFFER_SIZE
  · rw [if_pos hc] at hs
    cases hs
    exact ⟨hc, rfl⟩
  · rw [if_neg hc] at hs
    cases hs

/-- The statics `gsvTwoBuffered` are those reached by feeding the two fragments. -/
theorem gsvTwoBuffered_reached :
    (feed refLibC (gsvFragment1 ++ gsvFragment2) gsvHandle gsvInit).map (fun r => r.2.1) =
      some gsvTwoBuffered := by
  decide

/-! ## Separator lookups -/

theorem strchr_isSome_iff (c : Char) (s : List Char) : (strchr s c).isSome = true ↔ c ∈ s := by
  constructor
  · intro h
    by_contra hn
    rw [strchr_eq_none c s (List.count_eq_zero.mpr hn)] at h
    cases h
  · intro h
    obtain ⟨_, _, _, _, hstr⟩ := strchr_split c s (List.count_pos_iff.mpr h)
    rw [hstr]
    rfl

theorem nmea_tags_isSome_iff (L : LibC) (package formats : List Char) :
    (nmea_tags L package formats).isSome = true ↔
      formats.countP isCommaTag ≤ package.count ',' := by
  constructor
  · intro h
    by_contra hn
    rw [nmea_tags_fail L formats package (by omega)] at h
    cases h
  · intro h
    obtain ⟨outs, ho, _, _⟩ := nmea_tags_spec L formats [] package h
    rw [ho]
    rfl

theorem nmeaParser_isSome_iff (L : LibC) (package formats : List Char) :
    (nmeaParser L package formats).isSome = true ↔
      (formats.countP isCommaTag ≤ package.count ',' ∧ '*' ∈ package) := by
  rw [← nmea_tags_isSome_iff L package formats, ← strchr_isSome_iff '*' package]
  unfold nmeaParser
  cases nmea_tags L package formats with
  | none => simp
  | some outs =>
    cases strchr package '*' with
    | none => simp
    | some p => simp

/-- C21: for every format string and every line, every separator lookup of `nmea_parser`
finds its character (the model returns a result) exactly when the line holds at least as many
commas as the format has comma tags and at least one `'*'`; the comma lookups alone succeed
exactly when the commas suffice. In particular a GSV line with fewer than 19 commas makes a
lookup fail, as does the flush of a group whose last fragment has a single satellite block. -/
theorem lookups_succeed_iff_separators_present (L : LibC) (package formats : List Char) :
    ((nmea_tags L package formats).isSome = true ↔
      formats.countP isCommaTag ≤ package.count ',') ∧
    ((nmeaParser L package formats).isSome = true ↔
      (formats.countP isCommaTag ≤ package.count ',' ∧ '*' ∈ package)) ∧
    (package.count ',' < 19 →
      nmeaParser L package "8888818881888188818".toList = none ∧ gsvRecord L package = none) ∧
    gsvShortFragment.count ',' = 7 ∧
    (feed refLibC (gsvFragment1 ++ gsvShortFragment) gsvHandle gsvInit).isSome = true ∧
    (feed refLibC (gsvFragment1 ++ gsvShortFragment ++ gsvFragment1) gsvHandle gsvInit).isSome
      = false := by
  refine ⟨nmea_tags_isSome_iff L package formats, nmeaParser_isSome_iff L package formats, ?_,
    by decide, by decide, by decide⟩
  intro hlt
  have hnone : nmeaParser L package "8888818881888188818".toList = none := by
    cases hp : nmeaParser L package "8888818881888188818".toList with
    | none => rfl
    | some r =>
      have hs : (nmeaParser L package "8888818881888188818".toList).isSome = true := by
        rw [hp]; rfl
      have h19 := ((nmeaParser_isSome_iff L package _).mp hs).1
      have : "8888818881888188818".toList.countP isCommaTag = 19 := by decide
      omega
  refine ⟨hnone, ?_⟩
  unfold gsvRecord
  rw [hnone]
/-! ## The receive cursor -/

theorem messageHandler_cursor (L : LibC) (h : NEO6M_Handle_t) (g : GsvState)
    (r : MessageHandlerResult) (hr : NEO6M_MessageHandler L h g = some r) :
    h.rxCounter < RX_BUFFER_SIZE ∧
    r.handle.rxCounter = (if h.rcvdByte = '\n' then 0 else h.rxCounter + 1) := by
  unfold NEO6M_MessageHandler at hr
  cases hs : storeByte h with
  | none => simp [hs] at hr
  | some h1 =>
    obtain ⟨hc, h1eq⟩ := storeByte_eq h h1 hs
    have hb1 : h1.rcvdByte = h.rcvdByte := by rw [h1eq]
    have hc1 : h1.rxCounter = h.rxCounter + 1 := by
      rw [h1eq]
      unfold RX_BUFFER_SIZE at hc
      simp only
      omega
    refine ⟨hc, ?_⟩
    simp only [hs, hb1] at hr
    by_cases hb : h.rcvdByte = '\n'
    · rw [if_pos hb] at hr ⊢
      cases hrun : runCalls L h1 (dispatchLoop h1 EXPECTED_MESSAGES_BUFF_SIZE 0 0) g with
      | none => simp [hrun] at hr
      | some p =>
        simp only [hrun, Option.some.injEq] at hr
        rw [← hr]
    · rw [if_neg hb] at hr ⊢
      simp only [Option.some.injEq] at hr
      rw [← hr]
      exact hc1

theorem feed_cons_some (L : LibC) (b : Char) (bs : List Char) (h : NEO6M_Handle_t)
    (g : GsvState) (res : NEO6M_Handle_t × GsvState × List CallbackEvent)
    (hres : feed L (b :: bs) h g = some res) :
    ∃ r res2, onByteReceived L h g b = some r ∧ feed L bs r.handle r.gsv = some res2 ∧
      res.1 = res2.1 := by
  unfold feed at hres
  cases hr : onByteReceived L h g b with
  | none => simp [hr] at hres
  | some r =>
    cases hf : feed L bs r.handle r.gsv with
    | none => simp [hr, hf] at hres
    | some res2 =>
      obtain ⟨h2, g2, evs⟩ := res2
      simp only [hr, hf, Option.some.injEq] at hres
      exact ⟨r, (h2, g2, evs), rfl, hf, by rw [← hres]⟩

/-- Along a stream whose runs without an inner line feed have at most `RX_BUFFER_SIZE`
bytes, the cursor is the length of the run received so far: it stays within the capacity and
below it while a byte is still to come. -/
theorem feed_cursor_bound (L : LibC) :
    ∀ (p : List Char) (h : NEO6M_Handle_t) (g : GsvState) (run q : List Char),
      h.rxCounter = run.length → '\n' ∉ run →
      (∀ pre r post, run ++ p ++ q = pre ++ r ++ post → '\n' ∉ r.dropLast →
        r.length ≤ RX_BUFFER_SIZE) →
      ∀ res, feed L p h g = some res →
        res.1.rxCounter ≤ RX_BUFFER_SIZE ∧ (q ≠ [] → res.1.rxCounter < RX_BUFFER_SIZE) := by
  intro p
  induction p with
  | nil =>
    intro h g run q hc hrun H res hres
    simp [feed] at hres
    subst hres
    constructor
    · rw [hc]
      apply H [] run q (by simp)
      intro hmem
      exact hrun (List.dropLast_subset run hmem)
    · intro hq
      cases q with
      | nil => exact absurd rfl hq
      | cons b q2 =>
        have := H [] (run ++ [b]) q2 (by simp) (by simpa using hrun)
        simp at this
        rw [hc]
        omega
  | cons b p2 ih =>
    intro h g run q hc hrun H res hres
    obtain ⟨r, res2, hr, hf, heq⟩ := feed_cons_some L b p2 h g res hres
    rw [heq]
    unfold onByteReceived at hr
    obtain ⟨_, hcur⟩ := messageHandler_cursor L _ g r hr
    simp only at hcur
    by_cases hb : b = '\n'
    · rw [if_pos hb] at hcur
      apply ih r.handle r.gsv [] q (by simpa using hcur) (by simp) ?_ res2 hf
      intro pre r2 post hdec hno
      apply H (run ++ [b] ++ pre) r2 post ?_ hno
      simp at hdec
      simp [hdec]
    · rw [if_neg hb] at hcur
      apply ih r.handle r.gsv (run ++ [b]) q (by simp [hcur, hc]) ?_ ?_ res2 hf
      · simp only [List.mem_append, List.mem_singleton, not_or]
        exact ⟨hrun, fun hh => hb hh.symm⟩
      · intro pre r2 post hdec hno
        apply H pre r2 post ?_ hno
        rw [← hdec]
        simp

/-- A registry without an enabled kind makes the dispatch loop call no handler. -/
theorem dispatchLoop_none_enabled (h : NEO6M_Handle_t)
    (hempty : ∀ s ∈ h.expectedMessages, s.type = MessagesTypes_t.EMPTY) :
    ∀ n i c, dispatchLoop h n i c = [] := by
  intro n
  induction n with
  | zero => intro i c; rfl
  | succ n ih =>
    intro i c
    have hslot : (h.expectedMessages.getD i emptyMessage).type = MessagesTypes_t.EMPTY := by
      rw [List.getD_eq_getElem?_getD]
      cases hget : h.expectedMessages[i]? with
      | none => rfl
      | some s =>
        exact hempty s (List.getElem?_mem hget)
    unfold dispatchLoop
    simp only [hslot, ne_eq, not_true_eq_false, if_false]
    split
    · rfl
    · exact ih _ _

theorem messageHandler_none_enabled (L : LibC) (h : NEO6M_Handle_t) (g : GsvState)
    (hempty : ∀ s ∈ h.expectedMessages, s.type = MessagesTypes_t.EMPTY)
    (hc : h.rxCounter < RX_BUFFER_SIZE) :
    ∃ r, NEO6M_MessageHandler L h g = some r ∧
      r.handle.expectedMessages = h.expectedMessages ∧ r.gsv = g ∧ r.callbacks = [] := by
  unfold NEO6M_MessageHandler
  cases hs : storeByte h with
  | none => simp [storeByte, hc] at hs
  | some h1 =>
    have hreg : h1.expectedMessages = h.expectedMessages := by
      rw [(storeByte_eq h h1 hs).2]
    have hd := dispatchLoop_none_enabled h1 (by rw [hreg]; exact hempty)
      EXPECTED_MESSAGES_BUFF_SIZE 0 0
    simp only [hd, runCalls]
    by_cases hb : h1.rcvdByte = '\n'
    · rw [if_pos hb]
      exact ⟨_, rfl, hreg, rfl, rfl⟩
    · rw [if_neg hb]
      exact ⟨_, rfl, hreg, rfl, rfl⟩

/-- With no kind enabled every call of the stream is defined. -/
theorem feed_total_none_enabled (L : LibC) :
    ∀ (p : List Char) (h : NEO6M_Handle_t) (g : GsvState) (run q : List Char),
      (∀ s ∈ h.expectedMessages, s.type = MessagesTypes_t.EMPTY) →
      h.rxCounter = run.length → '\n' ∉ run →
      (∀ pre r post, run ++ p ++ q = pre ++ r ++ post → '\n' ∉ r.dropLast →
        r.length ≤ RX_BUFFER_SIZE) →
      ∃ res, feed L p h g = some res ∧ res.2.1 = g ∧ res.2.2 = [] := by
  intro p
  induction p with
  | nil =>
    intro h g run q _ _ _ _
    exact ⟨(h, g, []), rfl, rfl, rfl⟩
  | cons b p2 ih =>
    intro h g run q hempty hc hrun H
    have hlt : h.rxCounter < RX_BUFFER_SIZE := by
      have := H [] (run ++ [b]) (p2 ++ q) (by simp) (by simpa using hrun)
      simp at this
      rw [hc]
      omega
    obtain ⟨r, hr, hreg, hg, hev⟩ :=
      messageHandler_none_enabled L { h with rcvdByte := b } g hempty hlt
    obtain ⟨_, hcur⟩ := messageHandler_cursor L _ g r hr
    simp only at hcur
    have hempty2 : ∀ s ∈ r.handle.expectedMessages, s.type = MessagesTypes_t.EMPTY := by
      rw [hreg]
      exact hempty
    have hnext : ∃ res, feed L p2 r.handle r.gsv = some res ∧ res.2.1 = r.gsv ∧
        res.2.2 = [] := by
      by_cases hb : b = '\n'
      · rw [if_pos hb] at hcur
        apply ih r.handle r.gsv [] q hempty2 (by simpa using hcur) (by simp)
        intro pre r2 post hdec hno
        apply H (run ++ [b] ++ pre) r2 post ?_ hno
        simp at hdec
        simp [hdec]
      · rw [if_neg hb] at hcur
        apply ih r.handle r.gsv (run ++ [b]) q hempty2 (by simp [hcur, hc])
        · simp only [List.mem_append, List.mem_singleton, not_or]
          exact ⟨hrun, fun hh => hb hh.symm⟩
        · intro pre r2 post hdec hno
          apply H pre r2 post ?_ hno
          rw [← hdec]
          simp
    obtain ⟨res, hf, hg2, hev2⟩ := hnext
    obtain ⟨h2, g2, evs⟩ := res
    refine ⟨(h2, g2, r.callbacks ++ evs), ?_, ?_, ?_⟩
    · unfold feed onByteReceived
      simp [hr, hf]
    · simp only at hg2 ⊢
      rw [hg2, hg]
    · simp only at hev2 ⊢
      rw [hev, hev2]
      rfl

theorem zeroHandle_none_enabled :
    ∀ s ∈ zeroHandle.expectedMessages, s.type = MessagesTypes_t.EMPTY := by
  intro s hs
  unfold zeroHandle at hs
  rw [List.eq_of_mem_replicate hs]
  rfl

/-! ## Lines and runs -/

theorem linesOf_cons_ne_nil (b : Char) (bs : List Char) :
    ∃ l ls, linesOf (b :: bs) = l :: ls ∧ 1 ≤ l.length := by
  unfold linesOf
  by_cases hb : b = '\n'
  · rw [if_pos hb]
    exact ⟨[b], linesOf bs, rfl, by simp⟩
  · rw [if_neg hb]
    cases linesOf bs with
    | nil => exact ⟨[b], [], rfl, by simp⟩
    | cons l ls => exact ⟨b :: l, ls, rfl, by simp⟩

/-- Bytes without a line feed put before a stream extend its first line. -/
theorem linesOf_run_append (run : List Char) (hrun : '\n' ∉ run) (l rest : List Char)
    (ll : List (List Char)) (hrest : linesOf rest = l :: ll) :
    linesOf (run ++ rest) = (run ++ l) :: ll := by
  induction run with
  | nil => simpa using hrest
  | cons b run2 ih =>
    have hb : b ≠ '\n' := fun hh => hrun (by simp [hh])
    have hrun2 : '\n' ∉ run2 := fun hh => hrun (List.mem_cons_of_mem _ hh)
    rw [List.cons_append]
    unfold linesOf
    rw [if_neg hb, ih hrun2]
    rfl

/-- Dropping the first byte of a stream makes no line longer. -/
theorem linesOf_tail_le (N : Nat) (b : Char) (s : List Char)
    (h : ∀ l ∈ linesOf (b :: s), l.length ≤ N) : ∀ l ∈ linesOf s, l.length ≤ N := by
  intro l hl
  unfold linesOf at h
  by_cases hb : b = '\n'
  · rw [if_pos hb] at h
    exact h l (List.mem_cons_of_mem _ hl)
  · rw [if_neg hb] at h
    cases hs : linesOf s with
    | nil => rw [hs] at hl; cases hl
    | cons l0 ls =>
      rw [hs] at h hl
      simp only at h
      rcases List.mem_cons.mp hl with rfl | hmem
      · have := h (b :: l) (by simp)
        simp at this
        omega
      · exact h l (List.mem_cons_of_mem _ hmem)

/-- When no line of a stream has more than `N` bytes, no run of the stream with no line feed
before its last byte has. -/
theorem run_le_of_linesOf_le (N : Nat) :
    ∀ (pre s run post : List Char), s = pre ++ run ++ post →
      (∀ l ∈ linesOf s, l.length ≤ N) → '\n' ∉ run.dropLast → run.length ≤ N := by
  intro pre
  induction pre with
  | nil =>
    intro s run post hs hle hno
    rcases List.eq_nil_or_concat run with rfl | ⟨r2, x, rfl⟩
    · simp
    · rw [List.concat_eq_append] at hs hno ⊢
      simp only [List.dropLast_concat] at hno
      obtain ⟨l, ll, hl, hlen⟩ := linesOf_cons_ne_nil x post
      have hlines : linesOf s = (r2 ++ l) :: ll := by
        rw [hs]
        simp only [List.nil_append, List.append_assoc, List.singleton_append]
        exact linesOf_run_append r2 hno l (x :: post) ll hl
      have := hle (r2 ++ l) (by rw [hlines]; simp)
      simp only [List.length_append, List.length_singleton] at this ⊢
      omega
  | cons b pre2 ih =>
    intro s run post hs hle hno
    apply ih (pre2 ++ run ++ post) run post rfl ?_ hno
    apply linesOf_tail_le N b
    rw [hs] at hle
    simpa using hle

theorem length_le_length_flatten (l : List Char) :
    ∀ ls : List (List Char), l ∈ ls → l.length ≤ ls.flatten.length := by
  intro ls
  induction ls with
  | nil => intro h; cases h
  | cons x xs ih =>
    intro h
    rw [List.flatten_cons, List.length_append]
    rcases List.mem_cons.mp h with rfl | hmem
    · omega
    · have := ih hmem
      omega

/-- When the lines that end with a line feed and the run after the last line feed have at
most `N` bytes, every piece of the stream has. -/
theorem linesOf_le_of_parts (N : Nat) (s : List Char)
    (hlines : ∀ l ∈ terminatedLines s, l.length ≤ N)
    (hrun : (unterminatedRun s).length ≤ N) : ∀ l ∈ linesOf s, l.length ≤ N := by
  intro l hl
  by_cases ht : l.getLast? = some '\n'
  · apply hlines l
    unfold terminatedLines
    exact List.mem_filter.mpr ⟨hl, by simpa using ht⟩
  · have hmem : l ∈ (linesOf s).filter (fun l => decide (l.getLast? ≠ some '\n')) :=
      List.mem_filter.mpr ⟨hl, by simpa using ht⟩
    have := length_le_length_flatten l _ hmem
    unfold unterminatedRun at hrun
    omega

/-- C22 (amended): for every byte stream fed one byte per call, starting from a
zero-initialised handle, in which every line (a maximal run of bytes up to and including its
line feed) and also the run of bytes after the last line feed has at most
`RX_BUFFER_SIZE` = 100 bytes: every call is
defined, `rxCounter` is at most 100 after every call, and every byte still to come is stored
at an index below 100. For a handle with any registry and a cursor of 0 the same bounds hold
after every prefix of calls that is defined. -/
theorem cursor_never_exceeds_capacity (L : LibC) (g : GsvState) (stream : List Char)
    (hlines : ∀ l ∈ terminatedLines stream, l.length ≤ RX_BUFFER_SIZE)
    (hrun : (unterminatedRun stream).length ≤ RX_BUFFER_SIZE) :
    (∀ p q, stream = p ++ q →
      ∃ res, feed L p zeroHandle g = some res ∧ res.1.rxCounter ≤ 100 ∧
        (∀ b q2, q = b :: q2 → res.1.rxCounter < 100 ∧
          ∃ h1, storeByte { res.1 with rcvdByte := b } = some h1 ∧
            h1.rxBuff = res.1.rxBuff.set res.1.rxCounter b)) ∧
    (∀ (h0 : NEO6M_Handle_t) (g0 : GsvState), h0.rxCounter = 0 →
      ∀ p q, stream = p ++ q → ∀ res, feed L p h0 g0 = some res →
        res.1.rxCounter ≤ 100 ∧
        (∀ b q2, q = b :: q2 → res.1.rxCounter < 100 ∧
          ∃ h1, storeByte { res.1 with rcvdByte := b } = some h1 ∧
            h1.rxBuff = res.1.rxBuff.set res.1.rxCounter b)) := by
  have hruns : ∀ pre run post, stream = pre ++ run ++ post → '\n' ∉ run.dropLast →
      run.length ≤ RX_BUFFER_SIZE := fun pre run post hdec hno =>
    run_le_of_linesOf_le RX_BUFFER_SIZE pre stream run post hdec
      (linesOf_le_of_parts RX_BUFFER_SIZE stream hlines hrun) hno
  have hstore : ∀ (h : NEO6M_Handle_t) (b : Char), h.rxCounter < RX_BUFFER_SIZE →
      h.rxCounter < 100 ∧ ∃ h1, storeByte { h with rcvdByte := b } = some h1 ∧
        h1.rxBuff = h.rxBuff.set h.rxCounter b := by
    intro h b hc
    refine ⟨hc, ?_⟩
    unfold storeByte
    rw [if_pos hc]
    exact ⟨_, rfl, rfl⟩
  have hgen : ∀ (h0 : NEO6M_Handle_t) (g0 : GsvState), h0.rxCounter = 0 →
      ∀ p q, stream = p ++ q → ∀ res, feed L p h0 g0 = some res →
        res.1.rxCounter ≤ RX_BUFFER_SIZE ∧ (q ≠ [] → res.1.rxCounter < RX_BUFFER_SIZE) := by
    intro h0 g0 hc p q hpq res hres
    apply feed_cursor_bound L p h0 g0 [] q (by simpa using hc) (by simp) ?_ res hres
    intro pre r post hdec hno
    apply hruns pre r post ?_ hno
    rw [hpq, ← hdec]
    simp
  refine ⟨?_, ?_⟩
  · intro p q hpq
    obtain ⟨res, hres, _, _⟩ := feed_total_none_enabled L p zeroHandle g [] q
      zeroHandle_none_enabled rfl (by simp) (by
        intro pre r post hdec hno
        apply hruns pre r post ?_ hno
        rw [hpq, ← hdec]
        simp)
    obtain ⟨hle, hlt⟩ := hgen zeroHandle g rfl p q hpq res hres
    refine ⟨res, hres, hle, ?_⟩
    intro b q2 hq
    exact hstore res.1 b (hlt (by rw [hq]; simp))
  · intro h0 g0 hc p q hpq res hres
    obtain ⟨hle, hlt⟩ := hgen h0 g0 hc p q hpq res hres
    refine ⟨hle, ?_⟩
    intro b q2 hq
    exact hstore res.1 b (hlt (by rw [hq]; simp))

theorem cursor_never_exceeds_capacity_witness :
    (∀ l ∈ terminatedLines threeRunStream, l.length ≤ RX_BUFFER_SIZE) ∧
    (unterminatedRun threeRunStream).length ≤ RX_BUFFER_SIZE ∧
    ((∀ p q, threeRunStream = p ++ q →
      ∃ res, feed refLibC p zeroHandle gsvInit = some res ∧ res.1.rxCounter ≤ 100 ∧
        (∀ b q2, q = b :: q2 → res.1.rxCounter < 100 ∧
          ∃ h1, storeByte { res.1 with rcvdByte := b } = some h1 ∧
            h1.rxBuff = res.1.rxBuff.set res.1.rxCounter b)) ∧
    (∀ (h0 : NEO6M_Handle_t) (g0 : GsvState), h0.rxCounter = 0 →
      ∀ p q, threeRunStream = p ++ q → ∀ res, feed refLibC p h0 g0 = some res →
        res.1.rxCounter ≤ 100 ∧
        (∀ b q2, q = b :: q2 → res.1.rxCounter < 100 ∧
          ∃ h1, storeByte { res.1 with rcvdByte := b } = some h1 ∧
            h1.rxBuff = res.1.rxBuff.set res.1.rxCounter b))) := by
  have hlines : ∀ l ∈ terminatedLines threeRunStream, l.length ≤ RX_BUFFER_SIZE := by decide
  have hrun : (unterminatedRun threeRunStream).length ≤ RX_BUFFER_SIZE := by decide
  exact ⟨hlines, hrun,
    cursor_never_exceeds_capacity refLibC gsvInit threeRunStream hlines hrun⟩

/-- The bound of 100 bytes per line is tight: a line of 100 bytes is received with the cursor
back at 0, and the line feed of a line of 101 bytes is stored past the array. -/
theorem line_longer_than_capacity_overflows :
    terminatedLines line101 = [line101] ∧ line101.length = 101 ∧
    (feed refLibC line101.tail zeroHandle gsvInit).map (fun r => r.1.rxCounter) = some 0 ∧
    (feed refLibC line101.dropLast zeroHandle gsvInit).map (fun r => r.1.rxCounter)
      = some 100 ∧
    (feed refLibC line101 zeroHandle gsvInit).isSome = false := by
  refine ⟨by decide, by decide, by decide, by decide, by decide⟩

/-- C22 (as stated) fails: a stream of 101 bytes without a line feed has no line at all, so
every line of it has at most 100 bytes; its first 100 bytes are stored with the cursor at
100, and the call for byte 101 stores at index 100, past the array of `RX_BUFFER_SIZE`
bytes. -/
theorem unterminated_run_counterexample :
    unterminatedStream.length = 101 ∧ '\n' ∉ unterminatedStream ∧
    terminatedLines unterminatedStream = [] ∧
    (∀ l ∈ terminatedLines unterminatedStream, l.length ≤ RX_BUFFER_SIZE) ∧
    unterminatedRun unterminatedStream = unterminatedStream ∧
    (feed refLibC (unterminatedStream.take 100) zeroHandle gsvInit).map
      (fun r => r.1.rxCounter) = some 100 ∧
    (∀ r, feed refLibC (unterminatedStream.take 100) zeroHandle gsvInit = some r →
      storeByte { r.1 with rcvdByte := 'A' } = none) ∧
    (feed refLibC unterminatedStream zeroHandle gsvInit).isSome = false := by
  refine ⟨by decide, by decide, by decide, by decide, by decide, by decide, ?_, by decide⟩
  intro r hr
  have hc : (feed refLibC (unterminatedStream.take 100) zeroHandle gsvInit).map
      (fun r => r.1.rxCounter) = some 100 := by decide
  rw [hr] at hc
  simp only [Option.map_some', Option.some.injEq] at hc
  unfold storeByte
  rw [if_neg (by simp only [hc]; decide)]

/-! ## The 8-bit count at its limits -/

/-- C4 (as stated) fails: after `NEO6M_RemoveExpectedMessage(EMPTY)` on a zero-initialised
handle every slot is empty and the count is 255; `NEO6M_AddExpectedMessage(GLL)` then fills
slot 0 and returns 0, and the count is 0, not 256. -/
theorem add_count_wraps_counterexample :
    wrappedHandle.WF ∧ (∃ s ∈ wrappedHandle.expectedMessages, s.callback = none) ∧
    wrappedHandle.expectedMessagesCount = 255 ∧
    (NEO6M_AddExpectedMessage wrappedHandle .GLL .HAL_OK).ret = 0 ∧
    (NEO6M_AddExpectedMessage wrappedHandle .GLL .HAL_OK).handle.expectedMessages.getD 0
      emptyMessage = NMEA_STANDART_MESSAGGES .GLL ∧
    (NEO6M_AddExpectedMessage wrappedHandle .GLL .HAL_OK).handle.expectedMessagesCount = 0 ∧
    (NEO6M_AddExpectedMessage wrappedHandle .GLL .HAL_OK).handle.expectedMessagesCount ≠
      wrappedHandle.expectedMessagesCount + 1 := by
  decide

/-- C5 (as stated) fails: after enabling GLL and `NEO6M_RemoveExpectedMessage(EMPTY)`, slot 0
holds GLL and the count is 0; `NEO6M_RemoveExpectedMessage(GLL)` then clears slot 0 and
returns 0, and the count is 255, not one less than 0. -/
theorem remove_count_wraps_counterexample :
    gllUncountedHandle.WF ∧ (∃ s ∈ gllUncountedHandle.expectedMessages, s.type = .GLL) ∧
    gllUncountedHandle.expectedMessagesCount = 0 ∧
    (NEO6M_RemoveExpectedMessage gllUncountedHandle .GLL).2 = 0 ∧
    (NEO6M_RemoveExpectedMessage gllUncountedHandle .GLL).1.expectedMessages.getD 0
      emptyMessage = emptyMessage ∧
    (NEO6M_RemoveExpectedMessage gllUncountedHandle .GLL).1.expectedMessagesCount = 255 ∧
    (NEO6M_RemoveExpectedMessage gllUncountedHandle .GLL).1.expectedMessagesCount + 1 ≠
      gllUncountedHandle.expectedMessagesCount := by
  decide

/-- C14 (as stated) fails: the handle after `NEO6M_RemoveExpectedMessage(EMPTY)` on a
zero-initialised handle has `receive_status = NEO_FREE`, empty slots and the count 255; with a
failing `HAL_UART_Receive_IT`, `NEO6M_AddExpectedMessage(RMC)` returns 1 with RMC in slot 0,
and the count is 0, not 256. -/
theorem failed_start_count_wraps_counterexample :
    wrappedHandle.WF ∧ wrappedHandle.receive_status = .NEO_FREE ∧
    (∃ s ∈ wrappedHandle.expectedMessages, s.callback = none) ∧
    wrappedHandle.expectedMessagesCount = 255 ∧
    (NEO6M_AddExpectedMessage wrappedHandle .RMC .HAL_BUSY).ret = 1 ∧
    (NEO6M_AddExpectedMessage wrappedHandle .RMC .HAL_BUSY).handle.expectedMessages.getD 0
      emptyMessage = NMEA_STANDART_MESSAGGES .RMC ∧
    (NEO6M_AddExpectedMessage wrappedHandle .RMC .HAL_BUSY).handle.expectedMessagesCount = 0 ∧
    (NEO6M_AddExpectedMessage wrappedHandle .RMC .HAL_BUSY).handle.expectedMessagesCount ≠
      wrappedHandle.expectedMessagesCount + 1 := by
  decide

/-! ## A GSV line with fewer than four satellite blocks -/

/-- C17 on the code: a GSV group whose last fragment has one satellite block (7 commas, a
`'*'`) is buffered like any other, without a callback; when the next GSV line enters the flush
branch, the first buffered line yields its record, but on the second line `nmea_parser` runs
out of commas, so `gsv_handle`, and with it the whole call, is undefined: no second callback
with the record of that line is made. With two buffered lines of four blocks the same flush
makes the two callbacks with the records of the two lines and resets the statics. -/
theorem gsv_flush_short_line_is_undefined :
    gsvShortLine.count ',' = 7 ∧ '*' ∈ gsvShortLine ∧
    (feed refLibC (gsvFragment1 ++ gsvShortFragment) gsvHandle gsvInit).map
      (fun r => (r.2.1, r.2.2)) = some (gsvShortBuffered, []) ∧
    storeByte (pendingLine gsvHandle gsvLine1) = some gsvStored1 ∧
    handlerCalls (pendingLine gsvHandle gsvLine1) = [(.gsv_handle, 0)] ∧
    gsv_get_noMsg gsvStored1.rxBuff = some 2 ∧ gsvShortBuffered.gsv_count = 2 ∧
    gsvRecord refLibC gsvLine1 =
      some { noMsg := 2, msgNo := 1, noSV := 8,
             repeated_block :=
               [{ sv := 1, elv := 40, az := 83, cno := 46 },
                { sv := 2, elv := 17, az := 308, cno := 41 },
                { sv := 12, elv := 7, az := 344, cno := 39 },
                { sv := 14, elv := 22, az := 228, cno := 45 }],
             cs := 117 } ∧
    gsvRecord refLibC gsvShortLine = none ∧
    gsv_handle refLibC gsvStored1 0 gsvShortBuffered = none ∧
    (NEO6M_MessageHandler refLibC (pendingLine gsvHandle gsvLine1) gsvShortBuffered).isSome
      = false ∧
    (feed refLibC (gsvFragment1 ++ gsvShortFragment ++ gsvFragment1) gsvHandle gsvInit).isSome
      = false ∧
    gsv_handle refLibC gsvStored1 0 gsvTwoBuffered =
      some (gsvInit,
        [{ callback := .NEO6M_GSVCallBack,
           package := .gsv
             { noMsg := 2, msgNo := 1, noSV := 8,
               repeated_block :=
                 [{ sv := 1, elv := 40, az := 83, cno := 46 },
                  { sv := 2, elv := 17, az := 308, cno := 41 },
                  { sv := 12, elv := 7, az := 344, cno := 39 },
                  { sv := 14, elv := 22, az := 228, cno := 45 }],
               cs := 117 } },
         { callback := .NEO6M_GSVCallBack,
           package := .gsv
             { noMsg := 2, msgNo := 2, noSV := 8,
               repeated_block :=
                 [{ sv := 15, elv := 30, az := 100, cno := 40 },
                  { sv := 16, elv := 20, az := 200, cno := 38 },
                  { sv := 17, elv := 10, az := 300, cno := 35 },
                  { sv := 18, elv := 5, az := 50, cno := 30 }],
               cs := 122 } }]) := by
  refine ⟨by decide, by decide, by decide, by decide, by decide, by decide, by decide,
    by decide, by decide, by decide, by decide, by decide, by decide⟩

/-! ## The handlers and their records -/

theorem ctype_eq_float (v : Value) (h : v.ctype = .float) : ∃ x, v = .f x := by
  cases v <;> first | exact ⟨_, rfl⟩ | cases h

theorem ctype_eq_double (v : Value) (h : v.ctype = .double) : ∃ x, v = .d x := by
  cases v <;> first | exact ⟨_, rfl⟩ | cases h

theorem ctype_eq_char (v : Value) (h : v.ctype = .char) : ∃ x, v = .c x := by
  cases v <;> first | exact ⟨_, rfl⟩ | cases h

theorem ctype_eq_uint8 (v : Value) (h : v.ctype = .uint8_t) : ∃ x, v = .u8 x := by
  cases v <;> first | exact ⟨_, rfl⟩ | cases h

theorem ctype_eq_uint16 (v : Value) (h : v.ctype = .uint16_t) : ∃ x, v = .u16 x := by
  cases v <;> first | exact ⟨_, rfl⟩ | cases h

theorem ctype_eq_uint32 (v : Value) (h : v.ctype = .uint32_t) : ∃ x, v = .u32 x := by
  cases v <;> first | exact ⟨_, rfl⟩ | cases h

theorem map_ctype_cons (outs : List Value) (t : CType) (ts : List CType)
    (h : outs.map Value.ctype = t :: ts) :
    ∃ v vs, outs = v :: vs ∧ v.ctype = t ∧ vs.map Value.ctype = ts := by
  cases outs with
  | nil => cases h
  | cons v vs =>
    simp only [List.map_cons, List.cons.injEq] at h
    exact ⟨v, vs, rfl, h.1, h.2⟩

theorem map_ctype_nil (outs : List Value) (h : outs.map Value.ctype = []) : outs = [] := by
  cases outs with
  | nil => rfl
  | cons v vs => cases h

/-- The record `gll_handle` builds holds the values `nmea_parser` stored, in the declared
order of the fields and with their declared types. -/
theorem gll_handle_record (L : LibC) (package : List Char) (outs : List Value) (cs : Nat)
    (hp : nmeaParser L package "dcdc3cc".toList = some (outs, cs)) :
    ∃ p : GLL_Package_t, (Package.gll p).values = outs ++ [Value.u16 cs] ∧
      ∀ (handle : NEO6M_Handle_t) (i : Nat), cstr? handle.rxBuff = some package →
        gll_handle L handle i = (convertCoords (.gll p)).bind (callCallback handle i) := by
  have ht := nmeaParser_ctypes L package _ outs cs hp
  have hf : "dcdc3cc".toList.map tagCType =
      [.double, .char, .double, .char, .uint32_t, .char, .char] := by decide
  rw [hf] at ht
  obtain ⟨v0, o0, rfl, h0, ht⟩ := map_ctype_cons _ _ _ ht
  obtain ⟨v1, o1, rfl, h1, ht⟩ := map_ctype_cons _ _ _ ht
  obtain ⟨v2, o2, rfl, h2, ht⟩ := map_ctype_cons _ _ _ ht
  obtain ⟨v3, o3, rfl, h3, ht⟩ := map_ctype_cons _ _ _ ht
  obtain ⟨v4, o4, rfl, h4, ht⟩ := map_ctype_cons _ _ _ ht
  obtain ⟨v5, o5, rfl, h5, ht⟩ := map_ctype_cons _ _ _ ht
  obtain ⟨v6, o6, rfl, h6, ht⟩ := map_ctype_cons _ _ _ ht
  have hnil := map_ctype_nil _ ht
  subst hnil
  obtain ⟨x0, rfl⟩ := ctype_eq_double v0 h0
  obtain ⟨x1, rfl⟩ := ctype_eq_char v1 h1
  obtain ⟨x2, rfl⟩ := ctype_eq_double v2 h2
  obtain ⟨x3, rfl⟩ := ctype_eq_char v3 h3
  obtain ⟨x4, rfl⟩ := ctype_eq_uint32 v4 h4
  obtain ⟨x5, rfl⟩ := ctype_eq_char v5 h5
  obtain ⟨x6, rfl⟩ := ctype_eq_char v6 h6
  refine ⟨{ latitude := x0, ns := x1, longitude := x2, ew := x3, time := x4, valid := x5,
            mode := x6, cs := cs }, rfl, ?_⟩
  intro handle i hc
  unfold gll_handle convertCoords
  simp only [hc, hp, List.get?, Option.bind, Value.f?, Value.d?, Value.c?, Value.u8?,
    Value.u16?, Value.u32?]
  cases nmea_to_dec x0 x1 <;> cases nmea_to_dec x2 x3 <;> rfl
/-- The record `gga_handle` builds holds the values `nmea_parser` stored, in the declared
order of the fields and with their declared types. -/
theorem gga_handle_record (L : LibC) (package : List Char) (outs : List Value) (cs : Nat)
    (hp : nmeaParser L package "3dcdc88ffcfc88".toList = some (outs, cs)) :
    ∃ p : GGA_Package_t, (Package.gga p).values = outs ++ [Value.u16 cs] ∧
      ∀ (handle : NEO6M_Handle_t) (i : Nat), cstr? handle.rxBuff = some package →
        gga_handle L handle i = (convertCoords (.gga p)).bind (callCallback handle i) := by
  have ht := nmeaParser_ctypes L package _ outs cs hp
  have hf : "3dcdc88ffcfc88".toList.map tagCType =
      [.uint32_t, .double, .char, .double, .char, .uint8_t, .uint8_t, .float, .float, .char,
       .float, .char, .uint8_t, .uint8_t] := by decide
  rw [hf] at ht
  obtain ⟨v0, o0, rfl, h0, ht⟩ := map_ctype_cons _ _ _ ht
  obtain ⟨v1, o1, rfl, h1, ht⟩ := map_ctype_cons _ _ _ ht
  obtain ⟨v2, o2, rfl, h2, ht⟩ := map_ctype_cons _ _ _ ht
  obtain ⟨v3, o3, rfl, h3, ht⟩ := map_ctype_cons _ _ _ ht
  obtain ⟨v4, o4, rfl, h4, ht⟩ := map_ctype_cons _ _ _ ht
  obtain ⟨v5, o5, rfl, h5, ht⟩ := map_ctype_cons _ _ _ ht
  obtain ⟨v6, o6, rfl, h6, ht⟩ := map_ctype_cons _ _ _ ht
  obtain ⟨v7, o7, rfl, h7, ht⟩ := map_ctype_cons _ _ _ ht
  obtain ⟨v8, o8, rfl, h8, ht⟩ := map_ctype_cons _ _ _ ht
  obtain ⟨v9, o9, rfl, h9, ht⟩ := map_ctype_cons _ _ _ ht
  obtain ⟨v10, o10, rfl, h10, ht⟩ := map_ctype_cons _ _ _ ht
  obtain ⟨v11, o11, rfl, h11, ht⟩ := map_ctype_cons _ _ _ ht
  obtain ⟨v12, o12, rfl, h12, ht⟩ := map_ctype_cons _ _ _ ht
  obtain ⟨v13, o13, rfl, h13, ht⟩ := map_ctype_cons _ _ _ ht
  have hnil := map_ctype_nil _ ht
  subst hnil
  obtain ⟨x0, rfl⟩ := ctype_eq_uint32 v0 h0
  obtain ⟨x1, rfl⟩ := ctype_eq_double v1 h1
  obtain ⟨x2, rfl⟩ := ctype_eq_char v2 h2
  obtain ⟨x3, rfl⟩ := ctype_eq_double v3 h3
  obtain ⟨x4, rfl⟩ := ctype_eq_char v4 h4
  obtain ⟨x5, rfl⟩ := ctype_eq_uint8 v5 h5
  obtain ⟨x6, rfl⟩ := ctype_eq_uint8 v6 h6
  obtain ⟨x7, rfl⟩ := ctype_eq_float v7 h7
  obtain ⟨x8, rfl⟩ := ctype_eq_float v8 h8
  obtain ⟨x9, rfl⟩ := ctype_eq_char v9 h9
  obtain ⟨x10, rfl⟩ := ctype_eq_float v10 h10
  obtain ⟨x11, rfl⟩ := ctype_eq_char v11 h11
  obtain ⟨x12, rfl⟩ := ctype_eq_uint8 v12 h12
  obtain ⟨x13, rfl⟩ := ctype_eq_uint8 v13 h13
  refine ⟨{ time := x0, latitude := x1, ns := x2, longitude := x3, ew := x4, fs := x5,
            noSV := x6, hdop := x7, msl := x8, uMsl := x9, altref := x10, uSep := x11,
            diffAge := x12, diffStation := x13, cs := cs }, rfl, ?_⟩
  intro handle i hc
  unfold gga_handle convertCoords
  simp only [hc, hp, List.get?, Option.bind, Value.f?, Value.d?, Value.c?, Value.u8?,
    Value.u16?, Value.u32?]
  cases nmea_to_dec x1 x2 <;> cases nmea_to_dec x3 x4 <;> rfl

/-- The record `gsa_handle` builds holds the values `nmea_parser` stored, in the declared
order of the fields and with their declared types. -/
theorem gsa_handle_record (L : LibC) (package : List Char) (outs : List Value) (cs : Nat)
    (hp : nmeaParser L package "c8888888888888fff".toList = some (outs, cs)) :
    ∃ p : GSA_Package_t, (Package.gsa p).values = outs ++ [Value.u16 cs] ∧
      ∀ (handle : NEO6M_Handle_t) (i : Nat), cstr? handle.rxBuff = some package →
        gsa_handle L handle i = (convertCoords (.gsa p)).bind (callCallback handle i) := by
  have ht := nmeaParser_ctypes L package _ outs cs hp
  have hf : "c8888888888888fff".toList.map tagCType =
      [.char, .uint8_t, .uint8_t, .uint8_t, .uint8_t, .uint8_t, .uint8_t, .uint8_t, .uint8_t,
       .uint8_t, .uint8_t, .uint8_t, .uint8_t, .uint8_t, .float, .float, .float] := by decide
  rw [hf] at ht
  obtain ⟨v0, o0, rfl, h0, ht⟩ := map_ctype_cons _ _ _ ht
  obtain ⟨v1, o1, rfl, h1, ht⟩ := map_ctype_cons _ _ _ ht
  obtain ⟨v2, o2, rfl, h2, ht⟩ := map_ctype_cons _ _ _ ht
  obtain ⟨v3, o3, rfl, h3, ht⟩ := map_ctype_cons _ _ _ ht
  obtain ⟨v4, o4, rfl, h4, ht⟩ := map_ctype_cons _ _ _ ht
  obtain ⟨v5, o5, rfl, h5, ht⟩ := map_ctype_cons _ _ _ ht
  obtain ⟨v6, o6, rfl, h6, ht⟩ := map_ctype_cons _ _ _ ht
  obtain ⟨v7, o7, rfl, h7, ht⟩ := map_ctype_cons _ _ _ ht
  obtain ⟨v8, o8, rfl, h8, ht⟩ := map_ctype_cons _ _ _ ht
  obtain ⟨v9, o9, rfl, h9, ht⟩ := map_ctype_cons _ _ _ ht
  obtain ⟨v10, o10, rfl, h10, ht⟩ := map_ctype_cons _ _ _ ht
  obtain ⟨v11, o11, rfl, h11, ht⟩ := map_ctype_cons _ _ _ ht
  obtain ⟨v12, o12, rfl, h12, ht⟩ := map_ctype_cons _ _ _ ht
  obtain ⟨v13, o13, rfl, h13, ht⟩ := map_ctype_cons _ _ _ ht
  obtain ⟨v14, o14, rfl, h14, ht⟩ := map_ctype_cons _ _ _ ht
  obtain ⟨v15, o15, rfl, h15, ht⟩ := map_ctype_cons _ _ _ ht
  obtain ⟨v16, o16, rfl, h16, ht⟩ := map_ctype_cons _ _ _ ht
  have hnil := map_ctype_nil _ ht
  subst hnil
  obtain ⟨x0, rfl⟩ := ctype_eq_char v0 h0
  obtain ⟨x1, rfl⟩ := ctype_eq_uint8 v1 h1
  obtain ⟨x2, rfl⟩ := ctype_eq_uint8 v2 h2
  obtain ⟨x3, rfl⟩ := ctype_eq_uint8 v3 h3
  obtain ⟨x4, rfl⟩ := ctype_eq_uint8 v4 h4
  obtain ⟨x5, rfl⟩ := ctype_eq_uint8 v5 h5
  obtain ⟨x6, rfl⟩ := ctype_eq_uint8 v6 h6
  obtain ⟨x7, rfl⟩ := ctype_eq_uint8 v7 h7
  obtain ⟨x8, rfl⟩ := ctype_eq_uint8 v8 h8
  obtain ⟨x9, rfl⟩ := ctype_eq_uint8 v9 h9
  obtain ⟨x10, rfl⟩ := ctype_eq_uint8 v10 h10
  obtain ⟨x11, rfl⟩ := ctype_eq_uint8 v11 h11
  obtain ⟨x12, rfl⟩ := ctype_eq_uint8 v12 h12
  obtain ⟨x13, rfl⟩ := ctype_eq_uint8 v13 h13
  obtain ⟨x14, rfl⟩ := ctype_eq_float v14 h14
  obtain ⟨x15, rfl⟩ := ctype_eq_float v15 h15
  obtain ⟨x16, rfl⟩ := ctype_eq_float v16 h16
  refine ⟨{ sMode := x0, fs := x1, sv := [x2, x3, x4, x5, x6, x7, x8, x9, x10, x11, x12, x13],
            pdop := x14, hdop := x15, vdop := x16, cs := cs }, rfl, ?_⟩
  intro handle i hc
  unfold gsa_handle convertCoords
  simp only [hc, hp, List.get?, Option.bind, Value.f?, Value.d?, Value.c?, Value.u8?,
    Value.u16?, Value.u32?]

/-- The record `rmc_handle` builds holds the values `nmea_parser` stored, in the declared
order of the fields and with their declared types. -/
theorem rmc_handle_record (L : LibC) (package : List Char) (outs : List Value) (cs : Nat)
    (hp : nmeaParser L package "3cdcdcff3fcc".toList = some (outs, cs)) :
    ∃ p : RMC_Package_t, (Package.rmc p).values = outs ++ [Value.u16 cs] ∧
      ∀ (handle : NEO6M_Handle_t) (i : Nat), cstr? handle.rxBuff = some package →
        rmc_handle L handle i = (convertCoords (.rmc p)).bind (callCallback handle i) := by
  have ht := nmeaParser_ctypes L package _ outs cs hp
  have hf : "3cdcdcff3fcc".toList.map tagCType =
      [.uint32_t, .char, .double, .char, .double, .char, .float, .float, .uint32_t, .float,
       .char, .char] := by decide
  rw [hf] at ht
  obtain ⟨v0, o0, rfl, h0, ht⟩ := map_ctype_cons _ _ _ ht
  obtain ⟨v1, o1, rfl, h1, ht⟩ := map_ctype_cons _ _ _ ht
  obtain ⟨v2, o2, rfl, h2, ht⟩ := map_ctype_cons _ _ _ ht
  obtain ⟨v3, o3, rfl, h3, ht⟩ := map_ctype_cons _ _ _ ht
  obtain ⟨v4, o4, rfl, h4, ht⟩ := map_ctype_cons _ _ _ ht
  obtain ⟨v5, o5, rfl, h5, ht⟩ := map_ctype_cons _ _ _ ht
  obtain ⟨v6, o6, rfl, h6, ht⟩ := map_ctype_cons _ _ _ ht
  obtain ⟨v7, o7, rfl, h7, ht⟩ := map_ctype_cons _ _ _ ht
  obtain ⟨v8, o8, rfl, h8, ht⟩ := map_ctype_cons _ _ _ ht
  obtain ⟨v9, o9, rfl, h9, ht⟩ := map_ctype_cons _ _ _ ht
  obtain ⟨v10, o10, rfl, h10, ht⟩ := map_ctype_cons _ _ _ ht
  obtain ⟨v11, o11, rfl, h11, ht⟩ := map_ctype_cons _ _ _ ht
  have hnil := map_ctype_nil _ ht
  subst hnil
  obtain ⟨x0, rfl⟩ := ctype_eq_uint32 v0 h0
  obtain ⟨x1, rfl⟩ := ctype_eq_char v1 h1
  obtain ⟨x2, rfl⟩ := ctype_eq_double v2 h2
  obtain ⟨x3, rfl⟩ := ctype_eq_char v3 h3
  obtain ⟨x4, rfl⟩ := ctype_eq_double v4 h4
  obtain ⟨x5, rfl⟩ := ctype_eq_char v5 h5
  obtain ⟨x6, rfl⟩ := ctype_eq_float v6 h6
  obtain ⟨x7, rfl⟩ := ctype_eq_float v7 h7
  obtain ⟨x8, rfl⟩ := ctype_eq_uint32 v8 h8
  obtain ⟨x9, rfl⟩ := ctype_eq_float v9 h9
  obtain ⟨x10, rfl⟩ := ctype_eq_char v10 h10
  obtain ⟨x11, rfl⟩ := ctype_eq_char v11 h11
  refine ⟨{ time := x0, status := x1, latitude := x2, ns := x3, longitude := x4, ew := x5,
            spd := x6, cog := x7, date := x8, mv := x9, mvE := x10, mode := x11, cs := cs }, rfl, ?_⟩
  intro handle i hc
  unfold rmc_handle convertCoords
  simp only [hc, hp, List.get?, Option.bind, Value.f?, Value.d?, Value.c?, Value.u8?,
    Value.u16?, Value.u32?]
  cases nmea_to_dec x2 x3 <;> cases nmea_to_dec x4 x5 <;> rfl

/-- The record `vtg_handle` builds holds the values `nmea_parser` stored, in the declared
order of the fields and with their declared types. -/
theorem vtg_handle_record (L : LibC) (package : List Char) (outs : List Value) (cs : Nat)
    (hp : nmeaParser L package "fc8cfcfcc".toList = some (outs, cs)) :
    ∃ p : VTG_Package_t, (Package.vtg p).values = outs ++ [Value.u16 cs] ∧
      ∀ (handle : NEO6M_Handle_t) (i : Nat), cstr? handle.rxBuff = some package →
        vtg_handle L handle i = (convertCoords (.vtg p)).bind (callCallback handle i) := by
  have ht := nmeaParser_ctypes L package _ outs cs hp
  have hf : "fc8cfcfcc".toList.map tagCType =
      [.float, .char, .uint8_t, .char, .float, .char, .float, .char, .char] := by decide
  rw [hf] at ht
  obtain ⟨v0, o0, rfl, h0, ht⟩ := map_ctype_cons _ _ _ ht
  obtain ⟨v1, o1, rfl, h1, ht⟩ := map_ctype_cons _ _ _ ht
  obtain ⟨v2, o2, rfl, h2, ht⟩ := map_ctype_cons _ _ _ ht
  obtain ⟨v3, o3, rfl, h3, ht⟩ := map_ctype_cons _ _ _ ht
  obtain ⟨v4, o4, rfl, h4, ht⟩ := map_ctype_cons _ _ _ ht
  obtain ⟨v5, o5, rfl, h5, ht⟩ := map_ctype_cons _ _ _ ht
  obtain ⟨v6, o6, rfl, h6, ht⟩ := map_ctype_cons _ _ _ ht
  obtain ⟨v7, o7, rfl, h7, ht⟩ := map_ctype_cons _ _ _ ht
  obtain ⟨v8, o8, rfl, h8, ht⟩ := map_ctype_cons _ _ _ ht
  have hnil := map_ctype_nil _ ht
  subst hnil
  obtain ⟨x0, rfl⟩ := ctype_eq_float v0 h0
  obtain ⟨x1, rfl⟩ := ctype_eq_char v1 h1
  obtain ⟨x2, rfl⟩ := ctype_eq_uint8 v2 h2
  obtain ⟨x3, rfl⟩ := ctype_eq_char v3 h3
  obtain ⟨x4, rfl⟩ := ctype_eq_float v4 h4
  obtain ⟨x5, rfl⟩ := ctype_eq_char v5 h5
  obtain ⟨x6, rfl⟩ := ctype_eq_float v6 h6
  obtain ⟨x7, rfl⟩ := ctype_eq_char v7 h7
  obtain ⟨x8, rfl⟩ := ctype_eq_char v8 h8
  refine ⟨{ cogt := x0, true_ := x1, cogm := x2, magnetic := x3, sog := x4, knots := x5,
            kph := x6, kilometers := x7, mode := x8, cs := cs }, rfl, ?_⟩
  intro handle i hc
  unfold vtg_handle convertCoords
  simp only [hc, hp, List.get?, Option.bind, Value.f?, Value.d?, Value.c?, Value.u8?,
    Value.u16?, Value.u32?]

/-- The record the flush loop of `gsv_handle` builds from a token holds the values
`nmea_parser` stored, in the declared order of the fields and with their declared types. -/
theorem gsv_handle_record (L : LibC) (package : List Char) (outs : List Value) (cs : Nat)
    (hp : nmeaParser L package "8888818881888188818".toList = some (outs, cs)) :
    ∃ p : GSV_Package_t, (Package.gsv p).values = outs ++ [Value.u16 cs] ∧
      gsvPackage outs cs = some p ∧
      ∀ (handle : NEO6M_Handle_t) (i n : Nat) (saveptr : List Char),
        gsvFlushLoop L handle i (n + 1) (some package) saveptr =
          (callCallback handle i (.gsv p)).bind (fun ev =>
            (gsvFlushLoop L handle i n (strtok_r saveptr).1 (strtok_r saveptr).2).map
              (fun rest => ev ++ rest)) := by
  have ht := nmeaParser_ctypes L package _ outs cs hp
  have hf : "8888818881888188818".toList.map tagCType =
      [.uint8_t, .uint8_t, .uint8_t, .uint8_t, .uint8_t, .uint16_t, .uint8_t, .uint8_t,
       .uint8_t, .uint16_t, .uint8_t, .uint8_t, .uint8_t, .uint16_t, .uint8_t, .uint8_t,
       .uint8_t, .uint16_t, .uint8_t] := by decide
  rw [hf] at ht
  obtain ⟨v0, o0, rfl, h0, ht⟩ := map_ctype_cons _ _ _ ht
  obtain ⟨v1, o1, rfl, h1, ht⟩ := map_ctype_cons _ _ _ ht
  obtain ⟨v2, o2, rfl, h2, ht⟩ := map_ctype_cons _ _ _ ht
  obtain ⟨v3, o3, rfl, h3, ht⟩ := map_ctype_cons _ _ _ ht
  obtain ⟨v4, o4, rfl, h4, ht⟩ := map_ctype_cons _ _ _ ht
  obtain ⟨v5, o5, rfl, h5, ht⟩ := map_ctype_cons _ _ _ ht
  obtain ⟨v6, o6, rfl, h6, ht⟩ := map_ctype_cons _ _ _ ht
  obtain ⟨v7, o7, rfl, h7, ht⟩ := map_ctype_cons _ _ _ ht
  obtain ⟨v8, o8, rfl, h8, ht⟩ := map_ctype_cons _ _ _ ht
  obtain ⟨v9, o9, rfl, h9, ht⟩ := map_ctype_cons _ _ _ ht
  obtain ⟨v10, o10, rfl, h10, ht⟩ := map_ctype_cons _ _ _ ht
  obtain ⟨v11, o11, rfl, h11, ht⟩ := map_ctype_cons _ _ _ ht
  obtain ⟨v12, o12, rfl, h12, ht⟩ := map_ctype_cons _ _ _ ht
  obtain ⟨v13, o13, rfl, h13, ht⟩ := map_ctype_cons _ _ _ ht
  obtain ⟨v14, o14, rfl, h14, ht⟩ := map_ctype_cons _ _ _ ht
  obtain ⟨v15, o15, rfl, h15, ht⟩ := map_ctype_cons _ _ _ ht
  obtain ⟨v16, o16, rfl, h16, ht⟩ := map_ctype_cons _ _ _ ht
  obtain ⟨v17, o17, rfl, h17, ht⟩ := map_ctype_cons _ _ _ ht
  obtain ⟨v18, o18, rfl, h18, ht⟩ := map_ctype_cons _ _ _ ht
  have hnil := map_ctype_nil _ ht
  subst hnil
  obtain ⟨x0, rfl⟩ := ctype_eq_uint8 v0 h0
  obtain ⟨x1, rfl⟩ := ctype_eq_uint8 v1 h1
  obtain ⟨x2, rfl⟩ := ctype_eq_uint8 v2 h2
  obtain ⟨x3, rfl⟩ := ctype_eq_uint8 v3 h3
  obtain ⟨x4, rfl⟩ := ctype_eq_uint8 v4 h4
  obtain ⟨x5, rfl⟩ := ctype_eq_uint16 v5 h5
  obtain ⟨x6, rfl⟩ := ctype_eq_uint8 v6 h6
  obtain ⟨x7, rfl⟩ := ctype_eq_uint8 v7 h7
  obtain ⟨x8, rfl⟩ := ctype_eq_uint8 v8 h8
  obtain ⟨x9, rfl⟩ := ctype_eq_uint16 v9 h9
  obtain ⟨x10, rfl⟩ := ctype_eq_uint8 v10 h10
  obtain ⟨x11, rfl⟩ := ctype_eq_uint8 v11 h11
  obtain ⟨x12, rfl⟩ := ctype_eq_uint8 v12 h12
  obtain ⟨x13, rfl⟩ := ctype_eq_uint16 v13 h13
  obtain ⟨x14, rfl⟩ := ctype_eq_uint8 v14 h14
  obtain ⟨x15, rfl⟩ := ctype_eq_uint8 v15 h15
  obtain ⟨x16, rfl⟩ := ctype_eq_uint8 v16 h16
  obtain ⟨x17, rfl⟩ := ctype_eq_uint16 v17 h17
  obtain ⟨x18, rfl⟩ := ctype_eq_uint8 v18 h18
  have hpk : gsvPackage
      [Value.u8 x0, Value.u8 x1, Value.u8 x2, Value.u8 x3, Value.u8 x4, Value.u16 x5,
       Value.u8 x6, Value.u8 x7, Value.u8 x8, Value.u16 x9, Value.u8 x10, Value.u8 x11,
       Value.u8 x12, Value.u16 x13, Value.u8 x14, Value.u8 x15, Value.u8 x16, Value.u16 x17,
       Value.u8 x18] cs =
      some
        { noMsg := x0, msgNo := x1, noSV := x2,
          repeated_block :=
            [{ sv := x3, elv := x4, az := x5, cno := x6 },
             { sv := x7, elv := x8, az := x9, cno := x10 },
             { sv := x11, elv := x12, az := x13, cno := x14 },
             { sv := x15, elv := x16, az := x17, cno := x18 }],
          cs := cs } := by
    unfold gsvPackage
    simp only [List.get?, Option.bind, Value.u8?, Value.u16?]
  refine ⟨_, ?_, hpk, ?_⟩
  · rfl
  · intro handle i n saveptr
    rw [gsvFlushLoop]
    simp only [hp, hpk]
    cases callCallback handle i (Package.gsv
        { noMsg := x0, msgNo := x1, noSV := x2,
          repeated_block :=
            [{ sv := x3, elv := x4, az := x5, cno := x6 },
             { sv := x7, elv := x8, az := x9, cno := x10 },
             { sv := x11, elv := x12, az := x13, cno := x14 },
             { sv := x15, elv := x16, az := x17, cno := x18 }],
          cs := cs }) with
    | none => rfl
    | some ev =>
      cases gsvFlushLoop L handle i n (strtok_r saveptr).1 (strtok_r saveptr).2 <;> rfl

/-- For each handler, a line with enough commas and a `'*'` is parsed with the handler's
format, and the record built from the stored values lists them in the declared order with
the declared types; the handler then converts the coordinates and calls the callback. -/
theorem handler_record_of_parse (f : HandlerFunction_t) (L : LibC) (package : List Char)
    (outs : List Value) (cs : Nat)
    (hp : nmeaParser L package (handlerFormat f) = some (outs, cs)) :
    ∃ pkg : Package, pkg.handler = f ∧ pkg.values = outs ++ [Value.u16 cs] ∧
      (f ≠ .gsv_handle → ∀ (handle : NEO6M_Handle_t) (i : Nat) (g : GsvState),
        cstr? handle.rxBuff = some package →
        f.run L handle i g =
          ((convertCoords pkg).bind (callCallback handle i)).map (fun evs => (g, evs))) ∧
      (f = .gsv_handle → ∀ (handle : NEO6M_Handle_t) (i n : Nat) (saveptr : List Char),
        gsvFlushLoop L handle i (n + 1) (some package) saveptr =
          (callCallback handle i pkg).bind (fun ev =>
            (gsvFlushLoop L handle i n (strtok_r saveptr).1 (strtok_r saveptr).2).map
              (fun rest => ev ++ rest))) := by
  cases f with
  | gll_handle =>
    obtain ⟨p, hv, hrun⟩ := gll_handle_record L package outs cs hp
    refine ⟨.gll p, rfl, hv, ?_, fun h => by cases h⟩
    intro _ handle i g hc
    show (gll_handle L handle i).map _ = _
    rw [hrun handle i hc]
  | gga_handle =>
    obtain ⟨p, hv, hrun⟩ := gga_handle_record L package outs cs hp
    refine ⟨.gga p, rfl, hv, ?_, fun h => by cases h⟩
    intro _ handle i g hc
    show (gga_handle L handle i).map _ = _
    rw [hrun handle i hc]
  | gsa_handle =>
    obtain ⟨p, hv, hrun⟩ := gsa_handle_record L package outs cs hp
    refine ⟨.gsa p, rfl, hv, ?_, fun h => by cases h⟩
    intro _ handle i g hc
    show (gsa_handle L handle i).map _ = _
    rw [hrun handle i hc]
  | gsv_handle =>
    obtain ⟨p, hv, _, hrun⟩ := gsv_handle_record L package outs cs hp
    exact ⟨.gsv p, rfl, hv, fun h => absurd rfl h, fun _ => hrun⟩
  | rmc_handle =>
    obtain ⟨p, hv, hrun⟩ := rmc_handle_record L package outs cs hp
    refine ⟨.rmc p, rfl, hv, ?_, fun h => by cases h⟩
    intro _ handle i g hc
    show (rmc_handle L handle i).map _ = _
    rw [hrun handle i hc]
  | vtg_handle =>
    obtain ⟨p, hv, hrun⟩ := vtg_handle_record L package outs cs hp
    refine ⟨.vtg p, rfl, hv, ?_, fun h => by cases h⟩
    intro _ handle i g hc
    show (vtg_handle L handle i).map _ = _
    rw [hrun handle i hc]

/-- A line on which `nmea_parser` fails with the handler's format makes the handler
undefined. -/
theorem handler_none_of_parse (f : HandlerFunction_t) (L : LibC) (package : List Char)
    (hp : nmeaParser L package (handlerFormat f) = none) :
    (f ≠ .gsv_handle → ∀ (handle : NEO6M_Handle_t) (i : Nat) (g : GsvState),
      cstr? handle.rxBuff = some package → f.run L handle i g = none) ∧
    (f = .gsv_handle → ∀ (handle : NEO6M_Handle_t) (i n : Nat) (saveptr : List Char),
      gsvFlushLoop L handle i (n + 1) (some package) saveptr = none) := by
  cases f with
  | gll_handle =>
    refine ⟨?_, fun h => by cases h⟩
    intro _ handle i g hc
    show (gll_handle L handle i).map _ = none
    unfold gll_handle
    simp only [hc]
    rw [show nmeaParser L package "dcdc3cc".toList = none from hp]
    rfl
  | gga_handle =>
    refine ⟨?_, fun h => by cases h⟩
    intro _ handle i g hc
    show (gga_handle L handle i).map _ = none
    unfold gga_handle
    simp only [hc]
    rw [show nmeaParser L package "3dcdc88ffcfc88".toList = none from hp]
    rfl
  | gsa_handle =>
    refine ⟨?_, fun h => by cases h⟩
    intro _ handle i g hc
    show (gsa_handle L handle i).map _ = none
    unfold gsa_handle
    simp only [hc]
    rw [show nmeaParser L package "c8888888888888fff".toList = none from hp]
    rfl
  | gsv_handle =>
    refine ⟨fun h => absurd rfl h, ?_⟩
    intro _ handle i n saveptr
    rw [gsvFlushLoop]
    rw [show nmeaParser L package "8888818881888188818".toList = none from hp]
  | rmc_handle =>
    refine ⟨?_, fun h => by cases h⟩
    intro _ handle i g hc
    show (rmc_handle L handle i).map _ = none
    unfold rmc_handle
    simp only [hc]
    rw [show nmeaParser L package "3cdcdcff3fcc".toList = none from hp]
    rfl
  | vtg_handle =>
    refine ⟨?_, fun h => by cases h⟩
    intro _ handle i g hc
    show (vtg_handle L handle i).map _ = none
    unfold vtg_handle
    simp only [hc]
    rw [show nmeaParser L package "fc8cfcfcc".toList = none from hp]
    rfl
/-- C20: for each of the six handlers, the format string passed to `nmea_parser` has one tag
per record field passed before `cs` (15, 8, 18, 20, 13 and 10 output slots for GGA, GLL, GSA,
GSV, RMC and VTG), the fields are passed in the record's declared order with `cs` last, and
the pointer type each tag stores through (with `uint16_t` for the checksum) is the declared
type of the field it is paired with. On the handlers themselves: on every line with a comma
per tag and a `'*'`, the handler's `nmea_parser` call succeeds with that format, and the
record it fills holds exactly the stored values followed by the checksum, in the declared
order of the fields and with their declared types; that record, after the coordinate
conversion of the handler, is what the callback receives (for GSV, what each iteration of the
flush loop hands to the callback). On every other line the handler is undefined. -/
theorem handler_formats_match_records (f : HandlerFunction_t) (L : LibC)
    (package : List Char) :
    (handlerFormat f).length + 1 = (handlerArgs f).length ∧
    ([HandlerFunction_t.gga_handle, .gll_handle, .gsa_handle, .gsv_handle, .rmc_handle,
        .vtg_handle].map (fun f' => (handlerArgs f').length) = [15, 8, 18, 20, 13, 10]) ∧
    handlerArgs f = (recordFields f).map Prod.fst ∧
    (handlerArgs f).getLast? = some "cs" ∧
    (∀ t ∈ handlerFormat f, t ∈ commaTags) ∧
    (handlerFormat f).map tagCType ++ [CType.uint16_t] = (recordFields f).map Prod.snd ∧
    (nmeaParser L package (handlerFormat f)).map
        (fun r => r.1.map Value.ctype ++ [CType.uint16_t]) =
      (nmeaParser L package (handlerFormat f)).map (fun _ => (recordFields f).map Prod.snd) ∧
    (((handlerFormat f).length ≤ package.count ',' ∧ '*' ∈ package) →
      ∃ (outs : List Value) (cs : Nat) (pkg : Package),
        nmeaParser L package (handlerFormat f) = some (outs, cs) ∧
        outs.length = (handlerFormat f).length ∧
        pkg.handler = f ∧ pkg.values = outs ++ [Value.u16 cs] ∧
        pkg.values.length = (handlerArgs f).length ∧
        pkg.values.map Value.ctype = (recordFields f).map Prod.snd ∧
        (f ≠ .gsv_handle → ∀ (handle : NEO6M_Handle_t) (i : Nat) (g : GsvState),
          cstr? handle.rxBuff = some package →
          f.run L handle i g =
            ((convertCoords pkg).bind (callCallback handle i)).map (fun evs => (g, evs))) ∧
        (f = .gsv_handle → ∀ (handle : NEO6M_Handle_t) (i n : Nat) (saveptr : List Char),
          gsvFlushLoop L handle i (n + 1) (some package) saveptr =
            (callCallback handle i pkg).bind (fun ev =>
              (gsvFlushLoop L handle i n (strtok_r saveptr).1 (strtok_r saveptr).2).map
                (fun rest => ev ++ rest)))) ∧
    (¬ ((handlerFormat f).length ≤ package.count ',' ∧ '*' ∈ package) →
      nmeaParser L package (handlerFormat f) = none ∧
      (f ≠ .gsv_handle → ∀ (handle : NEO6M_Handle_t) (i : Nat) (g : GsvState),
        cstr? handle.rxBuff = some package → f.run L handle i g = none) ∧
      (f = .gsv_handle → ∀ (handle : NEO6M_Handle_t) (i n : Nat) (saveptr : List Char),
        gsvFlushLoop L handle i (n + 1) (some package) saveptr = none)) := by
  have htypes : (handlerFormat f).map tagCType ++ [CType.uint16_t] =
      (recordFields f).map Prod.snd := by
    cases f <;> decide
  have hargs : (handlerFormat f).length + 1 = (handlerArgs f).length := by
    cases f <;> decide
  have hcount : (handlerFormat f).countP isCommaTag = (handlerFormat f).length := by
    cases f <;> decide
  have hiff := nmeaParser_isSome_iff L package (handlerFormat f)
  rw [hcount] at hiff
  refine ⟨hargs, by decide, by cases f <;> decide, by cases f <;> decide,
    by cases f <;> decide, htypes, ?_, ?_, ?_⟩
  · cases hp : nmeaParser L package (handlerFormat f) with
    | none => rfl
    | some r =>
      obtain ⟨outs, cs⟩ := r
      simp only [Option.map_some', Option.some.injEq]
      rw [nmeaParser_ctypes L package _ outs cs hp]
      exact htypes
  · intro hwell
    cases hp : nmeaParser L package (handlerFormat f) with
    | none =>
      have := hiff.mpr hwell
      rw [hp] at this
      cases this
    | some r =>
      obtain ⟨outs, cs⟩ := r
      obtain ⟨pkg, hk, hv, hrun, hflush⟩ := handler_record_of_parse f L package outs cs hp
      have hct := nmeaParser_ctypes L package _ outs cs hp
      have hlen : outs.length = (handlerFormat f).length := by
        have := congrArg List.length hct
        simpa using this
      refine ⟨outs, cs, pkg, rfl, hlen, hk, hv, ?_, ?_, hrun, hflush⟩
      · rw [hv, List.length_append, hlen, ← hargs]
        rfl
      · rw [hv, List.map_append, hct, ← htypes]
        rfl
  · intro hnot
    have hp : nmeaParser L package (handlerFormat f) = none := by
      cases hp : nmeaParser L package (handlerFormat f) with
      | none => rfl
      | some r =>
        have : (nmeaParser L package (handlerFormat f)).isSome = true := by rw [hp]; rfl
        exact absurd (hiff.mp this) hnot
    exact ⟨hp, handler_none_of_parse f L package hp⟩

end Neo6m
